import Mathlib

/-!
# Table-capacity reservation allocator of the restaurant API

A shallow embedding of `createByLocation`
(`src/controllers/api/reservations.controllers.js`) and of the data-access
functions it calls (`src/models/api/*.models.js`), followed by theorems about
the allocation loop and the booking protocol.

Conventions of the embedding:

* JavaScript numbers that hold seat counts are `Int`; identifiers are `Nat`.
* Dates, dining slots, locations and statuses are canonical strings, compared by
  equality (the comparison MySQL makes in `WHERE col = ?`).
* A request body is a record of optional fields: `none` is an absent key, which
  destructures to `undefined` and is bound as SQL `NULL`.
* An `await`ed query that rejects is an `Except.error`; `try/catch` is a `match`.
* Database reads always answer; the read handlers getById and getAll take the
  rejection of their query, if any, as a parameter.
-/

namespace CRM

/-! ## Data model -/

/-- Row of the SQL table named table. -/
structure Table where
  id : Nat
  number : Nat
  capacity : Int
  location : String
deriving DecidableEq, Repr

/-- Row of the SQL table reservation. -/
structure Reservation where
  id : Nat
  date : String
  time : String
  guests : Int
  status : String
  user_id : Nat
deriving DecidableEq, Repr

/-- Row of the SQL table reservation_has_table (a table assignment). -/
structure ReservationHasTable where
  reservation_id : Nat
  table_id : Nat
  date : String
  time : String
deriving DecidableEq, Repr

/-- Row of the SQL table user, restricted to the columns the controllers read. -/
structure User where
  id : Nat
  name : String
  email : String
deriving DecidableEq, Repr

/-- Error object thrown by a query or by the runtime; only `code` is inspected by
the controllers. -/
structure JsError where
  code : Option String
  message : String
deriving DecidableEq, Repr

/-- Contents of the database, with the AUTO_INCREMENT counters of the two tables
the controllers insert into. -/
structure Db where
  tables : List Table
  reservations : List Reservation
  assignments : List ReservationHasTable
  users : List User
  nextReservationId : Nat
  nextTableId : Nat
deriving DecidableEq, Repr

/-- Modelled from the spec: the SQL schema is not among the sources, so what the
storage layer decides on its own is a parameter. `cascade` says whether
reservation_has_table rows are deleted together with the reservation or table
they reference (§3: an assignment is deleted when the owning reservation is
deleted; §4.4: cascade behaviour, if any, is a storage-layer concern).
`reservationFault` is the storage error, if any, raised for the column values of
a reservation insert (ER_TRUNCATED_WRONG_VALUE and the like), `statusFault` the
one raised for the value of a status update. `uniqueSlot` says
whether reservation_has_table carries the uniqueness constraint on
(table_id, date, time) of §3 and §5, which the ER_DUP_ENTRY branch of the
controller expects. Columns are NOT NULL (§3 gives every field a value). -/
structure Storage where
  uniqueSlot : Bool
  cascade : Bool
  reservationFault : String → String → Int → String → Nat → Option JsError
  statusFault : String → Option JsError

/-- A message handed to sendEmail. -/
structure Email where
  recipient : String
  subject : String
  text : String
deriving DecidableEq, Repr

/-- Modelled from the spec: utils/helpers.js (sendEmail) is not among the
sources. The notifier is an external collaborator (§2); `some e` means the call
throws `e`, `none` means the message was handed over. -/
abbrev Mailer := Email → Option JsError

/-- Database plus the messages handed to the notifier so far. -/
structure World where
  db : Db
  outbox : List Email
deriving DecidableEq, Repr

/-- The JSON body of POST /reservations; `none` is an absent key. -/
structure Body where
  date : Option String
  time : Option String
  guests : Option Int
  status : Option String
  user_id : Option Nat
  location : Option String
deriving DecidableEq, Repr

/-- An element of the array answered by getAllAvailableByDate; `available` is the
object of lines 107-111, as the list of its entries. -/
structure TableAvailability where
  id : Nat
  number : Nat
  available : List (String × Bool)
deriving DecidableEq, Repr

/-- What the handler does with the response object. -/
inductive Response where
  | message (status : Nat) (message : String)
  | created (status : Nat) (message : String) (reservationId : Nat)
  | reservation (status : Nat) (row : Reservation)
  | reservations (status : Nat) (rows : List Reservation)
  | table (status : Nat) (row : Table)
  | availability (status : Nat) (entries : List TableAvailability)
  | next (err : JsError)
  | silent
deriving DecidableEq, Repr

/-! ## Helpers of utils/helpers.js as seen from their callers -/

/-- The object returned by hasKeys. -/
structure KeysCheck where
  hasAllKeys : Bool
  missingKeys : List String
deriving DecidableEq, Repr

/-- The JavaScript values that reach a boolean context in the controllers. -/
inductive JsVal where
  | undefined
  | bool (b : Bool)
  | object (o : KeysCheck)
deriving DecidableEq, Repr

/-- JavaScript ToBoolean: every object is truthy. -/
def JsVal.truthy : JsVal → Bool
  | .undefined => false
  | .bool b => b
  | .object _ => true

/-- Own-property test of a request body. -/
def Body.hasKey (body : Body) (key : String) : Bool :=
  if key = "date" then body.date.isSome
  else if key = "time" then body.time.isSome
  else if key = "guests" then body.guests.isSome
  else if key = "status" then body.status.isSome
  else if key = "user_id" then body.user_id.isSome
  else if key = "location" then body.location.isSome
  else false

/-- Modelled from the spec: utils/helpers.js (hasKeys) is not among the sources.
Its result is the object that hasRequiredBodyKeys (middlewares/auth.js, lines
125-138) destructures into hasAllKeys and missingKeys; its content is the
presence check of §4.4 step 1. -/
def hasKeys (hasKey : String → Bool) (keys : List String) : KeysCheck :=
  let missingKeys := keys.filter (fun key => !hasKey key)
  { hasAllKeys := missingKeys.isEmpty, missingKeys := missingKeys }

/-- The keys createByLocation asks for (line 47). -/
def requiredKeys : List String :=
  ["date", "time", "guests", "status", "user_id", "location"]

/-- JavaScript `a < g` where `g` may be undefined (comparison with NaN is false). -/
def jsLt (a : Int) (g : Option Int) : Bool :=
  match g with
  | some n => decide (a < n)
  | none => false

/-- JavaScript `g > a` where `g` may be undefined. -/
def jsGt (g : Option Int) (a : Int) : Bool :=
  match g with
  | some n => decide (n > a)
  | none => false

/-! ## Data access (models) -/

/-- The function getUserById of user.models.js: SELECT * FROM user WHERE id = ?. -/
def getUserById (db : Db) (id : Option Nat) : Option User :=
  match id with
  | none => none
  | some i => db.users.find? (fun u => u.id == i)

/-- The function selectByLocation of tables.models.js: SELECT * FROM table WHERE location = ?. -/
def selectByLocation (db : Db) (location : Option String) : List Table :=
  match location with
  | none => []
  | some l => db.tables.filter (fun t => t.location == l)

/-- The function selectByTableDateTime of reservation-has-table.models.js: true
iff some row has that table_id, date and time. -/
def selectByTableDateTime (db : Db) (table_id : Nat) (date time : Option String) : Bool :=
  match date, time with
  | some d, some t =>
      db.assignments.any (fun a => a.table_id == table_id && a.date == d && a.time == t)
  | _, _ => false

/-- The function insertReservation of reservations.models.js: returns the insertId. -/
def insertReservation (st : Storage) (db : Db) (date time : Option String)
    (guests : Option Int) (status : Option String) (user_id : Option Nat) :
    Except JsError (Nat × Db) :=
  match date, time, guests, status, user_id with
  | some d, some t, some g, some s, some u =>
      match st.reservationFault d t g s u with
      | some err => .error err
      | none =>
          let id := db.nextReservationId
          .ok (id, { db with
            reservations := db.reservations ++ [⟨id, d, t, g, s, u⟩],
            nextReservationId := id + 1 })
  | _, _, _, _, _ => .error ⟨some "ER_BAD_NULL_ERROR", "Column cannot be null"⟩

/-- The function insertReservationTable of reservation-has-table.models.js. -/
def insertReservationTable (st : Storage) (db : Db) (reservationId : Nat)
    (date time : Option String) (tableId : Nat) : Except JsError Db :=
  match date, time with
  | some d, some t =>
      if st.uniqueSlot &&
          db.assignments.any (fun a => a.table_id == tableId && a.date == d && a.time == t) then
        .error ⟨some "ER_DUP_ENTRY", "Duplicate entry"⟩
      else
        .ok { db with assignments := db.assignments ++ [⟨reservationId, tableId, d, t⟩] }
  | _, _ => .error ⟨some "ER_BAD_NULL_ERROR", "Column cannot be null"⟩

/-- The function deleteById of reservations.models.js: DELETE FROM reservation
WHERE id = ?; the result says whether a row was affected. An undefined id is
bound as NULL and matches nothing. -/
def deleteById (st : Storage) (db : Db) (id : Option Nat) : Bool × Db :=
  match id with
  | none => (false, db)
  | some i =>
      if db.reservations.any (fun r => r.id == i) then
        (true, { db with
          reservations := db.reservations.filter (fun r => r.id != i),
          assignments :=
            if st.cascade then db.assignments.filter (fun a => a.reservation_id != i)
            else db.assignments })
      else (false, db)

/-! ## createByLocation -/

/-- Loop state of lines 72-84: the running capacity and the tables pushed so far. -/
structure Scan where
  capacity : Int
  selectedTables : List Table
deriving DecidableEq, Repr

/-- One iteration of the loop of lines 77-84. -/
def scanStep (db : Db) (date time : Option String) (guests : Option Int)
    (acc : Scan) (table : Table) : Scan :=
  let isReserved := selectByTableDateTime db table.id date time
  if jsLt acc.capacity guests && !isReserved then
    { capacity := acc.capacity + table.capacity,
      selectedTables := acc.selectedTables ++ [table] }
  else acc

/-- The loop of lines 76-84 over the listing `tables`. -/
def allocationLoop (db : Db) (date time : Option String) (guests : Option Int)
    (tables : List Table) : Scan :=
  tables.foldl (scanStep db date time guests) { capacity := 0, selectedTables := [] }

/-- Lines 71-88: list the tables of the location, run the loop, and either answer
409 or hand the selection to the booking. -/
def allocate (db : Db) (location date time : Option String) (guests : Option Int) :
    Except Response (List Table) :=
  let tables := selectByLocation db location
  let scan := allocationLoop db date time guests tables
  if jsGt guests scan.capacity then
    .error (.message 409 "Guests exceed our capacity")
  else .ok scan.selectedTables

/-- Lines 92-93: every insert of the mapped list is issued; Promise.all rejects
with the first rejection, the other inserts still run. -/
def insertAll (st : Storage) (db : Db) (reservationId : Nat) (date time : Option String) :
    List Table → Db × Option JsError
  | [] => (db, none)
  | table :: rest =>
      match insertReservationTable st db reservationId date time table.id with
      | .ok db1 => insertAll st db1 reservationId date time rest
      | .error err => ((insertAll st db reservationId date time rest).1, some err)

/-- Lines 107-115: classification of the error caught in the booking phase. -/
def classify (err : JsError) : Response :=
  if err.code = some "ER_TRUNCATED_WRONG_VALUE" ∨ err.code = some "WARN_DATA_TRUNCATED"
      ∨ err.code = some "ER_TRUNCATED_WRONG_VALUE_FOR_FIELD" then
    .message 400 "Invalid body data"
  else if err.code = some "ER_DUP_ENTRY" then
    .message 409 "Tables already reserved"
  else .next err

/-- The catch block of lines 102-116: delete the reservation, then classify. -/
def compensate (st : Storage) (db : Db) (reservationId : Option Nat) (err : JsError) :
    Response × Db :=
  (classify err, (deleteById st db reservationId).2)

/-- Lines 90-116: insert the reservation and its table assignments, look the user
up again, answer 200; any rejection goes to the catch block. -/
def book (st : Storage) (db : Db) (date time : Option String) (guests : Option Int)
    (status : Option String) (user_id : Option Nat) (selectedTables : List Table) :
    Response × Db :=
  match insertReservation st db date time guests status user_id with
  | .error err => compensate st db none err
  | .ok (reservationId, db1) =>
      match insertAll st db1 reservationId date time selectedTables with
      | (db2, some err) => compensate st db2 (some reservationId) err
      | (db2, none) =>
          match getUserById db2 user_id with
          | none =>
              compensate st db2 (some reservationId)
                ⟨none, "Cannot read properties of null (reading email)"⟩
          | some _ => (.created 200 "Reservation succesful" reservationId, db2)

/-- The message of lines 58-62. -/
def receivedEmail (user : User) : Email :=
  { recipient := user.email,
    subject := "¡Reserva recibida, " ++ user.name ++ "!",
    text := "En breve recibirá un correo con la confirmación de su reserva." }

/-- The handler createByLocation (lines 44-117). `race` is what requests served
concurrently have committed between the availability scan and the inserts (the
check-then-act window of §5); a run without interleaving has `race = id`. -/
def createByLocation (st : Storage) (mailer : Mailer) (race : Db → Db) (body : Body)
    (w : World) : Response × World :=
  if !(JsVal.object (hasKeys body.hasKey requiredKeys)).truthy then
    (.message 400 "Invalid body data", w)
  else
    match getUserById w.db body.user_id with
    | none => (.message 404 "The user with the requested id does not exists", w)
    | some user =>
        match mailer (receivedEmail user) with
        | some err => (.next err, w)
        | none =>
            let outbox := w.outbox ++ [receivedEmail user]
            match allocate w.db body.location body.date body.time body.guests with
            | .error response => (response, { w with outbox := outbox })
            | .ok selectedTables =>
                let result := book st (race w.db) body.date body.time body.guests
                  body.status body.user_id selectedTables
                (result.1, { db := result.2, outbox := outbox })

/-! ## The other handlers that write to the ledger or to the table directory -/

/-- The function selectById of reservations.models.js. -/
def selectById (db : Db) (id : Nat) : Option Reservation :=
  db.reservations.find? (fun r => r.id == id)

/-- The function updateStatusById of reservations.models.js: UPDATE reservation
SET status = ? WHERE id = ?; the result says whether a row matched. -/
def updateStatusById (st : Storage) (db : Db) (id : Nat) (status : String) :
    Except JsError (Bool × Db) :=
  match st.statusFault status with
  | some err => .error err
  | none =>
      .ok (db.reservations.any (fun r => r.id == id),
        { db with reservations :=
            db.reservations.map (fun r => if r.id == id then { r with status := status } else r) })

/-- The message of lines 202-206. -/
def confirmedEmail (user : User) : Email :=
  { recipient := user.email,
    subject := "¡Buenas noticias, " ++ user.name ++ "!",
    text := "Su reserva ha sido confirmada" }

/-- Lines 220-225: classification of the error caught around an update. -/
def classifyUpdate (err : JsError) : Response :=
  if err.code = some "ER_TRUNCATED_WRONG_VALUE" ∨ err.code = some "WARN_DATA_TRUNCATED"
      ∨ err.code = some "ER_TRUNCATED_WRONG_VALUE_FOR_FIELD" then
    .message 400 "Invalid body data"
  else .next err

/-- The handler setReservationStatusById (lines 186-227). -/
def setReservationStatusById (st : Storage) (mailer : Mailer) (id : Nat) (status : String)
    (w : World) : Response × World :=
  let notified : Except Response World :=
    if status = "confirmed" then
      match selectById w.db id with
      | none =>
          .error (.message 404 "The reservation with the requested id does not exists")
      | some reservation =>
          match getUserById w.db (some reservation.user_id) with
          | none => .error (.next ⟨none, "Cannot read properties of null (reading email)"⟩)
          | some user =>
              match mailer (confirmedEmail user) with
              | some err => .error (.next err)
              | none => .ok { w with outbox := w.outbox ++ [confirmedEmail user] }
    else .ok w
  match notified with
  | .error response => (response, w)
  | .ok w1 =>
      match updateStatusById st w1.db id status with
      | .error err => (classifyUpdate err, w1)
      | .ok (result, db1) =>
          (if result then .message 200 "Update successful" else .silent, { w1 with db := db1 })

/-- The handler deleteReservation (lines 168-184). -/
def deleteReservation (st : Storage) (id : Nat) (w : World) : Response × World :=
  match selectById w.db id with
  | none => (.message 404 "The reservation with the requested id does not exists", w)
  | some reservation =>
      (.reservation 200 reservation, { w with db := (deleteById st w.db (some id)).2 })

/-- The JSON body of POST /tables; `none` is an absent key. -/
structure TableBody where
  number : Option Nat
  capacity : Option Int
  location : Option String
deriving DecidableEq, Repr

/-- Own-property test of the body of POST /tables. -/
def TableBody.hasKey (body : TableBody) (key : String) : Bool :=
  if key = "number" then body.number.isSome
  else if key = "capacity" then body.capacity.isSome
  else if key = "location" then body.location.isSome
  else false

/-- The function selectTableById of tables.models.js. -/
def selectTableById (db : Db) (id : Nat) : Option Table :=
  db.tables.find? (fun t => t.id == id)

/-- The function insertTable of tables.models.js: returns the insertId. The table
number is unique (§3, and the ER_DUP_ENTRY branch of createTable). -/
def insertTable (db : Db) (number : Option Nat) (capacity : Option Int)
    (location : Option String) : Except JsError (Nat × Db) :=
  match number, capacity, location with
  | some n, some c, some l =>
      if db.tables.any (fun t => t.number == n) then
        .error ⟨some "ER_DUP_ENTRY", "Duplicate entry"⟩
      else
        let id := db.nextTableId
        .ok (id, { db with tables := db.tables ++ [⟨id, n, c, l⟩], nextTableId := id + 1 })
  | _, _, _ => .error ⟨some "ER_BAD_NULL_ERROR", "Column cannot be null"⟩

/-- The function updateTableCapacityById of tables.models.js. -/
def updateTableCapacityById (db : Db) (id : Nat) (capacity : Int) : Bool × Db :=
  (db.tables.any (fun t => t.id == id),
    { db with tables :=
        db.tables.map (fun t => if t.id == id then { t with capacity := capacity } else t) })

/-- The function deleteTableById of tables.models.js. -/
def deleteTableById (st : Storage) (db : Db) (id : Nat) : Bool × Db :=
  if db.tables.any (fun t => t.id == id) then
    (true, { db with
      tables := db.tables.filter (fun t => t.id != id),
      assignments :=
        if st.cascade then db.assignments.filter (fun a => a.table_id != id)
        else db.assignments })
  else (false, db)

/-- The handler createTable of tables.controllers.js (lines 53-81). -/
def createTable (body : TableBody) (w : World) : Response × World :=
  if !(JsVal.object (hasKeys body.hasKey ["number", "capacity", "location"])).truthy then
    (.message 400 "Invalid body data", w)
  else
    match insertTable w.db body.number body.capacity body.location with
    | .ok (tableId, db1) => (.created 200 "Creation successful" tableId, { w with db := db1 })
    | .error err =>
        (if err.code = some "ER_TRUNCATED_WRONG_VALUE" ∨ err.code = some "WARN_DATA_TRUNCATED"
            ∨ err.code = some "ER_TRUNCATED_WRONG_VALUE_FOR_FIELD" then
          .message 400 "Invalid body data"
        else if err.code = some "ER_DUP_ENTRY" then
          .message 409 "Table with the selected number already exists"
        else .next err, w)

/-- The handler setTableCapacityById of tables.controllers.js (lines 33-51), for
a numeric capacity parameter. -/
def setTableCapacityById (id : Nat) (capacity : Int) (w : World) : Response × World :=
  let result := updateTableCapacityById w.db id capacity
  (if result.1 then .message 200 "Update successful" else .silent, { w with db := result.2 })

/-- The handler removeTableById of tables.controllers.js (lines 15-31). -/
def removeTableById (st : Storage) (id : Nat) (w : World) : Response × World :=
  match selectTableById w.db id with
  | none => (.message 404 "The table with the requested id does not exists", w)
  | some table => (.table 200 table, { w with db := (deleteTableById st w.db id).2 })

/-- A request to one of the six operations that write. -/
inductive Op where
  | createByLocation (body : Body)
  | setReservationStatusById (id : Nat) (status : String)
  | deleteReservation (id : Nat)
  | createTable (body : TableBody)
  | setTableCapacityById (id : Nat) (capacity : Int)
  | removeTableById (id : Nat)
deriving DecidableEq, Repr

/-- The world after serving one request, requests being served one at a time. -/
def Op.run (st : Storage) (mailer : Mailer) (op : Op) (w : World) : World :=
  match op with
  | .createByLocation body => (CRM.createByLocation st mailer id body w).2
  | .setReservationStatusById i status => (CRM.setReservationStatusById st mailer i status w).2
  | .deleteReservation i => (CRM.deleteReservation st i w).2
  | .createTable body => (CRM.createTable body w).2
  | .setTableCapacityById i capacity => (CRM.setTableCapacityById i capacity w).2
  | .removeTableById i => (CRM.removeTableById st i w).2

/-- The world after serving a sequence of requests. -/
def runAll (st : Storage) (mailer : Mailer) (ops : List Op) (w : World) : World :=
  ops.foldl (fun acc op => op.run st mailer acc) w

/-- The operation rewrites or removes a table that reservations may hold. -/
def Op.touchesTables : Op → Bool
  | .setTableCapacityById _ _ => true
  | .removeTableById _ => true
  | _ => false

/-- A world with users only: no table, no reservation, no assignment. -/
def emptyWorld (users : List User) : World :=
  { db := { tables := [], reservations := [], assignments := [], users := users,
            nextReservationId := 1, nextTableId := 1 },
    outbox := [] }

/-! ## The handlers that read the ledger -/

/-- The handler getById (lines 29-42). `fault` is the error with which the query
of selectById rejects, when the storage fails; `none` when it answers. -/
def getById (fault : Option JsError) (id : Nat) (w : World) : Response × World :=
  match fault with
  | some err => (.next err, w)
  | none =>
      match selectById w.db id with
      | none => (.message 404 "The reservation with the requested id does not exists", w)
      | some reservation => (.reservation 200 reservation, w)

/-- The whitelist of line 13. -/
def validParams : List String := ["id", "date", "time", "guests", "status", "user_id"]

/-- One step of Object.fromEntries: a key already present keeps its place and
takes the new value, a new key goes last. -/
def setEntry (obj : List (String × String)) (entry : String × String) :
    List (String × String) :=
  if obj.any (fun e => e.1 == entry.1) then
    obj.map (fun e => if e.1 == entry.1 then entry else e)
  else obj ++ [entry]

/-- JavaScript Object.fromEntries, an object being the list of its entries in
property order (no key here is an integer index). -/
def fromEntries (entries : List (String × String)) : List (String × String) :=
  entries.foldl setEntry []

/-- Lines 8-16 of getAll: the object handed to selectByParams. `query` is
Object.entries(req.query), values being strings. -/
def getAllFilter (query : List (String × String)) : List (String × String) :=
  if query.length != 0 then
    fromEntries (query.filter (fun param => validParams.contains param.1))
  else []

/-- Lines 18-26 of selectByParams: one iteration of keys.forEach, `length` being
keys.length. -/
def queryStep (length : Nat) (queryString : String) (entry : Nat × String) : String :=
  let q1 := if entry.1 == 0 then queryString ++ " WHERE" else queryString
  let q2 := q1 ++ (" " ++ entry.2 ++ " = ? ")
  if entry.1 != length - 1 then q2 ++ "AND " else q2

/-- The query text that selectByParams builds for the keys of its argument. -/
def queryString (keys : List String) : String :=
  keys.enum.foldl (queryStep keys.length) "SELECT * FROM reservation"

/-- The value of a column of a reservation row in canonical text, or none when
the table has no such column. -/
def Reservation.column (r : Reservation) (key : String) : Option String :=
  if key = "id" then some (toString r.id)
  else if key = "date" then some r.date
  else if key = "time" then some r.time
  else if key = "guests" then some (toString r.guests)
  else if key = "status" then some r.status
  else if key = "user_id" then some (toString r.user_id)
  else none

/-- The function selectByParams of reservations.models.js: the rows that satisfy
every condition key = value of the built query (values compared in canonical
text); a key that is no column is rejected by the storage. `fault` is the error
with which the query rejects when the storage fails. -/
def selectByParams (fault : Option JsError) (db : Db) (params : List (String × String)) :
    Except JsError (List Reservation) :=
  match fault with
  | some err => .error err
  | none =>
      if params.all (fun p => validParams.contains p.1) then
        .ok (db.reservations.filter
          (fun r => params.all (fun p => r.column p.1 == some p.2)))
      else .error ⟨some "ER_BAD_FIELD_ERROR", "Unknown column in where clause"⟩

/-- The handler getAll (lines 7-26). -/
def getAll (fault : Option JsError) (query : List (String × String)) (w : World) :
    Response × World :=
  match selectByParams fault w.db (getAllFilter query) with
  | .ok reservations => (.reservations 200 reservations, w)
  | .error err => (.next err, w)

/-- Lines 14-15 and 28 of selectByParams: the text and the values handed to
db.query, keys and values being Object.keys and Object.values of the filter. -/
def selectByParamsQuery (params : List (String × String)) : String × List String :=
  (queryString (params.map Prod.fst), params.map Prod.snd)

/-! ## The availability view of tables.controllers.js -/

/-- The function selectAll of tables.models.js: SELECT * FROM table ORDER BY number. -/
def selectAll (db : Db) : List Table :=
  db.tables.insertionSort (fun a b => a.number ≤ b.number)

/-- The function selectReservationTableByDate of reservation-has-table.models.js. -/
def selectReservationTableByDate (db : Db) (date : String) : List ReservationHasTable :=
  db.assignments.filter (fun a => a.date == date)

/-- The assignment available[time] = false of line 118: an existing property
takes the value, a new one is added last. -/
def setUnavailable (available : List (String × Bool)) (time : String) :
    List (String × Bool) :=
  if available.any (fun e => e.1 == time) then
    available.map (fun e => if e.1 == time then (time, false) else e)
  else available ++ [(time, false)]

/-- Lines 116-120: one reserved row applied to every element of availableTables. -/
def markOccupied (availableTables : List TableAvailability) (ocupied : ReservationHasTable) :
    List TableAvailability :=
  availableTables.map (fun table =>
    if table.id == ocupied.table_id then
      { table with available := setUnavailable table.available ocupied.time }
    else table)

/-- Lines 99-121 of getAllAvailableByDate: the array that is answered. -/
def availableTables (db : Db) (date : String) : List TableAvailability :=
  let tables := selectAll db
  let tablesReserved := selectReservationTableByDate db date
  let initial : List TableAvailability := tables.map (fun table =>
    { id := table.id, number := table.number,
      available := [("breakfast", true), ("lunch", true), ("dinner", true)] })
  tablesReserved.foldl markOccupied initial

/-- The handler getAllAvailableByDate (lines 95-128). `fault` is the error with
which one of its two queries rejects, when the storage fails. -/
def getAllAvailableByDate (fault : Option JsError) (date : String) (w : World) :
    Response × World :=
  match fault with
  | some err => (.next err, w)
  | none => (.availability 200 (availableTables w.db date), w)

/-! ## The error handler of app.js and the error classes -/

/-- An error object as the error handler reads it: `none` is an absent property. -/
structure ErrorObject where
  status : Option Nat
  title : Option String
  message : String
  stack : String
deriving DecidableEq, Repr

/-- The table httpStatus of utils/serverStatus.js. -/
def httpStatus (code : Nat) : Option String :=
  if code = 200 then some "OK"
  else if code = 201 then some "Created"
  else if code = 202 then some "Accepted"
  else if code = 400 then some "Bad Request"
  else if code = 401 then some "Unauthorized"
  else if code = 403 then some "Forbidden"
  else if code = 404 then some "Not Found"
  else if code = 409 then some "Conflict"
  else if code = 429 then some "Too Many Requests"
  else if code = 500 then some "Internal Server Error"
  else if code = 501 then some "Not Implemented"
  else if code = 502 then some "Bad Gateway"
  else if code = 503 then some "Service Unavailable"
  else if code = 504 then some "Gateway Timeout"
  else none

/-- The error classes exported by errors/client.errors.js. -/
inductive ClientErrorClass where
  | BadRequestError
  | UnauthorizedError
  | ForbiddenError
  | NotFoundError
  | ConflictError
  | LengthError
  | TooManyRequestsError
deriving DecidableEq, Repr

/-- The value each constructor of client.errors.js gives to this.status. -/
def ClientErrorClass.status : ClientErrorClass → Nat
  | .BadRequestError => 400
  | .UnauthorizedError => 401
  | .ForbiddenError => 403
  | .NotFoundError => 404
  | .ConflictError => 409
  | .LengthError => 400
  | .TooManyRequestsError => 429

/-- The default of the message parameter of each constructor of client.errors.js. -/
def ClientErrorClass.defaultMessage : ClientErrorClass → String
  | .BadRequestError =>
      "The request could not be understood by the server due to malformed syntax"
  | .UnauthorizedError => "The request requires user authentication"
  | .ForbiddenError => "You do not have permission to access this resource"
  | .NotFoundError => "The requested resource could not be found on this server"
  | .ConflictError => "The user with the provided email already exists"
  | .LengthError => "The string length is invalid"
  | .TooManyRequestsError => "Too many requests. Please try again later."

/-- The call new Class(message, title) for a class of client.errors.js; `none` is
an argument left out, which takes the default. ForbiddenError sets this.message
to its fixed text whatever the argument (line 41). -/
def ClientErrorClass.construct (cls : ClientErrorClass) (message title : Option String)
    (stack : String) : ErrorObject :=
  { status := some cls.status,
    title := some (title.getD ((httpStatus cls.status).getD "Unknown Status")),
    message :=
      (match cls with
        | .ForbiddenError => "You do not have permission to access this resource"
        | _ => message.getD cls.defaultMessage),
    stack := stack }

/-- The error classes exported by errors/server.errors.js. -/
inductive ServerErrorClass where
  | ServerError
  | BadRequestError
  | UnauthorizedError
  | ForbiddenError
  | NotFoundError
  | InternalServerError
  | BadGatewayError
  | ServiceUnavailableError
  | GatewayTimeoutError
deriving DecidableEq, Repr

/-- The value each constructor of server.errors.js gives to this.status. -/
def ServerErrorClass.status : ServerErrorClass → Nat
  | .ServerError => 500
  | .BadRequestError => 400
  | .UnauthorizedError => 401
  | .ForbiddenError => 403
  | .NotFoundError => 404
  | .InternalServerError => 500
  | .BadGatewayError => 502
  | .ServiceUnavailableError => 503
  | .GatewayTimeoutError => 504

/-- The default of the message parameter of each constructor of server.errors.js. -/
def ServerErrorClass.defaultMessage : ServerErrorClass → String
  | .ServerError => "Server Error"
  | .BadRequestError => "Bad Request"
  | .UnauthorizedError => "Unauthorized"
  | .ForbiddenError => "Forbidden"
  | .NotFoundError => "Not Found"
  | .InternalServerError => "Internal Server Error"
  | .BadGatewayError => "Bad Gateway"
  | .ServiceUnavailableError => "Service Unavailable"
  | .GatewayTimeoutError => "Gateway Timeout"

/-- The call new Class(message, title) for a class of server.errors.js: the
message goes to Error through super, status and title are set by the class. -/
def ServerErrorClass.construct (cls : ServerErrorClass) (message title : Option String)
    (stack : String) : ErrorObject :=
  { status := some cls.status,
    title := some (title.getD ((httpStatus cls.status).getD "Unknown Status")),
    message := message.getD cls.defaultMessage,
    stack := stack }

/-- A storage or runtime error as the drivers throw it: it carries code, message
and stack, and neither status nor title. -/
def rawError (err : JsError) (stack : String) : ErrorObject :=
  { status := none, title := none, message := err.message, stack := stack }

/-- A JSON value of the body written by the error handler. -/
inductive JsonVal where
  | number (n : Nat)
  | string (s : String)
deriving DecidableEq, Repr

/-- What the error handler passes to res.status and what res.json serialises. -/
structure HandlerCall where
  statusArg : Option Nat
  body : List (String × JsonVal)
deriving DecidableEq, Repr

/-- The error handler of app.js (lines 15-25): res.status(err.status) and
res.json of status, title, message; JSON.stringify leaves out the properties
whose value is undefined. -/
def errorHandler (err : ErrorObject) : HandlerCall :=
  { statusArg := err.status,
    body :=
      (match err.status with
        | some code => [("status", JsonVal.number code)]
        | none => [])
      ++ (match err.title with
        | some title => [("title", JsonVal.string title)]
        | none => [])
      ++ [("message", JsonVal.string err.message)] }

/-! ## Two booking phases in flight at once -/

/-- The booking phase of one request in flight (lines 90-116): the fields of its
body, the selection its scan produced, the variable reservationId, the inserts
that Promise.all has issued and the storage has not executed yet, the first
rejection seen, and the answer once given. -/
structure Attempt where
  date : Option String
  time : Option String
  guests : Option Int
  status : Option String
  user_id : Option Nat
  selectedTables : List Table
  reservationId : Option Nat
  pending : List Table
  caught : Option JsError
  response : Option Response
deriving DecidableEq, Repr

/-- The storage operations and continuations of a booking phase that other
requests can come between: the insert of line 91, the execution of one of the
inserts issued at lines 92-93 (each runs on a connection of the pool, in any
order), and the continuation after the await of line 92. -/
inductive Action where
  | reserve
  | insert (k : Nat)
  | resume
deriving DecidableEq, Repr

/-- A request that has finished its scan with the given selection and is about
to run line 91. -/
def Attempt.start (body : Body) (selectedTables : List Table) : Attempt :=
  { date := body.date, time := body.time, guests := body.guests, status := body.status,
    user_id := body.user_id, selectedTables := selectedTables,
    reservationId := none, pending := [], caught := none, response := none }

/-- One action of a booking phase on the current database. `reserve` runs line
91 and, when it is rejected, the catch block. `insert k` lets the storage execute
the k-th outstanding insert; Promise.all keeps the first rejection. `resume`
continues after line 92: with a rejection seen it runs the catch block (the
other inserts may still be outstanding), with every insert done it runs lines
94-100. An action that is not enabled leaves everything as it is. -/
def Attempt.step (st : Storage) (action : Action) (db : Db) (a : Attempt) : Db × Attempt :=
  match action with
  | .reserve =>
      match a.reservationId, a.response with
      | none, none =>
          match insertReservation st db a.date a.time a.guests a.status a.user_id with
          | .ok (reservationId, db1) =>
              (db1, { a with reservationId := some reservationId,
                             pending := a.selectedTables })
          | .error err =>
              ((compensate st db none err).2,
                { a with response := some (compensate st db none err).1 })
      | _, _ => (db, a)
  | .insert k =>
      match a.reservationId, a.pending.get? k with
      | some reservationId, some table =>
          match insertReservationTable st db reservationId a.date a.time table.id with
          | .ok db1 => (db1, { a with pending := a.pending.eraseIdx k })
          | .error err =>
              (db, { a with pending := a.pending.eraseIdx k,
                            caught := (match a.caught with
                              | some first => some first
                              | none => some err) })
      | _, _ => (db, a)
  | .resume =>
      match a.response, a.reservationId with
      | none, some reservationId =>
          match a.caught with
          | some err =>
              ((compensate st db (some reservationId) err).2,
                { a with response := some (compensate st db (some reservationId) err).1 })
          | none =>
              if a.pending.isEmpty then
                match getUserById db a.user_id with
                | none =>
                    ((compensate st db (some reservationId)
                        ⟨none, "Cannot read properties of null (reading email)"⟩).2,
                      { a with response := some (compensate st db (some reservationId)
                        ⟨none, "Cannot read properties of null (reading email)"⟩).1 })
                | some _ =>
                    (db,
                      { a with response := some (.created 200 "Reservation succesful" reservationId) })
              else (db, a)
      | _, _ => (db, a)

/-- Which of the two requests moves. -/
inductive Requester where
  | first
  | second
deriving DecidableEq, Repr

/-- Two booking phases over one database. -/
structure Race where
  db : Db
  first : Attempt
  second : Attempt
deriving DecidableEq, Repr

/-- Two requests that have both finished their scan of `db`, each with its own
selection, and have written nothing yet. -/
def Race.start (db : Db) (body1 : Body) (selected1 : List Table) (body2 : Body)
    (selected2 : List Table) : Race :=
  { db := db, first := Attempt.start body1 selected1, second := Attempt.start body2 selected2 }

/-- One action of one of the two requests. -/
def Race.step (st : Storage) (turn : Requester × Action) (s : Race) : Race :=
  match turn.1 with
  | .first =>
      { s with db := (s.first.step st turn.2 s.db).1, first := (s.first.step st turn.2 s.db).2 }
  | .second =>
      { s with db := (s.second.step st turn.2 s.db).1,
               second := (s.second.step st turn.2 s.db).2 }

/-- An interleaving of the two booking phases: the actions in the order in which
they take place. -/
def Race.run (st : Storage) (schedule : List (Requester × Action)) (s : Race) : Race :=
  schedule.foldl (fun acc turn => acc.step st turn) s

/-! ## Notions used to state the properties -/

/-- Sum of the capacities of a list of tables. -/
def totalCapacity (tables : List Table) : Int :=
  (tables.map (fun t => t.capacity)).sum

/-- The first-fit-greedy policy in the words of §4.3: scan the tables in order
with a running capacity; a table is taken exactly when it is not reserved and the
running capacity before it is strictly less than guests. -/
def firstFitGreedy (reserved : Table → Bool) (guests : Int) : Int → List Table → List Table
  | _, [] => []
  | running, table :: rest =>
      if !reserved table && decide (running < guests) then
        table :: firstFitGreedy reserved guests (running + table.capacity) rest
      else firstFitGreedy reserved guests running rest

/-- The tables of a listing that are not reserved for the slot. -/
def freeTables (db : Db) (date time : Option String) (tables : List Table) : List Table :=
  tables.filter (fun t => !selectByTableDateTime db t.id date time)

/-- The world before any request, used in the examples: one user, no rows. -/
def exampleUser : User := { id := 1, name := "Ana", email := "ana@example.com" }

/-- Tables A(2), B(4), C(4) of the scenarios of §8, all at the patio. -/
def tableA : Table := { id := 1, number := 1, capacity := 2, location := "patio" }

/-- Table B of the scenarios of §8. -/
def tableB : Table := { id := 2, number := 2, capacity := 4, location := "patio" }

/-- Table C of the scenarios of §8. -/
def tableC : Table := { id := 3, number := 3, capacity := 4, location := "patio" }

/-- Database of the first scenario of §8: A, B, C all free. -/
def patioDb : Db :=
  { tables := [tableA, tableB, tableC], reservations := [], assignments := [],
    users := [exampleUser], nextReservationId := 1, nextTableId := 4 }

/-- Database of the second scenario of §8: B is held by reservation 1 for D/dinner. -/
def patioDbBReserved : Db :=
  { tables := [tableA, tableB, tableC],
    reservations := [⟨1, "2025-01-01", "dinner", 4, "pending", 1⟩],
    assignments := [⟨1, 2, "2025-01-01", "dinner"⟩],
    users := [exampleUser], nextReservationId := 2, nextTableId := 4 }

/-- Database of the third scenario of §8: the location seats 4 in total. -/
def smallDb : Db :=
  { tables := [tableB], reservations := [], assignments := [],
    users := [exampleUser], nextReservationId := 1, nextTableId := 3 }

/-- A complete booking request for the patio, D/dinner, by user 1. -/
def patioBody (guests : Int) : Body :=
  { date := some "2025-01-01", time := some "dinner", guests := some guests,
    status := some "pending", user_id := some 1, location := some "patio" }

/-- Storage with the uniqueness constraint, without cascade, without value faults. -/
def plainStorage : Storage :=
  { uniqueSlot := true, cascade := false, reservationFault := fun _ _ _ _ _ => none,
    statusFault := fun _ => none }

/-- Storage with the uniqueness constraint and cascade, without value faults. -/
def cascadeStorage : Storage :=
  { uniqueSlot := true, cascade := true, reservationFault := fun _ _ _ _ _ => none,
    statusFault := fun _ => none }

/-- A notifier that never throws. -/
def quietMailer : Mailer := fun _ => none

/-- The row that line 93 inserts for a selected table. -/
def assignmentRow (reservationId : Nat) (date time : String) (table : Table) :
    ReservationHasTable :=
  { reservation_id := reservationId, table_id := table.id, date := date, time := time }

/-- Two assignment rows hold the same table in the same slot. -/
def sameSlot (a b : ReservationHasTable) : Prop :=
  a.table_id = b.table_id ∧ a.date = b.date ∧ a.time = b.time

/-- Conflict freedom of §8: no two rows share (table_id, date, time). -/
def ConflictFree (rows : List ReservationHasTable) : Prop :=
  rows.Pairwise (fun a b => ¬ sameSlot a b)

instance (a b : ReservationHasTable) : Decidable (sameSlot a b) := by
  unfold sameSlot; infer_instance

instance (rows : List ReservationHasTable) : Decidable (ConflictFree rows) := by
  unfold ConflictFree; infer_instance

/-- AUTO_INCREMENT discipline of the reservation table: every id in use is below
the next id to be handed out. -/
def FreshReservationId (db : Db) : Prop :=
  (∀ r ∈ db.reservations, r.id < db.nextReservationId)
    ∧ ∀ a ∈ db.assignments, a.reservation_id < db.nextReservationId

instance (db : Db) : Decidable (FreshReservationId db) := by
  unfold FreshReservationId; infer_instance

/-- A concurrent booking that commits between the scan and the inserts of the
request under study: it takes table B for D/dinner under a reservation of its own. -/
def raceOnB (db : Db) : Db :=
  { db with
    reservations := db.reservations ++
      [⟨db.nextReservationId, "2025-01-01", "dinner", 4, "pending", 1⟩],
    assignments := db.assignments ++ [⟨db.nextReservationId, 2, "2025-01-01", "dinner"⟩],
    nextReservationId := db.nextReservationId + 1 }

/-- A body without the key location; every other required key is present. -/
def bodyWithoutLocation : Body :=
  { date := some "2025-01-01", time := some "dinner", guests := some 2,
    status := some "pending", user_id := some 1, location := none }

/-- Capacity of the table rows that an assignment joins to by table id. -/
def tableCapacityIn (tables : List Table) (table_id : Nat) : Int :=
  ((tables.filter (fun t => t.id == table_id)).map (fun t => t.capacity)).sum

/-- Sum of capacity over the join of assignment rows with the table directory. -/
def joinCapacity (tables : List Table) (rows : List ReservationHasTable) : Int :=
  (rows.map (fun a => tableCapacityIn tables a.table_id)).sum

/-- Sum of capacity over the tables of the assignments of a reservation (§3). -/
def assignedCapacity (db : Db) (reservation_id : Nat) : Int :=
  joinCapacity db.tables (db.assignments.filter (fun a => a.reservation_id == reservation_id))

/-- The reservation capacity invariant of §3. -/
def CapacityInvariant (db : Db) : Prop :=
  ∀ r ∈ db.reservations, r.status ≠ "cancelled" → r.guests ≤ assignedCapacity db r.id

instance (db : Db) : Decidable (CapacityInvariant db) := by
  unfold CapacityInvariant; infer_instance

/-- What the operations other than the two table rewrites keep true: ids are
handed out in increasing order, table ids are distinct, assignments point at
table ids already handed out, and every reservation is covered by its tables. -/
structure LedgerInv (db : Db) : Prop where
  fresh : FreshReservationId db
  tableIds : ∀ t ∈ db.tables, t.id < db.nextTableId
  tableNodup : (db.tables.map (fun t => t.id)).Nodup
  assignTables : ∀ a ∈ db.assignments, a.table_id < db.nextTableId
  covered : ∀ r ∈ db.reservations, r.guests ≤ assignedCapacity db r.id

/-- Requests of the counterexample to the capacity invariant: one table of 4
seats, a booking for 4 guests on it. -/
def seatFour : List Op :=
  [.createTable { number := some 1, capacity := some 4, location := some "patio" },
   .createByLocation (patioBody 4)]

/-- A notifier that always throws. -/
def failingMailer : Mailer := fun _ => some ⟨none, "connection refused"⟩

/-- A body whose user_id belongs to nobody. -/
def strangerBody : Body :=
  { date := some "2025-01-01", time := some "dinner", guests := some 2,
    status := some "pending", user_id := some 99, location := some "patio" }

/-- Database with one cancelled reservation holding table B for D/dinner. -/
def cancelledDb : Db :=
  { tables := [tableA, tableB, tableC],
    reservations := [⟨1, "2025-01-01", "dinner", 4, "cancelled", 1⟩],
    assignments := [⟨1, 2, "2025-01-01", "dinner"⟩],
    users := [exampleUser], nextReservationId := 2, nextTableId := 4 }

/-- The rewrite of the status column made by updateStatusById. -/
def withStatus (id : Nat) (status : String) (rows : List Reservation) : List Reservation :=
  rows.map (fun r => if r.id == id then { r with status := status } else r)

/-- Database with free tables A(2), B(4) at the patio, in that order. -/
def pairDb : Db :=
  { tables := [tableA, tableB], reservations := [], assignments := [],
    users := [exampleUser], nextReservationId := 1, nextTableId := 3 }

/-- A table at another location. -/
def tableD : Table := { id := 4, number := 4, capacity := 8, location := "terrace" }

/-- The database of the second scenario of §8 with one more table at another
location and one more assignment for another day. -/
def patioDbElsewhere : Db :=
  { tables := [tableA, tableD, tableB, tableC],
    reservations := [⟨1, "2025-01-01", "dinner", 4, "pending", 1⟩,
                     ⟨2, "2025-01-02", "lunch", 2, "pending", 1⟩],
    assignments := [⟨2, 1, "2025-01-02", "lunch"⟩, ⟨1, 2, "2025-01-01", "dinner"⟩],
    users := [exampleUser], nextReservationId := 3, nextTableId := 5 }

/-- The condition list in the words of the claim on selectByParams: the
conditions key = ? in key order, separated by AND. -/
def whereConditions : List String → String
  | [] => ""
  | [key] => " " ++ key ++ " = ? "
  | key :: next :: rest => (" " ++ key ++ " = ? ") ++ ("AND " ++ whereConditions (next :: rest))

/-- The three dining slots of the availability view. -/
def diningSlots : List String := ["breakfast", "lunch", "dinner"]

/-- A storage that rejects every reservation insert for a malformed value. -/
def truncatingStorage : Storage :=
  { uniqueSlot := true, cascade := false,
    reservationFault := fun _ _ _ _ _ =>
      some ⟨some "ER_TRUNCATED_WRONG_VALUE", "Incorrect date value"⟩,
    statusFault := fun _ => none }

/-- The assignment row of a selected table of an attempt is in the ledger. -/
def HasRow (db : Db) (reservationId : Nat) (date time : Option String) (table : Table) :
    Prop :=
  ∃ d t, date = some d ∧ time = some t
    ∧ assignmentRow reservationId d t table ∈ db.assignments

/-- The database keeps what concerns the reservation id `r`: the counter does not
go back, the reservation rows of that id are the same, and its assignment rows
stay. -/
def Keeps (r : Nat) (db db2 : Db) : Prop :=
  db.nextReservationId ≤ db2.nextReservationId
    ∧ (∀ row ∈ db.reservations, row.id = r → row ∈ db2.reservations)
    ∧ (∀ row ∈ db2.reservations, row.id = r → row ∈ db.reservations)
    ∧ ∀ a ∈ db.assignments, a.reservation_id = r → a ∈ db2.assignments

/-- What holds of a booking phase in flight with respect to the database. -/
def Attempt.Sound (db : Db) (a : Attempt) : Prop :=
  (∀ r, a.reservationId = some r → r < db.nextReservationId)
    ∧ (a.reservationId = none →
        a.caught = none ∧ a.pending = [] ∧ ∀ s m r, a.response ≠ some (.created s m r))
    ∧ (∀ r, a.reservationId = some r → a.response = none →
        (∃ row ∈ db.reservations, row.id = r)
          ∧ (a.caught = none →
              ∀ table ∈ a.selectedTables,
                table ∈ a.pending ∨ HasRow db r a.date a.time table))
    ∧ (∀ r resp, a.reservationId = some r → a.response = some resp →
        (resp = .created 200 "Reservation succesful" r ∧ a.caught = none ∧ a.pending = []
            ∧ (∃ row ∈ db.reservations, row.id = r)
            ∧ ∀ table ∈ a.selectedTables, HasRow db r a.date a.time table)
          ∨ ((∀ s m i, resp ≠ .created s m i)
            ∧ ((∃ err, a.caught = some err ∧ resp = classify err)
                ∨ (a.caught = none ∧ a.pending = []))
            ∧ ∀ row ∈ db.reservations, row.id ≠ r))
    ∧ (∀ r, a.reservationId = some r → ∃ d t, a.date = some d ∧ a.time = some t)
    ∧ ∀ err, a.caught = some err → err.code = some "ER_DUP_ENTRY"

/-- What every interleaving keeps true of the two booking phases. -/
structure RaceInv (s : Race) : Prop where
  fresh : FreshReservationId s.db
  conflictFree : ConflictFree s.db.assignments
  first : s.first.Sound s.db
  second : s.second.Sound s.db
  distinct : ∀ r, s.first.reservationId = some r → s.second.reservationId ≠ some r

/-- The interleaving in which each of two requests for A and B loses one table
to the other: both insert their reservation, the first takes A, the second takes
B, then the first is rejected on B and the second on A, and both resume. -/
def crossedSchedule : List (Requester × Action) :=
  [(.first, .reserve), (.second, .reserve),
   (.first, .insert 0), (.second, .insert 1),
   (.first, .insert 0), (.second, .insert 0),
   (.first, .resume), (.second, .resume)]

/-- Two requests for a party of 5 at the patio, D/dinner, both having scanned
the database of the first scenario of §8 and selected [A, B]. -/
def crossedRace : Race :=
  Race.start patioDb (patioBody 5) [tableA, tableB] (patioBody 5) [tableA, tableB]

/-- The interleaving without contention: the first request runs its whole booking
phase, then the second. -/
def firstThenSecond : List (Requester × Action) :=
  [(.first, .reserve), (.first, .insert 0), (.first, .insert 0), (.first, .resume),
   (.second, .reserve), (.second, .insert 0), (.second, .insert 0), (.second, .resume)]

/-! ## The allocation loop -/

theorem totalCapacity_cons (t : Table) (ts : List Table) :
    totalCapacity (t :: ts) = t.capacity + totalCapacity ts := by
  simp [totalCapacity]

theorem totalCapacity_append (xs ys : List Table) :
    totalCapacity (xs ++ ys) = totalCapacity xs + totalCapacity ys := by
  simp [totalCapacity]

/-- With a numeric guests value the loop computes the first-fit-greedy selection
from any intermediate state, and its capacity variable is the capacity it held
plus the capacity of what it pushed. -/
theorem foldl_scanStep_some (db : Db) (date time : Option String) (g : Int) :
    ∀ (tables : List Table) (acc : Scan),
      tables.foldl (scanStep db date time (some g)) acc =
        { capacity := acc.capacity + totalCapacity
            (firstFitGreedy (fun t => selectByTableDateTime db t.id date time) g acc.capacity tables),
          selectedTables := acc.selectedTables ++
            firstFitGreedy (fun t => selectByTableDateTime db t.id date time) g acc.capacity tables } := by
  intro tables
  induction tables with
  | nil => intro acc; simp [firstFitGreedy, totalCapacity]
  | cons t ts ih =>
      intro acc
      rw [List.foldl_cons, ih]
      by_cases hr : selectByTableDateTime db t.id date time = true
      · simp [scanStep, firstFitGreedy, hr]
      · by_cases hlt : acc.capacity < g
        · simp [scanStep, firstFitGreedy, hr, jsLt, hlt, totalCapacity_cons, add_assoc]
        · simp [scanStep, firstFitGreedy, hr, jsLt, hlt]

/-- With guests undefined the loop pushes nothing. -/
theorem foldl_scanStep_none (db : Db) (date time : Option String) :
    ∀ (tables : List Table) (acc : Scan),
      tables.foldl (scanStep db date time none) acc = acc := by
  intro tables
  induction tables with
  | nil => intro acc; rfl
  | cons t ts ih => intro acc; rw [List.foldl_cons, ih]; simp [scanStep, jsLt]

theorem allocationLoop_some (db : Db) (date time : Option String) (g : Int)
    (tables : List Table) :
    allocationLoop db date time (some g) tables =
      { capacity := totalCapacity
          (firstFitGreedy (fun t => selectByTableDateTime db t.id date time) g 0 tables),
        selectedTables :=
          firstFitGreedy (fun t => selectByTableDateTime db t.id date time) g 0 tables } := by
  unfold allocationLoop
  rw [foldl_scanStep_some]
  simp

theorem allocationLoop_none (db : Db) (date time : Option String) (tables : List Table) :
    allocationLoop db date time none tables = { capacity := 0, selectedTables := [] } := by
  unfold allocationLoop
  rw [foldl_scanStep_none]

/-- The capacity variable is always the capacity of the selected tables. -/
theorem allocationLoop_capacity (db : Db) (date time : Option String) (guests : Option Int)
    (tables : List Table) :
    (allocationLoop db date time guests tables).capacity =
      totalCapacity (allocationLoop db date time guests tables).selectedTables := by
  cases guests with
  | none => rw [allocationLoop_none]; simp [totalCapacity]
  | some g => rw [allocationLoop_some]

theorem firstFitGreedy_sublist (reserved : Table → Bool) (g : Int) :
    ∀ (tables : List Table) (running : Int),
      List.Sublist (firstFitGreedy reserved g running tables)
        (tables.filter (fun t => !reserved t)) := by
  intro tables
  induction tables with
  | nil => intro running; simp [firstFitGreedy]
  | cons t ts ih =>
      intro running
      by_cases hr : reserved t = true
      · simp [firstFitGreedy, hr, ih]
      · by_cases hlt : running < g
        · simp [firstFitGreedy, hr, hlt, ih]
        · simp only [firstFitGreedy, hr, hlt, Bool.not_false, decide_False, Bool.and_false,
            Bool.false_eq_true, if_false, List.filter_cons, if_true]
          exact List.Sublist.cons t (ih running)

/-- Every selected table but the last was taken while the running capacity was
short of guests, and so was the last. -/
theorem firstFitGreedy_dropLast (reserved : Table → Bool) (g : Int) :
    ∀ (tables : List Table) (running : Int),
      firstFitGreedy reserved g running tables ≠ [] →
        running + totalCapacity (firstFitGreedy reserved g running tables).dropLast < g := by
  intro tables
  induction tables with
  | nil => intro running h; simp [firstFitGreedy] at h
  | cons t ts ih =>
      intro running h
      by_cases hsel : (!reserved t && decide (running < g)) = true
      · have hlt : running < g := by
          simp only [Bool.and_eq_true, decide_eq_true_eq] at hsel
          exact hsel.2
        rw [firstFitGreedy, if_pos hsel] at h ⊢
        by_cases hrest : firstFitGreedy reserved g (running + t.capacity) ts = []
        · rw [hrest]
          simpa [totalCapacity] using hlt
        · have := ih (running + t.capacity) hrest
          rw [List.dropLast_cons_of_ne_nil hrest, totalCapacity_cons]
          omega
      · rw [firstFitGreedy, if_neg hsel] at h ⊢
        exact ih running h

theorem totalCapacity_sublist_le {xs ys : List Table} (hsub : List.Sublist xs ys)
    (hnn : ∀ t ∈ ys, 0 ≤ t.capacity) : totalCapacity xs ≤ totalCapacity ys := by
  induction hsub with
  | slnil => exact le_refl _
  | cons a _ ih =>
      rw [totalCapacity_cons]
      have h1 := ih (fun t ht => hnn t (List.mem_cons_of_mem a ht))
      have h2 := hnn a (List.mem_cons_self a _)
      omega
  | cons₂ a _ ih =>
      rw [totalCapacity_cons, totalCapacity_cons]
      have h1 := ih (fun t ht => hnn t (List.mem_cons_of_mem a ht))
      omega

theorem allocate_ok_iff (db : Db) (location date time : Option String) (guests : Option Int)
    (selected : List Table) :
    allocate db location date time guests = .ok selected ↔
      (jsGt guests (allocationLoop db date time guests (selectByLocation db location)).capacity
          = false
        ∧ selected =
          (allocationLoop db date time guests (selectByLocation db location)).selectedTables) := by
  unfold allocate
  by_cases h : jsGt guests
      (allocationLoop db date time guests (selectByLocation db location)).capacity = true
  · simp [h]
  · rw [if_neg h]
    simp only [Bool.not_eq_true] at h
    constructor
    · intro hs
      injection hs with hs
      exact ⟨h, hs.symm⟩
    · intro hs
      rw [hs.2]

theorem allocate_error (db : Db) (location date time : Option String) (guests : Option Int)
    (resp : Response) (h : allocate db location date time guests = .error resp) :
    resp = .message 409 "Guests exceed our capacity" := by
  unfold allocate at h
  by_cases hgt : jsGt guests
      (allocationLoop db date time guests (selectByLocation db location)).capacity = true
  · rw [if_pos hgt] at h
    injection h with h
    exact h.symm
  · rw [if_neg hgt] at h
    exact absurd h (by simp)

/-- A selection handed to the booking seats the party. -/
theorem allocate_ok_le (db : Db) (location date time : Option String) (g : Int)
    (selected : List Table)
    (h : allocate db location date time (some g) = .ok selected) :
    g ≤ totalCapacity selected := by
  rw [allocate_ok_iff] at h
  obtain ⟨hgt, hsel⟩ := h
  rw [allocationLoop_capacity, ← hsel] at hgt
  simp only [jsGt, gt_iff_lt, decide_eq_false_iff_not, not_lt] at hgt
  exact hgt

/-! ## C1 - C4: the allocator -/

/-- C1. Capacity invariant: whenever lines 71-88 do not answer 409 and hand a
selection to the booking, the capacities of the selected tables sum to at least
the requested number of guests. -/
theorem selection_seats_party (db : Db) (location date time : Option String) (g : Int)
    (selected : List Table)
    (h : allocate db location date time (some g) = .ok selected) :
    g ≤ totalCapacity selected :=
  allocate_ok_le db location date time g selected h

theorem selection_seats_party_witness :
    allocate patioDb (some "patio") (some "2025-01-01") (some "dinner") (some 5)
        = .ok [tableA, tableB]
      ∧ (5 : Int) ≤ totalCapacity [tableA, tableB] :=
  ⟨by rfl,
   selection_seats_party patioDb (some "patio") (some "2025-01-01") (some "dinner") 5
     [tableA, tableB] (by rfl)⟩

theorem allocationLoop_sublist_free (db : Db) (date time : Option String)
    (guests : Option Int) (tables : List Table) :
    List.Sublist (allocationLoop db date time guests tables).selectedTables
      (freeTables db date time tables) := by
  cases guests with
  | none => rw [allocationLoop_none]; exact List.nil_sublist _
  | some g =>
      rw [allocationLoop_some]
      exact firstFitGreedy_sublist (fun t => selectByTableDateTime db t.id date time) g tables 0

/-- When the free tables cannot seat the party, lines 71-88 answer 409. -/
theorem allocate_insufficient (db : Db) (location date time : Option String) (g : Int)
    (hcap : ∀ t ∈ freeTables db date time (selectByLocation db location), 0 ≤ t.capacity)
    (hfree : totalCapacity (freeTables db date time (selectByLocation db location)) < g) :
    allocate db location date time (some g)
      = .error (.message 409 "Guests exceed our capacity") := by
  have hle := totalCapacity_sublist_le
    (allocationLoop_sublist_free db date time (some g) (selectByLocation db location)) hcap
  have hlt : (allocationLoop db date time (some g) (selectByLocation db location)).capacity < g := by
    rw [allocationLoop_capacity]; omega
  unfold allocate
  simp [jsGt, hlt]

/-- C2. No silent undercommit: if the capacities of the tables of the location
that are not reserved for the slot (capacities being non-negative, as in the data
model) sum to less than guests, createByLocation leaves the database exactly as
it was, and every request that reaches the allocation (known user, notification
handed over) is answered 409 Guests exceed our capacity. -/
theorem no_silent_undercommit (st : Storage) (mailer : Mailer) (race : Db → Db)
    (body : Body) (w : World) (g : Int)
    (hg : body.guests = some g)
    (hcap : ∀ t ∈ freeTables w.db body.date body.time (selectByLocation w.db body.location),
      0 ≤ t.capacity)
    (hfree : totalCapacity
      (freeTables w.db body.date body.time (selectByLocation w.db body.location)) < g) :
    (createByLocation st mailer race body w).2.db = w.db
      ∧ ∀ user, getUserById w.db body.user_id = some user →
          mailer (receivedEmail user) = none →
          (createByLocation st mailer race body w).1
            = .message 409 "Guests exceed our capacity" := by
  have hall := allocate_insufficient w.db body.location body.date body.time g hcap hfree
  constructor
  · unfold createByLocation
    simp only [JsVal.truthy, Bool.not_true, Bool.false_eq_true, if_false]
    cases hu : getUserById w.db body.user_id with
    | none => rfl
    | some user =>
        cases hm : mailer (receivedEmail user) with
        | some err => simp only [hm]
        | none => simp only [hm, hg, hall]
  · intro user hu hm
    unfold createByLocation
    simp only [JsVal.truthy, Bool.not_true, Bool.false_eq_true, if_false, hu, hm, hg, hall]

theorem no_silent_undercommit_witness :
    totalCapacity (freeTables smallDb (some "2025-01-01") (some "dinner")
        (selectByLocation smallDb (some "patio"))) < 5
      ∧ (createByLocation plainStorage quietMailer id (patioBody 5)
          { db := smallDb, outbox := [] }).2.db = smallDb
      ∧ (createByLocation plainStorage quietMailer id (patioBody 5)
          { db := smallDb, outbox := [] }).1 = .message 409 "Guests exceed our capacity" :=
  have h := no_silent_undercommit plainStorage quietMailer id (patioBody 5)
    { db := smallDb, outbox := [] } 5 rfl (by decide) (by decide)
  ⟨by decide, h.1, h.2 exampleUser rfl rfl⟩

/-- C3. The selection of the loop of lines 76-84 is the first-fit-greedy
reference of §4.3 over the listing: a table is taken exactly when it is not
reserved for the slot and the running capacity before it is below guests;
reserved tables are skipped and the scan goes on. Hence the selection is an
order-preserving sub-list of the listing without any reserved table. Scenario of
§8: A(2), B(4) reserved, C(4), guests 5 selects [A, C]. -/
theorem selection_is_first_fit_greedy (db : Db) (date time : Option String) (g : Int)
    (tables : List Table) :
    (allocationLoop db date time (some g) tables).selectedTables
        = firstFitGreedy (fun t => selectByTableDateTime db t.id date time) g 0 tables
      ∧ List.Sublist (allocationLoop db date time (some g) tables).selectedTables tables
      ∧ (∀ t ∈ (allocationLoop db date time (some g) tables).selectedTables,
          selectByTableDateTime db t.id date time = false)
      ∧ (allocationLoop patioDbBReserved (some "2025-01-01") (some "dinner") (some 5)
          (selectByLocation patioDbBReserved (some "patio"))).selectedTables
          = [tableA, tableC] := by
  have hsub := allocationLoop_sublist_free db date time (some g) tables
  refine ⟨by rw [allocationLoop_some], ?_, ?_, by rfl⟩
  · exact hsub.trans (List.filter_sublist tables)
  · intro t ht
    have hmem := hsub.subset ht
    simp only [freeTables, List.mem_filter, Bool.not_eq_true', ] at hmem
    exact hmem.2

/-- C4. The allocator stops accumulating as soon as capacity is met: whenever the
selection is non-empty, guests is a number and the capacities of all selected
tables but the last sum to strictly less than guests. -/
theorem stops_when_capacity_met (db : Db) (date time : Option String) (guests : Option Int)
    (tables : List Table)
    (h : (allocationLoop db date time guests tables).selectedTables ≠ []) :
    ∃ g, guests = some g
      ∧ totalCapacity (allocationLoop db date time guests tables).selectedTables.dropLast < g := by
  cases guests with
  | none => rw [allocationLoop_none] at h; exact absurd rfl h
  | some g =>
      refine ⟨g, rfl, ?_⟩
      rw [allocationLoop_some] at h ⊢
      have := firstFitGreedy_dropLast (fun t => selectByTableDateTime db t.id date time) g
        tables 0 h
      simpa using this

theorem stops_when_capacity_met_witness :
    (allocationLoop patioDb (some "2025-01-01") (some "dinner") (some 5)
        (selectByLocation patioDb (some "patio"))) = { capacity := 6, selectedTables := [tableA, tableB] }
      ∧ tableC ∉ [tableA, tableB]
      ∧ ∃ g, some (5 : Int) = some g
          ∧ totalCapacity (allocationLoop patioDb (some "2025-01-01") (some "dinner") (some 5)
              (selectByLocation patioDb (some "patio"))).selectedTables.dropLast < g :=
  ⟨by rfl, by decide,
   stops_when_capacity_met patioDb (some "2025-01-01") (some "dinner") (some 5)
     (selectByLocation patioDb (some "patio")) (by decide)⟩

/-! ## The booking phase -/

theorem insertAll_cons_dup (st : Storage) (db : Db) (rid : Nat) (d t : String)
    (table : Table) (rest : List Table)
    (hdup : (st.uniqueSlot && db.assignments.any
      (fun a => a.table_id == table.id && a.date == d && a.time == t)) = true) :
    insertAll st db rid (some d) (some t) (table :: rest)
      = ((insertAll st db rid (some d) (some t) rest).1,
          some ⟨some "ER_DUP_ENTRY", "Duplicate entry"⟩) := by
  simp only [insertAll, insertReservationTable, hdup, if_true]

theorem insertAll_cons_ok (st : Storage) (db : Db) (rid : Nat) (d t : String)
    (table : Table) (rest : List Table)
    (hdup : ¬ (st.uniqueSlot && db.assignments.any
      (fun a => a.table_id == table.id && a.date == d && a.time == t)) = true) :
    insertAll st db rid (some d) (some t) (table :: rest)
      = insertAll st
          { db with assignments := db.assignments ++ [assignmentRow rid d t table] }
          rid (some d) (some t) rest := by
  simp only [Bool.not_eq_true] at hdup
  simp only [insertAll, insertReservationTable, hdup, Bool.false_eq_true, if_false,
    assignmentRow]

/-- With date and time present, the inserts of lines 92-93 add the rows of a
sub-list of the selection and touch nothing else; when no insert is rejected the
sub-list is the whole selection, and every rejection is a duplicate key. -/
theorem insertAll_spec (st : Storage) (rid : Nat) (d t : String) :
    ∀ (selected : List Table) (db : Db),
      ∃ sub : List Table, List.Sublist sub selected
        ∧ (insertAll st db rid (some d) (some t) selected).1
            = { db with assignments := db.assignments ++ sub.map (assignmentRow rid d t) }
        ∧ ((insertAll st db rid (some d) (some t) selected).2 = none → sub = selected)
        ∧ (∀ err, (insertAll st db rid (some d) (some t) selected).2 = some err →
            err.code = some "ER_DUP_ENTRY" ∧ st.uniqueSlot = true) := by
  intro selected
  induction selected with
  | nil =>
      intro db
      exact ⟨[], List.Sublist.slnil, by simp [insertAll], fun _ => rfl,
        fun err h => by simp [insertAll] at h⟩
  | cons table rest ih =>
      intro db
      by_cases hdup : (st.uniqueSlot && db.assignments.any
          (fun a => a.table_id == table.id && a.date == d && a.time == t)) = true
      · obtain ⟨sub, hsub, hdb, _, herr⟩ := ih db
        rw [insertAll_cons_dup st db rid d t table rest hdup]
        refine ⟨sub, List.Sublist.cons table hsub, hdb, ?_, ?_⟩
        · intro h
          simp at h
        · intro err h
          simp only [Option.some.injEq] at h
          simp only [Bool.and_eq_true] at hdup
          exact ⟨by rw [← h], hdup.1⟩
      · obtain ⟨sub, hsub, hdb, hnone, herr⟩ :=
          ih { db with assignments := db.assignments ++ [assignmentRow rid d t table] }
        rw [insertAll_cons_ok st db rid d t table rest hdup]
        refine ⟨table :: sub, List.Sublist.cons₂ table hsub, ?_, ?_, herr⟩
        · rw [hdb]
          simp
        · intro h
          rw [hnone h]

/-- What a successful insertReservation did. -/
theorem insertReservation_ok (st : Storage) (db : Db) (date time : Option String)
    (guests : Option Int) (status : Option String) (user_id : Option Nat) (r : Nat) (db1 : Db)
    (h : insertReservation st db date time guests status user_id = .ok (r, db1)) :
    ∃ d t g s u, date = some d ∧ time = some t ∧ guests = some g ∧ status = some s
      ∧ user_id = some u ∧ r = db.nextReservationId
      ∧ db1 = { db with reservations := db.reservations ++ [⟨r, d, t, g, s, u⟩],
                        nextReservationId := r + 1 } := by
  unfold insertReservation at h
  split at h
  · rename_i d t g s u
    split at h
    · exact absurd h (by simp)
    · injection h with h
      injection h with h1 h2
      exact ⟨d, t, g, s, u, rfl, rfl, rfl, rfl, rfl, h1.symm, by rw [← h2, ← h1]⟩
  · exact absurd h (by simp)

/-- The booking phase once the reservation row is in. -/
theorem book_of_insert_ok (st : Storage) (db : Db) (date time : Option String)
    (guests : Option Int) (status : Option String) (user_id : Option Nat)
    (selected : List Table) (r : Nat) (db1 : Db)
    (h : insertReservation st db date time guests status user_id = .ok (r, db1)) :
    book st db date time guests status user_id selected =
      match (insertAll st db1 r date time selected).2 with
      | some err => compensate st (insertAll st db1 r date time selected).1 (some r) err
      | none =>
          match getUserById (insertAll st db1 r date time selected).1 user_id with
          | none =>
              compensate st (insertAll st db1 r date time selected).1 (some r)
                ⟨none, "Cannot read properties of null (reading email)"⟩
          | some _ =>
              (.created 200 "Reservation succesful" r, (insertAll st db1 r date time selected).1) := by
  unfold book
  rw [h]
  simp only
  rcases hia : insertAll st db1 r date time selected with ⟨db2, e⟩
  cases e <;> rfl

/-- The handler once the request has reached the booking phase. -/
theorem createByLocation_of_allocated (st : Storage) (mailer : Mailer) (race : Db → Db)
    (body : Body) (w : World) (user : User) (selected : List Table)
    (hu : getUserById w.db body.user_id = some user)
    (hm : mailer (receivedEmail user) = none)
    (hsel : allocate w.db body.location body.date body.time body.guests = .ok selected) :
    createByLocation st mailer race body w =
      ((book st (race w.db) body.date body.time body.guests body.status body.user_id
          selected).1,
        { db := (book st (race w.db) body.date body.time body.guests body.status body.user_id
            selected).2,
          outbox := w.outbox ++ [receivedEmail user] }) := by
  unfold createByLocation
  simp only [JsVal.truthy, Bool.not_true, Bool.false_eq_true, if_false, hu, hm, hsel]

/-- After the compensating delete no reservation row carries the deleted id. -/
theorem deleteById_removes (st : Storage) (db : Db) (r : Nat) :
    ∀ x ∈ (deleteById st db (some r)).2.reservations, x.id ≠ r := by
  intro x hx
  unfold deleteById at hx
  by_cases hany : db.reservations.any (fun y => y.id == r) = true
  · simp only [hany, if_true, List.mem_filter, bne_iff_ne, ne_eq] at hx
    exact hx.2
  · simp only [hany, Bool.false_eq_true, if_false] at hx
    intro hxr
    apply hany
    rw [List.any_eq_true]
    exact ⟨x, hx, by simp [hxr]⟩

/-! ## C7: atomicity under failure -/

/-- C7. Atomicity under failure: when the request has reached the booking phase,
insertReservation has returned the id r and some insert of a table assignment is
rejected (whatever the position of that table in selectedTables), no reservation
row with id r is left once createByLocation has returned. -/
theorem atomicity_under_failure (st : Storage) (mailer : Mailer) (race : Db → Db)
    (body : Body) (w : World) (user : User) (selected : List Table) (r : Nat) (db1 : Db)
    (hu : getUserById w.db body.user_id = some user)
    (hm : mailer (receivedEmail user) = none)
    (hsel : allocate w.db body.location body.date body.time body.guests = .ok selected)
    (hins : insertReservation st (race w.db) body.date body.time body.guests body.status
      body.user_id = .ok (r, db1))
    (hfail : (insertAll st db1 r body.date body.time selected).2 ≠ none) :
    ∀ x ∈ (createByLocation st mailer race body w).2.db.reservations, x.id ≠ r := by
  rw [createByLocation_of_allocated st mailer race body w user selected hu hm hsel,
    book_of_insert_ok st (race w.db) body.date body.time body.guests body.status body.user_id
      selected r db1 hins]
  cases herr : (insertAll st db1 r body.date body.time selected).2 with
  | none => exact absurd herr hfail
  | some err =>
      simp only [compensate]
      exact deleteById_removes st _ r

theorem atomicity_under_failure_witness :
    (createByLocation plainStorage quietMailer raceOnB (patioBody 5)
        { db := patioDb, outbox := [] }).1 = .message 409 "Tables already reserved"
      ∧ ∀ x ∈ (createByLocation plainStorage quietMailer raceOnB (patioBody 5)
          { db := patioDb, outbox := [] }).2.db.reservations, x.id ≠ 2 :=
  ⟨by rfl,
   atomicity_under_failure plainStorage quietMailer raceOnB (patioBody 5)
     { db := patioDb, outbox := [] } exampleUser [tableA, tableB] 2 _
     (by rfl) (by rfl) (by rfl) (by rfl) (by decide)⟩

theorem filter_bne_of_lt {α : Type} (f : α → Nat) (r : Nat) :
    ∀ (xs : List α), (∀ x ∈ xs, f x < r) → xs.filter (fun x => f x != r) = xs := by
  intro xs h
  rw [List.filter_eq_self]
  intro x hx
  have := h x hx
  simp only [bne_iff_ne, ne_eq]
  omega

theorem filter_bne_of_eq {α : Type} (f : α → Nat) (r : Nat) :
    ∀ (xs : List α), (∀ x ∈ xs, f x = r) → xs.filter (fun x => f x != r) = [] := by
  intro xs h
  rw [List.filter_eq_nil_iff]
  intro x hx
  simp [h x hx]

/-- Under cascade, the compensating delete of a reservation that was just
inserted with a fresh id takes the ledger back to the rows it held before. -/
theorem deleteById_undoes_insert (st : Storage) (db : Db) (row : Reservation)
    (rows : List ReservationHasTable)
    (hcascade : st.cascade = true) (hfresh : FreshReservationId db)
    (hrow : row.id = db.nextReservationId)
    (hrows : ∀ a ∈ rows, a.reservation_id = db.nextReservationId) :
    (deleteById st
        { db with reservations := db.reservations ++ [row],
                  assignments := db.assignments ++ rows,
                  nextReservationId := db.nextReservationId + 1 }
        (some db.nextReservationId)).2
      = { db with nextReservationId := db.nextReservationId + 1 } := by
  have hany : (db.reservations ++ [row]).any (fun y => y.id == db.nextReservationId) = true := by
    rw [List.any_eq_true]
    exact ⟨row, by simp, by simp [hrow]⟩
  simp only [deleteById, hany, if_true, hcascade, List.filter_append]
  rw [filter_bne_of_lt (fun x : Reservation => x.id) _ db.reservations hfresh.1,
    filter_bne_of_lt (fun a : ReservationHasTable => a.reservation_id) _ db.assignments
      hfresh.2,
    filter_bne_of_eq (fun a : ReservationHasTable => a.reservation_id) _ rows hrows,
    filter_bne_of_eq (fun x : Reservation => x.id) _ [row] (by simpa using hrow)]
  simp

/-! ## C8: no partial state for the loser of a table conflict -/

/-- C8. No partial state for the loser: on a storage that deletes the table
assignments of a deleted reservation (the data model of §3), when the request has
reached the booking phase and an insert of a table assignment is rejected with a
duplicate key, createByLocation answers 409 Tables already reserved and the rows
of the ledger are those it held when the attempt started writing: neither the
reservation row nor any assignment row of the attempt is left. -/
theorem no_partial_state_for_loser (st : Storage) (mailer : Mailer) (race : Db → Db)
    (body : Body) (w : World) (user : User) (selected : List Table) (r : Nat) (db1 : Db)
    (hcascade : st.cascade = true)
    (hfresh : FreshReservationId (race w.db))
    (hu : getUserById w.db body.user_id = some user)
    (hm : mailer (receivedEmail user) = none)
    (hsel : allocate w.db body.location body.date body.time body.guests = .ok selected)
    (hins : insertReservation st (race w.db) body.date body.time body.guests body.status
      body.user_id = .ok (r, db1))
    (hfail : ∃ err, (insertAll st db1 r body.date body.time selected).2 = some err
      ∧ err.code = some "ER_DUP_ENTRY") :
    (createByLocation st mailer race body w).1 = .message 409 "Tables already reserved"
      ∧ (createByLocation st mailer race body w).2.db.reservations = (race w.db).reservations
      ∧ (createByLocation st mailer race body w).2.db.assignments = (race w.db).assignments
      ∧ (createByLocation st mailer race body w).2.db.tables = (race w.db).tables
      ∧ (createByLocation st mailer race body w).2.db.users = (race w.db).users := by
  obtain ⟨err, herr, hcode⟩ := hfail
  obtain ⟨d, t, g, s, u, hd, ht, _, _, _, hr, hdb1⟩ :=
    insertReservation_ok st (race w.db) body.date body.time body.guests body.status
      body.user_id r db1 hins
  obtain ⟨sub, _, hall, _, _⟩ := insertAll_spec st r d t selected db1
  rw [createByLocation_of_allocated st mailer race body w user selected hu hm hsel,
    book_of_insert_ok st (race w.db) body.date body.time body.guests body.status body.user_id
      selected r db1 hins]
  rw [hd, ht] at herr ⊢
  rw [herr]
  simp only [compensate]
  rw [hall, hdb1, hr]
  have hundo := deleteById_undoes_insert st (race w.db)
    ⟨(race w.db).nextReservationId, d, t, g, s, u⟩
    (sub.map (assignmentRow (race w.db).nextReservationId d t)) hcascade hfresh rfl
    (by intro a ha; simp only [List.mem_map] at ha; obtain ⟨x, _, hx⟩ := ha; rw [← hx]; rfl)
  refine ⟨?_, ?_, ?_, ?_, ?_⟩
  · simp [classify, hcode]
  all_goals (rw [hundo])

theorem no_partial_state_for_loser_witness :
    (createByLocation cascadeStorage quietMailer raceOnB (patioBody 5)
        { db := patioDb, outbox := [] }).1 = .message 409 "Tables already reserved"
      ∧ (createByLocation cascadeStorage quietMailer raceOnB (patioBody 5)
          { db := patioDb, outbox := [] }).2.db.reservations = (raceOnB patioDb).reservations
      ∧ (createByLocation cascadeStorage quietMailer raceOnB (patioBody 5)
          { db := patioDb, outbox := [] }).2.db.assignments = (raceOnB patioDb).assignments
      ∧ (createByLocation cascadeStorage quietMailer raceOnB (patioBody 5)
          { db := patioDb, outbox := [] }).2.db.tables = (raceOnB patioDb).tables
      ∧ (createByLocation cascadeStorage quietMailer raceOnB (patioBody 5)
          { db := patioDb, outbox := [] }).2.db.users = (raceOnB patioDb).users :=
  no_partial_state_for_loser cascadeStorage quietMailer raceOnB (patioBody 5)
    { db := patioDb, outbox := [] } exampleUser [tableA, tableB] 2 _
    rfl (by decide) (by rfl) (by rfl) (by rfl) (by rfl)
    ⟨⟨some "ER_DUP_ENTRY", "Duplicate entry"⟩, by rfl, rfl⟩

theorem classify_ne_created (err : JsError) (status : Nat) (msg : String) (rid : Nat) :
    classify err ≠ .created status msg rid := by
  unfold classify
  split
  · simp
  · split <;> simp

/-- Without cascade the assignment row that the losing attempt inserted for
table A before the rejection on table B stays in the ledger, under the id of the
reservation that the compensation deleted. -/
theorem loser_rows_remain_without_cascade :
    (createByLocation plainStorage quietMailer raceOnB (patioBody 5)
        { db := patioDb, outbox := [] }).2.db.assignments
      = (raceOnB patioDb).assignments ++ [⟨2, 1, "2025-01-01", "dinner"⟩] := by
  rfl

/-! ## C9: a successful booking writes exactly the allocation -/

/-- C9. When createByLocation answers with a reservationId, the status is 200,
the id is the one insertReservation returned, and the database is the one the
booking started from plus exactly one reservation row carrying the date, time,
guests, status and user_id of the body and exactly one assignment row
(reservationId, table.id, date, time) per selected table, in selection order. -/
theorem successful_booking_writes_allocation (st : Storage) (mailer : Mailer)
    (race : Db → Db) (body : Body) (w : World) (status : Nat) (msg : String) (rid : Nat)
    (h : (createByLocation st mailer race body w).1 = .created status msg rid) :
    ∃ d t g s u selected,
      body.date = some d ∧ body.time = some t ∧ body.guests = some g
        ∧ body.status = some s ∧ body.user_id = some u
        ∧ allocate w.db body.location body.date body.time body.guests = .ok selected
        ∧ status = 200
        ∧ (∃ db1, insertReservation st (race w.db) body.date body.time body.guests body.status
            body.user_id = .ok (rid, db1))
        ∧ (createByLocation st mailer race body w).2.db =
            { race w.db with
              reservations := (race w.db).reservations ++ [⟨rid, d, t, g, s, u⟩],
              assignments := (race w.db).assignments ++ selected.map (assignmentRow rid d t),
              nextReservationId := (race w.db).nextReservationId + 1 } := by
  unfold createByLocation at h
  simp only [JsVal.truthy, Bool.not_true, Bool.false_eq_true, if_false] at h
  cases hu : getUserById w.db body.user_id with
  | none => simp [hu] at h
  | some user =>
      cases hm : mailer (receivedEmail user) with
      | some err => simp [hu, hm] at h
      | none =>
          cases hsel : allocate w.db body.location body.date body.time body.guests with
          | error resp =>
              have hresp := allocate_error w.db body.location body.date body.time body.guests
                resp hsel
              simp [hu, hm, hsel, hresp] at h
          | ok selected =>
              simp only [hu, hm, hsel] at h
              rw [createByLocation_of_allocated st mailer race body w user selected hu hm hsel]
              cases hins : insertReservation st (race w.db) body.date body.time body.guests
                  body.status body.user_id with
              | error err =>
                  simp only [book, hins, compensate] at h
                  exact absurd h (classify_ne_created err status msg rid)
              | ok p =>
                  obtain ⟨r, db1⟩ := p
                  obtain ⟨d, t, g, s, u, hd, ht, hg, hs, hus, hr, hdb1⟩ :=
                    insertReservation_ok st (race w.db) body.date body.time body.guests
                      body.status body.user_id r db1 hins
                  obtain ⟨sub, _, hall, hnone, _⟩ := insertAll_spec st r d t selected db1
                  rw [book_of_insert_ok st (race w.db) body.date body.time body.guests
                    body.status body.user_id selected r db1 hins] at h ⊢
                  rw [hd, ht] at h ⊢
                  cases herr : (insertAll st db1 r (some d) (some t) selected).2 with
                  | some err =>
                      simp only [herr, compensate] at h
                      exact absurd h (classify_ne_created err status msg rid)
                  | none =>
                      simp only [herr] at h ⊢
                      cases hu2 : getUserById (insertAll st db1 r (some d) (some t) selected).1
                          body.user_id with
                      | none =>
                          simp only [hu2, compensate] at h
                          exact absurd h (classify_ne_created _ status msg rid)
                      | some user2 =>
                          simp only [hu2] at h ⊢
                          injection h with h1 h2 h3
                          refine ⟨d, t, g, s, u, selected, rfl, rfl, hg, hs, hus, ?_, h1.symm,
                            ⟨db1, by rw [← h3]⟩, ?_⟩
                          · rfl
                          · rw [hall, hnone herr, hdb1, ← h3, hr]

theorem successful_booking_writes_allocation_witness :
    (createByLocation plainStorage quietMailer id (patioBody 5)
        { db := patioDb, outbox := [] }).1 = .created 200 "Reservation succesful" 1
      ∧ (createByLocation plainStorage quietMailer id (patioBody 5)
          { db := patioDb, outbox := [] }).2.db.assignments
          = [⟨1, 1, "2025-01-01", "dinner"⟩, ⟨1, 2, "2025-01-01", "dinner"⟩]
      ∧ ∃ d t g s u selected,
          (patioBody 5).date = some d ∧ (patioBody 5).time = some t
            ∧ (patioBody 5).guests = some g
            ∧ (patioBody 5).status = some s ∧ (patioBody 5).user_id = some u
            ∧ allocate patioDb (patioBody 5).location (patioBody 5).date (patioBody 5).time
                (patioBody 5).guests = .ok selected
            ∧ 200 = 200
            ∧ (∃ db1, insertReservation plainStorage (id patioDb) (patioBody 5).date
                (patioBody 5).time (patioBody 5).guests (patioBody 5).status
                (patioBody 5).user_id = .ok (1, db1))
            ∧ (createByLocation plainStorage quietMailer id (patioBody 5)
                { db := patioDb, outbox := [] }).2.db =
                { id patioDb with
                  reservations := (id patioDb).reservations ++ [⟨1, d, t, g, s, u⟩],
                  assignments := (id patioDb).assignments ++ selected.map (assignmentRow 1 d t),
                  nextReservationId := (id patioDb).nextReservationId + 1 } :=
  ⟨by rfl, by rfl,
   successful_booking_writes_allocation plainStorage quietMailer id (patioBody 5)
     { db := patioDb, outbox := [] } 200 "Reservation succesful" 1 (by rfl)⟩

/-! ## C5: conflict freedom -/

theorem deleteById_assignments_sublist (st : Storage) (db : Db) (rid : Option Nat) :
    List.Sublist (deleteById st db rid).2.assignments db.assignments := by
  unfold deleteById
  cases rid with
  | none => exact List.Sublist.refl _
  | some i =>
      simp only
      split
      · simp only
        split
        · exact List.filter_sublist _
        · exact List.Sublist.refl _
      · exact List.Sublist.refl _

/-- Appending the rows of tables that are free for the slot and have pairwise
distinct ids keeps the ledger conflict free. -/
theorem conflictFree_append_rows (old : List ReservationHasTable) (rid : Nat) (d t : String)
    (sub : List Table) (hcf : ConflictFree old)
    (hfree : ∀ x ∈ sub, ∀ a ∈ old, ¬ (a.table_id = x.id ∧ a.date = d ∧ a.time = t))
    (hids : (sub.map (fun x => x.id)).Nodup) :
    ConflictFree (old ++ sub.map (assignmentRow rid d t)) := by
  unfold ConflictFree at hcf ⊢
  rw [List.pairwise_append]
  refine ⟨hcf, ?_, ?_⟩
  · rw [List.pairwise_map]
    rw [List.Nodup, List.pairwise_map] at hids
    exact hids.imp (fun hne hs => hne hs.1)
  · intro a ha b hb hs
    simp only [List.mem_map] at hb
    obtain ⟨x, hx, rfl⟩ := hb
    exact hfree x hx a ha hs

/-- The assignment rows after the booking phase are among the rows it started
from plus rows of selected tables under one reservation id. -/
theorem book_assignments (st : Storage) (db : Db) (date time : Option String)
    (guests : Option Int) (status : Option String) (user_id : Option Nat)
    (selected : List Table) :
    List.Sublist (book st db date time guests status user_id selected).2.assignments
        db.assignments
      ∨ ∃ d t r sub, date = some d ∧ time = some t ∧ List.Sublist sub selected
          ∧ List.Sublist (book st db date time guests status user_id selected).2.assignments
              (db.assignments ++ sub.map (assignmentRow r d t)) := by
  cases hins : insertReservation st db date time guests status user_id with
  | error err =>
      left
      simp only [book, hins, compensate, deleteById]
      exact List.Sublist.refl _
  | ok p =>
      obtain ⟨r, db1⟩ := p
      obtain ⟨d, t, g, s, u, hd, ht, _, _, _, _, hdb1⟩ :=
        insertReservation_ok st db date time guests status user_id r db1 hins
      obtain ⟨sub, hsub, hall, _, _⟩ := insertAll_spec st r d t selected db1
      have hassign : (insertAll st db1 r (some d) (some t) selected).1.assignments
          = db.assignments ++ sub.map (assignmentRow r d t) := by
        rw [hall, hdb1]
      right
      refine ⟨d, t, r, sub, hd, ht, hsub, ?_⟩
      rw [book_of_insert_ok st db date time guests status user_id selected r db1 hins, hd, ht]
      cases (insertAll st db1 r (some d) (some t) selected).2 with
      | some err =>
          simp only [compensate]
          rw [← hassign]
          exact deleteById_assignments_sublist st _ _
      | none =>
          simp only
          cases getUserById (insertAll st db1 r (some d) (some t) selected).1 user_id with
          | none =>
              simp only [compensate]
              rw [← hassign]
              exact deleteById_assignments_sublist st _ _
          | some user2 =>
              simp only
              rw [hassign]

theorem selectByTableDateTime_false (db : Db) (tid : Nat) (d t : String)
    (h : selectByTableDateTime db tid (some d) (some t) = false) :
    ∀ a ∈ db.assignments, ¬ (a.table_id = tid ∧ a.date = d ∧ a.time = t) := by
  intro a ha hs
  simp only [selectByTableDateTime, List.any_eq_false] at h
  exact h a ha (by simp [hs.1, hs.2.1, hs.2.2])

/-- C5. Conflict freedom is preserved by booking: if no two assignment rows of
the pre-state share (table_id, date, time) and the tables listed for the location
have pairwise distinct ids, then after a run of createByLocation without
interleaving, whatever its outcome and whether or not the storage enforces the
uniqueness constraint, no two assignment rows share (table_id, date, time). -/
theorem conflict_freedom_preserved (st : Storage) (mailer : Mailer) (body : Body) (w : World)
    (hcf : ConflictFree w.db.assignments)
    (hids : ((selectByLocation w.db body.location).map (fun x => x.id)).Nodup) :
    ConflictFree (createByLocation st mailer id body w).2.db.assignments := by
  unfold createByLocation
  simp only [JsVal.truthy, Bool.not_true, Bool.false_eq_true, if_false]
  cases hu : getUserById w.db body.user_id with
  | none => exact hcf
  | some user =>
      simp only
      cases hm : mailer (receivedEmail user) with
      | some err => exact hcf
      | none =>
          simp only
          cases hsel : allocate w.db body.location body.date body.time body.guests with
          | error resp => exact hcf
          | ok selected =>
              simp only [id]
              have hselected := ((allocate_ok_iff w.db body.location body.date body.time
                body.guests selected).1 hsel).2
              have hsubfree : List.Sublist selected
                  (freeTables w.db body.date body.time (selectByLocation w.db body.location)) := by
                rw [hselected]
                exact allocationLoop_sublist_free _ _ _ _ _
              rcases book_assignments st w.db body.date body.time body.guests body.status
                  body.user_id selected with hold | ⟨d, t, r, sub, hd, ht, hsub, hnew⟩
              · exact List.Pairwise.sublist hold hcf
              · refine List.Pairwise.sublist hnew
                  (conflictFree_append_rows w.db.assignments r d t sub hcf ?_ ?_)
                · intro x hx
                  have hxfree := (hsub.trans hsubfree).subset hx
                  simp only [freeTables, List.mem_filter, hd, ht] at hxfree
                  exact selectByTableDateTime_false w.db x.id d t (by simpa using hxfree.2)
                · have hsl : List.Sublist sub (selectByLocation w.db body.location) :=
                    (hsub.trans hsubfree).trans (List.filter_sublist _)
                  exact (hsl.map (fun x => x.id)).nodup hids

theorem conflict_freedom_preserved_witness :
    ConflictFree patioDbBReserved.assignments
      ∧ ((selectByLocation patioDbBReserved (patioBody 5).location).map (fun x => x.id)).Nodup
      ∧ (createByLocation plainStorage quietMailer id (patioBody 5)
          { db := patioDbBReserved, outbox := [] }).2.db.assignments
          = [⟨1, 2, "2025-01-01", "dinner"⟩, ⟨2, 1, "2025-01-01", "dinner"⟩,
             ⟨2, 3, "2025-01-01", "dinner"⟩]
      ∧ ConflictFree (createByLocation plainStorage quietMailer id (patioBody 5)
          { db := patioDbBReserved, outbox := [] }).2.db.assignments :=
  ⟨by decide, by decide, by rfl,
   conflict_freedom_preserved plainStorage quietMailer (patioBody 5)
     { db := patioDbBReserved, outbox := [] } (by decide) (by decide)⟩

/-! ## C10: required-field validation -/

/-- C10 (evaluation of the code). The guard of line 47 negates the object that
hasKeys returns, and an object is truthy: the guard is false for every body, so
the 400 answer of line 48 is never given. For the body without location, hasKeys
itself reports the missing key, yet the handler looks the user up, hands the
notification over and answers 409 Guests exceed our capacity. -/
theorem createByLocation_missing_key_not_rejected :
    (∀ body : Body, (!(JsVal.object (hasKeys body.hasKey requiredKeys)).truthy) = false)
      ∧ hasKeys bodyWithoutLocation.hasKey requiredKeys
          = { hasAllKeys := false, missingKeys := ["location"] }
      ∧ createByLocation plainStorage quietMailer id bodyWithoutLocation
          { db := patioDb, outbox := [] }
          = (.message 409 "Guests exceed our capacity",
              { db := patioDb, outbox := [receivedEmail exampleUser] }) :=
  ⟨fun _ => rfl, by rfl, by rfl⟩

/-! ## C6: the reservation capacity invariant over the operations -/

/-- C6 (counterexample). The invariant of §3 does not hold in every reachable
state: after a table of 4 seats is created and booked for 4 guests, lowering its
capacity to 2, or removing the table, leaves a pending reservation for 4 guests
whose assigned tables seat fewer than 4. -/
theorem capacity_invariant_broken_by_table_rewrite :
    ¬ CapacityInvariant (runAll plainStorage quietMailer
        (seatFour ++ [.setTableCapacityById 1 2]) (emptyWorld [exampleUser])).db
      ∧ ¬ CapacityInvariant (runAll plainStorage quietMailer
        (seatFour ++ [.removeTableById 1]) (emptyWorld [exampleUser])).db :=
  ⟨by decide, by decide⟩

theorem joinCapacity_append (tables : List Table) (xs ys : List ReservationHasTable) :
    joinCapacity tables (xs ++ ys) = joinCapacity tables xs + joinCapacity tables ys := by
  simp [joinCapacity]

theorem tableCapacityIn_absent (tables : List Table) (tid : Nat)
    (h : ∀ t ∈ tables, t.id ≠ tid) : tableCapacityIn tables tid = 0 := by
  unfold tableCapacityIn
  have : tables.filter (fun t => t.id == tid) = [] := by
    rw [List.filter_eq_nil_iff]
    intro t ht
    simpa using h t ht
  rw [this]
  rfl

/-- With distinct table ids the join of a table id is the table itself. -/
theorem tableCapacityIn_of_mem :
    ∀ (tables : List Table) (x : Table), (tables.map (fun t => t.id)).Nodup → x ∈ tables →
      tableCapacityIn tables x.id = x.capacity := by
  intro tables
  induction tables with
  | nil => intro x _ hx; simp at hx
  | cons t ts ih =>
      intro x hnd hx
      rw [List.map_cons, List.nodup_cons] at hnd
      have hts : ∀ y ∈ ts, y.id ≠ t.id := by
        intro y hy hyt
        exact hnd.1 (by rw [← hyt]; exact List.mem_map_of_mem (fun t => t.id) hy)
      rcases List.mem_cons.1 hx with rfl | hxts
      · have h0 := tableCapacityIn_absent ts x.id hts
        unfold tableCapacityIn at h0 ⊢
        simp only [List.filter_cons, beq_self_eq_true, if_true, List.map_cons, List.sum_cons, h0]
        omega
      · have hne : (t.id == x.id) = false := by
          simpa using (hts x hxts).symm
        have := ih x hnd.2 hxts
        unfold tableCapacityIn at this ⊢
        simp only [List.filter_cons, hne, Bool.false_eq_true, if_false]
        exact this

theorem joinCapacity_rows (tables : List Table) (rid : Nat) (d t : String)
    (hnd : (tables.map (fun x => x.id)).Nodup) :
    ∀ (selected : List Table), (∀ x ∈ selected, x ∈ tables) →
      joinCapacity tables (selected.map (assignmentRow rid d t)) = totalCapacity selected := by
  intro selected
  induction selected with
  | nil => intro _; rfl
  | cons x xs ih =>
      intro hmem
      have h1 := tableCapacityIn_of_mem tables x hnd (hmem x (List.mem_cons_self x xs))
      have h2 := ih (fun y hy => hmem y (List.mem_cons_of_mem x hy))
      rw [totalCapacity_cons, ← h2, ← h1]
      simp [joinCapacity, assignmentRow]

theorem filter_beq_of_lt {α : Type} (f : α → Nat) (r : Nat) :
    ∀ (xs : List α), (∀ x ∈ xs, f x < r) → xs.filter (fun x => f x == r) = [] := by
  intro xs h
  rw [List.filter_eq_nil_iff]
  intro x hx
  have := h x hx
  simp only [beq_iff_eq]
  omega

theorem filter_beq_of_eq {α : Type} (f : α → Nat) (r : Nat) :
    ∀ (xs : List α), (∀ x ∈ xs, f x = r) → xs.filter (fun x => f x == r) = xs := by
  intro xs h
  rw [List.filter_eq_self]
  intro x hx
  simp [h x hx]

theorem filter_beq_of_ne {α : Type} (f : α → Nat) (r k : Nat) (hk : k ≠ r) :
    ∀ (xs : List α), (∀ x ∈ xs, f x = r) → xs.filter (fun x => f x == k) = [] := by
  intro xs h
  rw [List.filter_eq_nil_iff]
  intro x hx
  simp only [beq_iff_eq, h x hx]
  exact fun hrk => hk hrk.symm

/-- The compensating delete of a reservation that was just inserted with a fresh
id: the reservation row goes, its assignment rows go only under cascade. -/
theorem deleteById_after_insert (st : Storage) (db : Db) (row : Reservation)
    (rows : List ReservationHasTable) (hfresh : FreshReservationId db)
    (hrow : row.id = db.nextReservationId)
    (hrows : ∀ a ∈ rows, a.reservation_id = db.nextReservationId) :
    (deleteById st
        { db with reservations := db.reservations ++ [row],
                  assignments := db.assignments ++ rows,
                  nextReservationId := db.nextReservationId + 1 }
        (some db.nextReservationId)).2
      = { db with assignments := db.assignments ++ (if st.cascade then [] else rows),
                  nextReservationId := db.nextReservationId + 1 } := by
  have hany : (db.reservations ++ [row]).any (fun y => y.id == db.nextReservationId) = true := by
    rw [List.any_eq_true]
    exact ⟨row, by simp, by simp [hrow]⟩
  simp only [deleteById, hany, if_true, List.filter_append]
  rw [filter_bne_of_lt (fun x : Reservation => x.id) _ db.reservations hfresh.1,
    filter_bne_of_lt (fun a : ReservationHasTable => a.reservation_id) _ db.assignments
      hfresh.2,
    filter_bne_of_eq (fun a : ReservationHasTable => a.reservation_id) _ rows hrows,
    filter_bne_of_eq (fun x : Reservation => x.id) _ [row] (by simpa using hrow)]
  cases st.cascade <;> simp

/-- Shape of the database after the booking phase, started from a database whose
reservation ids are fresh. -/
theorem book_fields (st : Storage) (db : Db) (date time : Option String)
    (guests : Option Int) (status : Option String) (user_id : Option Nat)
    (selected : List Table) (hfresh : FreshReservationId db) :
    ∃ (newRes : List Reservation) (newRows : List ReservationHasTable),
      (book st db date time guests status user_id selected).2.tables = db.tables
      ∧ (book st db date time guests status user_id selected).2.reservations
          = db.reservations ++ newRes
      ∧ (book st db date time guests status user_id selected).2.assignments
          = db.assignments ++ newRows
      ∧ (book st db date time guests status user_id selected).2.nextTableId = db.nextTableId
      ∧ db.nextReservationId
          ≤ (book st db date time guests status user_id selected).2.nextReservationId
      ∧ (newRes ≠ [] ∨ newRows ≠ [] → db.nextReservationId
          < (book st db date time guests status user_id selected).2.nextReservationId)
      ∧ (∀ a ∈ newRows, a.reservation_id = db.nextReservationId
          ∧ ∃ x ∈ selected, a.table_id = x.id)
      ∧ (∀ r ∈ newRes, r.id = db.nextReservationId ∧ guests = some r.guests
          ∧ ∃ d t, newRows = selected.map (assignmentRow db.nextReservationId d t)) := by
  cases hins : insertReservation st db date time guests status user_id with
  | error err =>
      refine ⟨[], [], ?_⟩
      simp [book, hins, compensate, deleteById]
  | ok p =>
      obtain ⟨r, db1⟩ := p
      obtain ⟨d, t, g, s, u, hd, ht, hg, _, _, hr, hdb1⟩ :=
        insertReservation_ok st db date time guests status user_id r db1 hins
      subst hr
      obtain ⟨sub, hsub, hall, hnone, _⟩ :=
        insertAll_spec st db.nextReservationId d t selected db1
      have hdb2 : (insertAll st db1 db.nextReservationId (some d) (some t) selected).1
          = { db with
              reservations := db.reservations ++ [⟨db.nextReservationId, d, t, g, s, u⟩],
              assignments := db.assignments ++ sub.map (assignmentRow db.nextReservationId d t),
                      nextReservationId := db.nextReservationId + 1 } := by
        rw [hall, hdb1]
      have hrowsid : ∀ a ∈ sub.map (assignmentRow db.nextReservationId d t),
          a.reservation_id = db.nextReservationId := by
        intro a ha
        simp only [List.mem_map] at ha
        obtain ⟨x, _, hx⟩ := ha
        rw [← hx]; rfl
      have hdel : (deleteById st (insertAll st db1 db.nextReservationId (some d) (some t) selected).1 (some db.nextReservationId)).2
          = { db with
              assignments := db.assignments ++
                (if st.cascade then [] else sub.map (assignmentRow db.nextReservationId d t)),
              nextReservationId := db.nextReservationId + 1 } := by
        rw [hdb2]
        exact deleteById_after_insert st db ⟨db.nextReservationId, d, t, g, s, u⟩
          (sub.map (assignmentRow db.nextReservationId d t)) hfresh rfl hrowsid
      have hfail : ∃ (newRes : List Reservation) (newRows : List ReservationHasTable),
          (deleteById st (insertAll st db1 db.nextReservationId (some d) (some t) selected).1 (some db.nextReservationId)).2.tables
              = db.tables
          ∧ (deleteById st (insertAll st db1 db.nextReservationId (some d) (some t) selected).1
              (some db.nextReservationId)).2.reservations = db.reservations ++ newRes
          ∧ (deleteById st (insertAll st db1 db.nextReservationId (some d) (some t) selected).1
              (some db.nextReservationId)).2.assignments = db.assignments ++ newRows
          ∧ (deleteById st (insertAll st db1 db.nextReservationId (some d) (some t) selected).1
              (some db.nextReservationId)).2.nextTableId = db.nextTableId
          ∧ db.nextReservationId ≤ (deleteById st
              (insertAll st db1 db.nextReservationId (some d) (some t) selected).1 (some db.nextReservationId)).2.nextReservationId
          ∧ (newRes ≠ [] ∨ newRows ≠ [] → db.nextReservationId < (deleteById st
              (insertAll st db1 db.nextReservationId (some d) (some t) selected).1 (some db.nextReservationId)).2.nextReservationId)
          ∧ (∀ a ∈ newRows, a.reservation_id = db.nextReservationId
              ∧ ∃ x ∈ selected, a.table_id = x.id)
          ∧ (∀ r ∈ newRes, r.id = db.nextReservationId ∧ guests = some r.guests
              ∧ ∃ d t, newRows = selected.map (assignmentRow db.nextReservationId d t)) := by
        refine ⟨[], if st.cascade then [] else sub.map (assignmentRow db.nextReservationId d t),
          ?_⟩
        rw [hdel]
        refine ⟨rfl, by simp, rfl, rfl, by simp, fun _ => by simp, ?_, by simp⟩
        intro a ha
        cases hc : st.cascade with
        | true => simp [hc] at ha
        | false =>
            simp only [hc, Bool.false_eq_true, if_false, List.mem_map] at ha
            obtain ⟨x, hx, hxa⟩ := ha
            exact ⟨by rw [← hxa]; rfl, x, hsub.subset hx, by rw [← hxa]; rfl⟩
      rw [book_of_insert_ok st db date time guests status user_id selected
        db.nextReservationId db1 hins, hd, ht]
      cases herr : (insertAll st db1 db.nextReservationId (some d) (some t) selected).2 with
      | some err => simpa only [compensate] using hfail
      | none =>
          simp only
          cases getUserById (insertAll st db1 db.nextReservationId (some d) (some t) selected).1 user_id with
          | none => simpa only [compensate] using hfail
          | some user2 =>
              simp only
              refine ⟨[⟨db.nextReservationId, d, t, g, s, u⟩],
                selected.map (assignmentRow db.nextReservationId d t), ?_⟩
              rw [hdb2, hnone herr]
              refine ⟨rfl, rfl, rfl, rfl, by simp, fun _ => by simp, ?_, ?_⟩
              · intro a ha
                simp only [List.mem_map] at ha
                obtain ⟨x, hx, hxa⟩ := ha
                exact ⟨by rw [← hxa]; rfl, x, hx, by rw [← hxa]; rfl⟩
              · intro r2 hr2
                simp only [List.mem_singleton] at hr2
                rw [hr2]
                exact ⟨rfl, hg, d, t, rfl⟩

/-- Adding rows under the next reservation id, and possibly the reservation they
cover, keeps the ledger invariant. -/
theorem ledgerInv_extend (db db2 : Db) (newRes : List Reservation)
    (newRows : List ReservationHasTable) (hinv : LedgerInv db)
    (htab : db2.tables = db.tables)
    (hres : db2.reservations = db.reservations ++ newRes)
    (hass : db2.assignments = db.assignments ++ newRows)
    (hnt : db2.nextTableId = db.nextTableId)
    (hle : db.nextReservationId ≤ db2.nextReservationId)
    (hlt : newRes ≠ [] ∨ newRows ≠ [] → db.nextReservationId < db2.nextReservationId)
    (hrows : ∀ a ∈ newRows, a.reservation_id = db.nextReservationId
      ∧ a.table_id < db.nextTableId)
    (hnew : ∀ r ∈ newRes, r.id = db.nextReservationId
      ∧ r.guests ≤ joinCapacity db.tables newRows) :
    LedgerInv db2 := by
  refine ⟨⟨?_, ?_⟩, ?_, ?_, ?_, ?_⟩
  · intro r hr
    rw [hres, List.mem_append] at hr
    rcases hr with hr | hr
    · exact lt_of_lt_of_le (hinv.fresh.1 r hr) hle
    · rw [(hnew r hr).1]
      exact hlt (Or.inl (List.ne_nil_of_mem hr))
  · intro a ha
    rw [hass, List.mem_append] at ha
    rcases ha with ha | ha
    · exact lt_of_lt_of_le (hinv.fresh.2 a ha) hle
    · rw [(hrows a ha).1]
      exact hlt (Or.inr (List.ne_nil_of_mem ha))
  · intro t ht
    rw [htab] at ht
    rw [hnt]
    exact hinv.tableIds t ht
  · rw [htab]
    exact hinv.tableNodup
  · intro a ha
    rw [hass, List.mem_append] at ha
    rw [hnt]
    rcases ha with ha | ha
    · exact hinv.assignTables a ha
    · exact (hrows a ha).2
  · intro r hr
    rw [hres, List.mem_append] at hr
    unfold assignedCapacity
    rw [htab, hass, List.filter_append, joinCapacity_append]
    rcases hr with hr | hr
    · have hne : r.id ≠ db.nextReservationId := Nat.ne_of_lt (hinv.fresh.1 r hr)
      rw [filter_beq_of_ne (fun a : ReservationHasTable => a.reservation_id)
        db.nextReservationId r.id hne newRows (fun a ha => (hrows a ha).1)]
      have := hinv.covered r hr
      unfold assignedCapacity at this
      simpa [joinCapacity] using this
    · rw [(hnew r hr).1,
        filter_beq_of_lt (fun a : ReservationHasTable => a.reservation_id) _ db.assignments
          hinv.fresh.2,
        filter_beq_of_eq (fun a : ReservationHasTable => a.reservation_id) _ newRows
          (fun a ha => (hrows a ha).1)]
      have := (hnew r hr).2
      simpa [joinCapacity] using this

/-- The booking phase keeps the ledger invariant when the selection consists of
listed tables that seat the party. -/
theorem ledgerInv_book (st : Storage) (db : Db) (date time : Option String)
    (guests : Option Int) (status : Option String) (user_id : Option Nat)
    (selected : List Table) (hinv : LedgerInv db)
    (hmem : ∀ x ∈ selected, x ∈ db.tables)
    (hcap : ∀ g, guests = some g → g ≤ totalCapacity selected) :
    LedgerInv (book st db date time guests status user_id selected).2 := by
  obtain ⟨newRes, newRows, htab, hres, hass, hnt, hle, hlt, hrows, hnew⟩ :=
    book_fields st db date time guests status user_id selected hinv.fresh
  refine ledgerInv_extend db _ newRes newRows hinv htab hres hass hnt hle hlt ?_ ?_
  · intro a ha
    obtain ⟨hrid, x, hx, hxa⟩ := hrows a ha
    exact ⟨hrid, by rw [hxa]; exact hinv.tableIds x (hmem x hx)⟩
  · intro r hr
    obtain ⟨hrid, hg, d, t, hrowsEq⟩ := hnew r hr
    refine ⟨hrid, ?_⟩
    rw [hrowsEq, joinCapacity_rows db.tables _ d t hinv.tableNodup selected hmem]
    exact hcap r.guests hg

/-- A run of createByLocation without interleaving keeps the ledger invariant. -/
theorem ledgerInv_createByLocation (st : Storage) (mailer : Mailer) (body : Body) (w : World)
    (hinv : LedgerInv w.db) : LedgerInv (createByLocation st mailer id body w).2.db := by
  unfold createByLocation
  simp only [JsVal.truthy, Bool.not_true, Bool.false_eq_true, if_false]
  cases hu : getUserById w.db body.user_id with
  | none => exact hinv
  | some user =>
      simp only
      cases hm : mailer (receivedEmail user) with
      | some err => exact hinv
      | none =>
          simp only
          cases hsel : allocate w.db body.location body.date body.time body.guests with
          | error resp => exact hinv
          | ok selected =>
              simp only [id]
              have hselected := ((allocate_ok_iff w.db body.location body.date body.time
                body.guests selected).1 hsel).2
              refine ledgerInv_book st w.db body.date body.time body.guests body.status
                body.user_id selected hinv ?_ ?_
              · intro x hx
                rw [hselected] at hx
                have h1 := (allocationLoop_sublist_free w.db body.date body.time body.guests
                  (selectByLocation w.db body.location)).subset hx
                have h2 := (List.filter_sublist _).subset h1
                unfold selectByLocation at h2
                cases hl : body.location with
                | none => simp [hl] at h2
                | some l =>
                    simp only [hl] at h2
                    exact (List.filter_sublist _).subset h2
              · intro g hg
                rw [hg] at hsel
                exact allocate_ok_le w.db body.location body.date body.time g selected hsel

/-- Rewriting statuses keeps the ledger invariant. -/
theorem ledgerInv_setReservationStatusById (st : Storage) (mailer : Mailer) (i : Nat)
    (status : String) (w : World) (hinv : LedgerInv w.db) :
    LedgerInv (setReservationStatusById st mailer i status w).2.db := by
  have hupd : ∀ w1 : World, w1.db = w.db →
      LedgerInv (match updateStatusById st w1.db i status with
        | .error err => (classifyUpdate err, w1)
        | .ok (result, db1) =>
            (if result then Response.message 200 "Update successful" else Response.silent,
              { w1 with db := db1 })).2.db := by
    intro w1 hw1
    unfold updateStatusById
    cases st.statusFault status with
    | some err => simp only; rw [hw1]; exact hinv
    | none =>
        simp only
        rw [hw1]
        refine ⟨⟨?_, hinv.fresh.2⟩, hinv.tableIds, hinv.tableNodup, hinv.assignTables, ?_⟩
        · intro r hr
          simp only [List.mem_map] at hr
          obtain ⟨r0, hr0, hrr⟩ := hr
          have := hinv.fresh.1 r0 hr0
          rw [← hrr]
          split <;> exact this
        · intro r hr
          simp only [List.mem_map] at hr
          obtain ⟨r0, hr0, hrr⟩ := hr
          have := hinv.covered r0 hr0
          rw [← hrr]
          split <;> exact this
  unfold setReservationStatusById
  simp only
  split
  · rename_i resp hresp
    exact hinv
  · rename_i w1 hw1
    apply hupd
    split at hw1
    · split at hw1
      · exact absurd hw1 (by simp)
      · split at hw1
        · exact absurd hw1 (by simp)
        · split at hw1
          · exact absurd hw1 (by simp)
          · injection hw1 with hw1
            rw [← hw1]
    · injection hw1 with hw1
      rw [hw1]

theorem filter_beq_filter_bne {α : Type} (f : α → Nat) (i k : Nat) (hk : k ≠ i)
    (xs : List α) :
    (xs.filter (fun x => f x != i)).filter (fun x => f x == k)
      = xs.filter (fun x => f x == k) := by
  rw [List.filter_filter]
  apply List.filter_congr
  intro x _
  by_cases h : f x = k
  · simp [h, hk]
  · simp [h]

/-- The delete of reservations.models.js keeps the ledger invariant. -/
theorem ledgerInv_deleteById (st : Storage) (db : Db) (i : Nat) (hinv : LedgerInv db) :
    LedgerInv (deleteById st db (some i)).2 := by
  unfold deleteById
  simp only
  split
  · refine ⟨⟨?_, ?_⟩, hinv.tableIds, hinv.tableNodup, ?_, ?_⟩
    · intro r hr
      exact hinv.fresh.1 r (List.mem_of_mem_filter hr)
    · intro a ha
      simp only at ha
      split at ha
      · exact hinv.fresh.2 a (List.mem_of_mem_filter ha)
      · exact hinv.fresh.2 a ha
    · intro a ha
      simp only at ha
      split at ha
      · exact hinv.assignTables a (List.mem_of_mem_filter ha)
      · exact hinv.assignTables a ha
    · intro r hr
      simp only [List.mem_filter, bne_iff_ne, ne_eq] at hr
      have := hinv.covered r hr.1
      unfold assignedCapacity at this ⊢
      simp only
      split
      · rw [filter_beq_filter_bne (fun a : ReservationHasTable => a.reservation_id) i r.id
          hr.2 db.assignments]
        exact this
      · exact this
  · exact hinv

/-- Deleting a reservation keeps the ledger invariant. -/
theorem ledgerInv_deleteReservation (st : Storage) (i : Nat) (w : World)
    (hinv : LedgerInv w.db) : LedgerInv (deleteReservation st i w).2.db := by
  unfold deleteReservation
  split
  · exact hinv
  · exact ledgerInv_deleteById st w.db i hinv

theorem joinCapacity_append_table (tables : List Table) (new : Table) :
    ∀ (rows : List ReservationHasTable), (∀ a ∈ rows, a.table_id ≠ new.id) →
      joinCapacity (tables ++ [new]) rows = joinCapacity tables rows := by
  intro rows
  induction rows with
  | nil => intro _; rfl
  | cons a rest ih =>
      intro h
      have ha : (new.id == a.table_id) = false := by
        simpa using (h a (List.mem_cons_self a rest)).symm
      have hrest := ih (fun b hb => h b (List.mem_cons_of_mem a hb))
      unfold joinCapacity at hrest ⊢
      simp only [List.map_cons, List.sum_cons, hrest]
      simp [tableCapacityIn, List.filter_append, List.filter_cons, ha]

/-- Creating a table keeps the ledger invariant. -/
theorem ledgerInv_createTable (body : TableBody) (w : World) (hinv : LedgerInv w.db) :
    LedgerInv (createTable body w).2.db := by
  unfold createTable
  simp only [JsVal.truthy, Bool.not_true, Bool.false_eq_true, if_false]
  unfold insertTable
  split
  · rename_i tableId db1 hins
    split at hins
    · rename_i n c l
      split at hins
      · exact absurd hins (by simp)
      · injection hins with hins
        injection hins with _ hdb1
        simp only
        rw [← hdb1]
        refine ⟨hinv.fresh, ?_, ?_, ?_, ?_⟩
        · intro t ht
          simp only [List.mem_append, List.mem_singleton] at ht
          rcases ht with ht | ht
          · exact Nat.lt_succ_of_lt (hinv.tableIds t ht)
          · rw [ht]; exact Nat.lt_succ_self _
        · simp only [List.map_append, List.map_cons, List.map_nil]
          rw [List.nodup_append]
          refine ⟨hinv.tableNodup, List.nodup_singleton _, ?_⟩
          intro a ha hb
          simp only [List.mem_singleton] at hb
          simp only [List.mem_map] at ha
          obtain ⟨t, ht, hta⟩ := ha
          have := hinv.tableIds t ht
          omega
        · intro a ha
          exact Nat.lt_succ_of_lt (hinv.assignTables a ha)
        · intro r hr
          have := hinv.covered r hr
          unfold assignedCapacity at this ⊢
          simp only
          rw [joinCapacity_append_table]
          · exact this
          · intro a ha
            have := hinv.assignTables a (List.mem_of_mem_filter ha)
            simp only
            omega
    · exact absurd hins (by simp)
  · exact hinv

/-- Every operation that does not rewrite or remove a table keeps the ledger
invariant. -/
theorem ledgerInv_run (st : Storage) (mailer : Mailer) (op : Op) (w : World)
    (hop : op.touchesTables = false) (hinv : LedgerInv w.db) :
    LedgerInv (op.run st mailer w).db := by
  cases op with
  | createByLocation body => exact ledgerInv_createByLocation st mailer body w hinv
  | setReservationStatusById i status =>
      exact ledgerInv_setReservationStatusById st mailer i status w hinv
  | deleteReservation i => exact ledgerInv_deleteReservation st i w hinv
  | createTable body => exact ledgerInv_createTable body w hinv
  | setTableCapacityById i capacity => simp [Op.touchesTables] at hop
  | removeTableById i => simp [Op.touchesTables] at hop

theorem ledgerInv_runAll (st : Storage) (mailer : Mailer) :
    ∀ (ops : List Op) (w : World), (∀ op ∈ ops, op.touchesTables = false) →
      LedgerInv w.db → LedgerInv (runAll st mailer ops w).db := by
  intro ops
  induction ops with
  | nil => intro w _ hinv; exact hinv
  | cons op rest ih =>
      intro w hops hinv
      unfold runAll
      rw [List.foldl_cons]
      exact ih (op.run st mailer w) (fun o ho => hops o (List.mem_cons_of_mem op ho))
        (ledgerInv_run st mailer op w (hops op (List.mem_cons_self op rest)) hinv)

theorem ledgerInv_emptyWorld (users : List User) : LedgerInv (emptyWorld users).db := by
  refine ⟨⟨?_, ?_⟩, ?_, ?_, ?_, ?_⟩ <;> simp [emptyWorld]

/-- C6 (amended). In every state reached from a ledger without rows through
createByLocation, setReservationStatusById, deleteReservation and createTable,
served one at a time, every reservation whose status is not cancelled has table
assignments whose tables seat at least its guests. -/
theorem capacity_invariant_without_table_rewrites (st : Storage) (mailer : Mailer)
    (ops : List Op) (users : List User)
    (hops : ∀ op ∈ ops, op.touchesTables = false) :
    CapacityInvariant (runAll st mailer ops (emptyWorld users)).db := by
  intro r hr _
  exact (ledgerInv_runAll st mailer ops (emptyWorld users) hops
    (ledgerInv_emptyWorld users)).covered r hr

theorem capacity_invariant_without_table_rewrites_witness :
    (runAll plainStorage quietMailer seatFour (emptyWorld [exampleUser])).db.reservations
        = [⟨1, "2025-01-01", "dinner", 4, "pending", 1⟩]
      ∧ CapacityInvariant
          (runAll plainStorage quietMailer seatFour (emptyWorld [exampleUser])).db :=
  ⟨by rfl,
   capacity_invariant_without_table_rewrites plainStorage quietMailer seatFour [exampleUser]
     (by decide)⟩

/-! ## C11, C16: the steps before the allocation -/

/-- C11. Unknown user: when user_id resolves to no user record, createByLocation
answers 404 and leaves the world as it was: nothing is handed to the notifier and
no row of any table is written, the allocation and the booking not being reached. -/
theorem unknown_user_rejected (st : Storage) (mailer : Mailer) (race : Db → Db)
    (body : Body) (w : World) (hu : getUserById w.db body.user_id = none) :
    createByLocation st mailer race body w
      = (.message 404 "The user with the requested id does not exists", w) := by
  unfold createByLocation
  simp only [JsVal.truthy, Bool.not_true, Bool.false_eq_true, if_false, hu]

theorem unknown_user_rejected_witness :
    (hasKeys strangerBody.hasKey requiredKeys).hasAllKeys = true
      ∧ createByLocation plainStorage quietMailer id strangerBody
          { db := patioDb, outbox := [] }
        = (.message 404 "The user with the requested id does not exists",
            { db := patioDb, outbox := [] }) :=
  ⟨by rfl,
   unknown_user_rejected plainStorage quietMailer id strangerBody
     { db := patioDb, outbox := [] } (by rfl)⟩

/-- C16. Notification failure during booking: when the call that sends the
reservation-received message throws, createByLocation forwards that error to next
and leaves the world as it was; the allocation and the booking are not reached,
so no reservation and no table assignment exists for the attempt. -/
theorem notification_failure_aborts_booking (st : Storage) (mailer : Mailer)
    (race : Db → Db) (body : Body) (w : World) (user : User) (err : JsError)
    (hu : getUserById w.db body.user_id = some user)
    (hm : mailer (receivedEmail user) = some err) :
    createByLocation st mailer race body w = (.next err, w) := by
  unfold createByLocation
  simp only [JsVal.truthy, Bool.not_true, Bool.false_eq_true, if_false, hu, hm]

theorem notification_failure_aborts_booking_witness :
    createByLocation plainStorage failingMailer id (patioBody 5)
        { db := patioDb, outbox := [] }
      = (.next ⟨none, "connection refused"⟩, { db := patioDb, outbox := [] }) :=
  notification_failure_aborts_booking plainStorage failingMailer id (patioBody 5)
    { db := patioDb, outbox := [] } exampleUser ⟨none, "connection refused"⟩
    (by rfl) (by rfl)

/-! ## C12: classification of the errors of the booking phase -/

/-- Lines 107-115 as three equivalences on the code of the caught error. -/
theorem classify_iff (err : JsError) :
    (classify err = .message 409 "Tables already reserved"
        ↔ err.code = some "ER_DUP_ENTRY")
      ∧ (classify err = .message 400 "Invalid body data"
        ↔ (err.code = some "ER_TRUNCATED_WRONG_VALUE"
            ∨ err.code = some "WARN_DATA_TRUNCATED"
            ∨ err.code = some "ER_TRUNCATED_WRONG_VALUE_FOR_FIELD"))
      ∧ (classify err = .next err
        ↔ ¬ (err.code = some "ER_DUP_ENTRY"
            ∨ err.code = some "ER_TRUNCATED_WRONG_VALUE"
            ∨ err.code = some "WARN_DATA_TRUNCATED"
            ∨ err.code = some "ER_TRUNCATED_WRONG_VALUE_FOR_FIELD")) := by
  refine ⟨?_, ?_, ?_⟩
  · simp only [classify]
    by_cases ht : err.code = some "ER_TRUNCATED_WRONG_VALUE" ∨ err.code = some "WARN_DATA_TRUNCATED"
        ∨ err.code = some "ER_TRUNCATED_WRONG_VALUE_FOR_FIELD"
    · rw [if_pos ht]
      constructor
      · intro h; simp at h
      · intro h
        rcases ht with ht | ht | ht <;> rw [h] at ht <;> simp at ht
    · rw [if_neg ht]
      by_cases hd : err.code = some "ER_DUP_ENTRY"
      · simp [hd]
      · simp [hd]
  · simp only [classify]
    by_cases ht : err.code = some "ER_TRUNCATED_WRONG_VALUE" ∨ err.code = some "WARN_DATA_TRUNCATED"
        ∨ err.code = some "ER_TRUNCATED_WRONG_VALUE_FOR_FIELD"
    · simp [ht]
    · rw [if_neg ht]
      by_cases hd : err.code = some "ER_DUP_ENTRY"
      · simp [hd, ht]
      · simp [hd, ht]
  · simp only [classify]
    by_cases ht : err.code = some "ER_TRUNCATED_WRONG_VALUE" ∨ err.code = some "WARN_DATA_TRUNCATED"
        ∨ err.code = some "ER_TRUNCATED_WRONG_VALUE_FOR_FIELD"
    · rw [if_pos ht]
      constructor
      · intro h; simp at h
      · intro h; exact absurd (Or.inr ht) h
    · rw [if_neg ht]
      by_cases hd : err.code = some "ER_DUP_ENTRY"
      · rw [if_pos hd]
        constructor
        · intro h; simp at h
        · intro h; exact absurd (Or.inl hd) h
      · rw [if_neg hd]
        constructor
        · intro _ h
          rcases h with h | h
          · exact hd h
          · exact ht h
        · intro _; rfl

/-- C12. Classification in the booking phase. Whatever rejects in lines 90-95,
the answer is the classification of that very error, given after the compensating
deleteById has run on the id held by reservationId at that moment: undefined
when insertReservation itself is rejected, the insertId when an insert of a table
assignment is rejected (the first rejection, always a duplicate key, hence 409)
or when the user has vanished at line 94; with no rejection the answer is 200.
The classification is 409 Tables already reserved exactly for ER_DUP_ENTRY, 400
Invalid body data exactly for the three truncation codes, and next with the same
error otherwise. -/
theorem booking_error_classification (st : Storage) (db : Db) (date time : Option String)
    (guests : Option Int) (status : Option String) (user_id : Option Nat)
    (selected : List Table) :
    (∀ err, insertReservation st db date time guests status user_id = .error err →
        book st db date time guests status user_id selected
          = (classify err, (deleteById st db none).2))
      ∧ (∀ r db1, insertReservation st db date time guests status user_id = .ok (r, db1) →
          (∀ err, (insertAll st db1 r date time selected).2 = some err →
              err.code = some "ER_DUP_ENTRY"
                ∧ book st db date time guests status user_id selected
                    = (classify err,
                        (deleteById st (insertAll st db1 r date time selected).1 (some r)).2)
                ∧ (book st db date time guests status user_id selected).1
                    = .message 409 "Tables already reserved")
            ∧ ((insertAll st db1 r date time selected).2 = none →
                (getUserById (insertAll st db1 r date time selected).1 user_id = none →
                    book st db date time guests status user_id selected
                      = (.next ⟨none, "Cannot read properties of null (reading email)"⟩,
                          (deleteById st (insertAll st db1 r date time selected).1
                            (some r)).2))
                  ∧ ∀ u, getUserById (insertAll st db1 r date time selected).1 user_id = some u →
                      book st db date time guests status user_id selected
                        = (.created 200 "Reservation succesful" r,
                            (insertAll st db1 r date time selected).1)))
      ∧ ∀ err : JsError,
          (classify err = .message 409 "Tables already reserved"
              ↔ err.code = some "ER_DUP_ENTRY")
            ∧ (classify err = .message 400 "Invalid body data"
              ↔ (err.code = some "ER_TRUNCATED_WRONG_VALUE"
                  ∨ err.code = some "WARN_DATA_TRUNCATED"
                  ∨ err.code = some "ER_TRUNCATED_WRONG_VALUE_FOR_FIELD"))
            ∧ (classify err = .next err
              ↔ ¬ (err.code = some "ER_DUP_ENTRY"
                  ∨ err.code = some "ER_TRUNCATED_WRONG_VALUE"
                  ∨ err.code = some "WARN_DATA_TRUNCATED"
                  ∨ err.code = some "ER_TRUNCATED_WRONG_VALUE_FOR_FIELD")) := by
  refine ⟨?_, ?_, classify_iff⟩
  · intro err hins
    simp only [book, hins, compensate]
  · intro r db1 hins
    have hbook := book_of_insert_ok st db date time guests status user_id selected r db1 hins
    obtain ⟨d, t, g, s, u, hd, ht, _, _, _, _, _⟩ :=
      insertReservation_ok st db date time guests status user_id r db1 hins
    refine ⟨?_, ?_⟩
    · intro err herr
      have hcode : err.code = some "ER_DUP_ENTRY" := by
        obtain ⟨_, _, _, _, hdup⟩ := insertAll_spec st r d t selected db1
        rw [hd, ht] at herr
        exact (hdup err herr).1
      have hrun : book st db date time guests status user_id selected
          = (classify err,
              (deleteById st (insertAll st db1 r date time selected).1 (some r)).2) := by
        rw [hbook, herr]
        rfl
      refine ⟨hcode, hrun, ?_⟩
      rw [hrun]
      exact (classify_iff err).1.2 hcode
    · intro hnone
      refine ⟨?_, ?_⟩
      · intro huser
        rw [hbook, hnone]
        simp only [huser, compensate]
        rfl
      · intro u huser
        rw [hbook, hnone]
        simp only [huser]

theorem booking_error_classification_witness :
    book truncatingStorage patioDb (some "2025-13-01") (some "dinner") (some 5)
        (some "pending") (some 1) [tableA, tableB]
      = (.message 400 "Invalid body data", patioDb)
      ∧ book plainStorage (raceOnB patioDb) (some "2025-01-01") (some "dinner") (some 5)
          (some "pending") (some 1) [tableA, tableB]
        = (.message 409 "Tables already reserved",
            { raceOnB patioDb with
              assignments := (raceOnB patioDb).assignments
                ++ [⟨2, 1, "2025-01-01", "dinner"⟩],
              nextReservationId := 3 }) :=
  ⟨(booking_error_classification truncatingStorage patioDb (some "2025-13-01")
      (some "dinner") (some 5) (some "pending") (some 1) [tableA, tableB]).1
      ⟨some "ER_TRUNCATED_WRONG_VALUE", "Incorrect date value"⟩ (by rfl),
   by rfl⟩

/-! ## C13 - C15: setReservationStatusById -/

/-- When the handler reaches its update and the storage takes the value, the
answer depends only on whether a row matched and the database is the old one
with the status column rewritten for the rows of that id. -/
theorem setReservationStatusById_goes_through (st : Storage) (mailer : Mailer) (id : Nat)
    (status : String) (w : World)
    (hfault : st.statusFault status = none)
    (hconf : status = "confirmed" → ∃ reservation user,
      selectById w.db id = some reservation
        ∧ getUserById w.db (some reservation.user_id) = some user
        ∧ mailer (confirmedEmail user) = none) :
    (setReservationStatusById st mailer id status w).1
        = (if w.db.reservations.any (fun r => r.id == id) then
            Response.message 200 "Update successful" else Response.silent)
      ∧ (setReservationStatusById st mailer id status w).2.db
        = { w.db with reservations := withStatus id status w.db.reservations } := by
  unfold setReservationStatusById
  by_cases hs : status = "confirmed"
  · obtain ⟨reservation, user, h1, h2, h3⟩ := hconf hs
    simp only [hs, if_true, h1, h2, h3, updateStatusById]
    rw [hs] at hfault
    simp only [hfault, withStatus]
    exact ⟨trivial, trivial⟩
  · simp only [hs, if_false, updateStatusById, hfault, withStatus]
    exact ⟨trivial, trivial⟩

theorem any_of_selectById (db : Db) (id : Nat) (r : Reservation)
    (h : selectById db id = some r) :
    db.reservations.any (fun x => x.id == id) = true ∧ r ∈ db.reservations ∧ r.id = id := by
  unfold selectById at h
  have hmem := List.mem_of_find?_eq_some h
  have hid := List.find?_some h
  simp only [beq_iff_eq] at hid
  refine ⟨?_, hmem, hid⟩
  rw [List.any_eq_true]
  exact ⟨r, hmem, by simp [hid]⟩

theorem not_any_of_selectById (db : Db) (id : Nat) (h : selectById db id = none) :
    db.reservations.any (fun x => x.id == id) = false := by
  unfold selectById at h
  rw [List.find?_eq_none] at h
  rw [List.any_eq_false]
  intro x hx
  exact h x hx

/-- C13 (evaluation of the code). For an id that matches no reservation the 404
is only given when the target status is confirmed: with the target cancelled the
update matches no row, the handler sends no response at all, and nothing changes. -/
theorem setReservationStatusById_unknown_id_unanswered :
    selectById patioDbBReserved 99 = none
      ∧ setReservationStatusById plainStorage quietMailer 99 "confirmed"
          { db := patioDbBReserved, outbox := [] }
        = (.message 404 "The reservation with the requested id does not exists",
            { db := patioDbBReserved, outbox := [] })
      ∧ setReservationStatusById plainStorage quietMailer 99 "cancelled"
          { db := patioDbBReserved, outbox := [] }
        = (.silent, { db := patioDbBReserved, outbox := [] }) :=
  ⟨by rfl, by rfl, by rfl⟩

/-- C14 (counterexample). Cancelled is not terminal: on a reservation whose
status is cancelled, setReservationStatusById with target pending answers 200 and
the reservation is pending afterwards. -/
theorem cancelled_is_not_terminal :
    setReservationStatusById plainStorage quietMailer 1 "pending"
        { db := cancelledDb, outbox := [] }
      = (.message 200 "Update successful",
          { db := { cancelledDb with
                    reservations := [⟨1, "2025-01-01", "dinner", 4, "pending", 1⟩] },
            outbox := [] }) := by
  rfl

/-- C14 (amended). setReservationStatusById does not restrict transitions: for
an existing reservation, whatever its current status, when the storage takes the
value and, for confirmed, the owning user exists and the notifier does not throw,
the answer is 200 and every reservation row of that id carries the requested
status afterwards. The four transitions of §4.4 are among those performed. -/
theorem status_change_ignores_current_status (st : Storage) (mailer : Mailer) (id : Nat)
    (status : String) (w : World) (r : Reservation)
    (hr : selectById w.db id = some r)
    (hfault : st.statusFault status = none)
    (hconf : status = "confirmed" → ∃ user,
      getUserById w.db (some r.user_id) = some user ∧ mailer (confirmedEmail user) = none) :
    (setReservationStatusById st mailer id status w).1 = .message 200 "Update successful"
      ∧ (∃ x ∈ (setReservationStatusById st mailer id status w).2.db.reservations, x.id = id)
      ∧ ∀ x ∈ (setReservationStatusById st mailer id status w).2.db.reservations,
          x.id = id → x.status = status := by
  obtain ⟨hresp, hdb⟩ := setReservationStatusById_goes_through st mailer id status w hfault
    (fun hs => by
      obtain ⟨user, h1, h2⟩ := hconf hs
      exact ⟨r, user, hr, h1, h2⟩)
  obtain ⟨hany, hmem, hid⟩ := any_of_selectById w.db id r hr
  rw [hresp, hdb, hany]
  refine ⟨rfl, ⟨{ r with status := status }, ?_, hid⟩, ?_⟩
  · simp only [withStatus, List.mem_map]
    exact ⟨r, hmem, by simp [hid]⟩
  · intro x hx hxid
    simp only [withStatus, List.mem_map] at hx
    obtain ⟨r0, _, hr0⟩ := hx
    by_cases h0 : r0.id = id
    · simp only [h0, beq_self_eq_true, if_true] at hr0
      rw [← hr0]
    · have hb : (r0.id == id) = false := by simpa using h0
      simp only [hb, Bool.false_eq_true, if_false] at hr0
      rw [← hr0] at hxid
      exact absurd hxid h0

theorem status_change_ignores_current_status_witness :
    (setReservationStatusById plainStorage quietMailer 1 "completed"
        { db := cancelledDb, outbox := [] }).1 = .message 200 "Update successful"
      ∧ (∃ x ∈ (setReservationStatusById plainStorage quietMailer 1 "completed"
          { db := cancelledDb, outbox := [] }).2.db.reservations, x.id = 1)
      ∧ ∀ x ∈ (setReservationStatusById plainStorage quietMailer 1 "completed"
          { db := cancelledDb, outbox := [] }).2.db.reservations,
          x.id = 1 → x.status = "completed" :=
  status_change_ignores_current_status plainStorage quietMailer 1 "completed"
    { db := cancelledDb, outbox := [] } ⟨1, "2025-01-01", "dinner", 4, "cancelled", 1⟩
    (by rfl) (by rfl) (by decide)

/-- C15. No transition validation: for an existing reservation, whatever its
current status, and a status s that is not confirmed, or is confirmed with the
owning user present and the notifier not throwing, setReservationStatusById hands
s to the storage as it is; when the storage takes the value the answer is 200 and
the database differs from the previous one only in the status column of the rows
of that id, which holds s: every other field of those rows, every other
reservation, every table assignment, table and user is as before. -/
theorem status_write_frame (st : Storage) (mailer : Mailer) (id : Nat)
    (status : String) (w : World) (r : Reservation)
    (hr : selectById w.db id = some r)
    (hfault : st.statusFault status = none)
    (hconf : status = "confirmed" → ∃ user,
      getUserById w.db (some r.user_id) = some user ∧ mailer (confirmedEmail user) = none) :
    (setReservationStatusById st mailer id status w).1 = .message 200 "Update successful"
      ∧ (setReservationStatusById st mailer id status w).2.db
          = { w.db with reservations := withStatus id status w.db.reservations }
      ∧ (setReservationStatusById st mailer id status w).2.db.assignments = w.db.assignments
      ∧ (∀ x ∈ w.db.reservations, x.id ≠ id →
          x ∈ (setReservationStatusById st mailer id status w).2.db.reservations)
      ∧ ∀ y ∈ (setReservationStatusById st mailer id status w).2.db.reservations,
          ∃ x ∈ w.db.reservations, y.id = x.id ∧ y.date = x.date ∧ y.time = x.time
            ∧ y.guests = x.guests ∧ y.user_id = x.user_id
            ∧ y.status = (if x.id = id then status else x.status) := by
  obtain ⟨hresp, hdb⟩ := setReservationStatusById_goes_through st mailer id status w hfault
    (fun hs => by
      obtain ⟨user, h1, h2⟩ := hconf hs
      exact ⟨r, user, hr, h1, h2⟩)
  obtain ⟨hany, _, _⟩ := any_of_selectById w.db id r hr
  rw [hresp, hdb, hany]
  refine ⟨rfl, rfl, rfl, ?_, ?_⟩
  · intro x hx hxid
    simp only [withStatus, List.mem_map]
    exact ⟨x, hx, by simp [hxid]⟩
  · intro y hy
    simp only [withStatus, List.mem_map] at hy
    obtain ⟨x, hx, hxy⟩ := hy
    refine ⟨x, hx, ?_⟩
    by_cases h0 : x.id = id
    · simp only [h0, beq_self_eq_true, if_true] at hxy
      rw [← hxy]
      simp [h0]
    · have hb : (x.id == id) = false := by simpa using h0
      simp only [hb, Bool.false_eq_true, if_false] at hxy
      rw [← hxy]
      simp [h0]

theorem status_write_frame_witness :
    (setReservationStatusById plainStorage quietMailer 1 "confirmed"
        { db := patioDbBReserved, outbox := [] })
      = (.message 200 "Update successful",
          { db := { patioDbBReserved with
                    reservations := [⟨1, "2025-01-01", "dinner", 4, "confirmed", 1⟩] },
            outbox := [confirmedEmail exampleUser] })
      ∧ (setReservationStatusById plainStorage quietMailer 1 "confirmed"
          { db := patioDbBReserved, outbox := [] }).2.db.assignments
          = patioDbBReserved.assignments :=
  ⟨by rfl,
   (status_write_frame plainStorage quietMailer 1 "confirmed"
     { db := patioDbBReserved, outbox := [] } ⟨1, "2025-01-01", "dinner", 4, "pending", 1⟩
     (by rfl) (by rfl) (fun _ => ⟨exampleUser, by rfl, by rfl⟩)).2.2.1⟩

/-! ## C17, C18: deleteReservation -/

theorem deleteById_reservations (st : Storage) (db : Db) (id : Nat) :
    (deleteById st db (some id)).2.reservations = db.reservations.filter (fun x => x.id != id)
      ∧ (deleteById st db (some id)).2.tables = db.tables
      ∧ (deleteById st db (some id)).2.users = db.users := by
  unfold deleteById
  by_cases hany : db.reservations.any (fun r => r.id == id) = true
  · simp only [hany, if_true]
    exact ⟨trivial, trivial, trivial⟩
  · simp only [hany, Bool.false_eq_true, if_false]
    refine ⟨?_, trivial, trivial⟩
    symm
    rw [List.filter_eq_self]
    intro x hx
    simp only [Bool.not_eq_true, List.any_eq_false] at hany
    simpa using hany x hx

/-- C17. The handler deleteReservation: when no reservation has the id the
answer is 404 and the world is unchanged; otherwise the answer is 200 with the
reservation row found before the delete, no reservation with that id is left, and
the reservations of every other id, the tables, the users and the outbox are as
before. -/
theorem deleteReservation_spec (st : Storage) (id : Nat) (w : World) :
    (selectById w.db id = none →
        deleteReservation st id w
          = (.message 404 "The reservation with the requested id does not exists", w))
      ∧ ∀ r, selectById w.db id = some r →
          (deleteReservation st id w).1 = .reservation 200 r
            ∧ r ∈ w.db.reservations ∧ r.id = id
            ∧ (∀ x ∈ (deleteReservation st id w).2.db.reservations, x.id ≠ id)
            ∧ (deleteReservation st id w).2.db.reservations
                = w.db.reservations.filter (fun x => x.id != id)
            ∧ (∀ x ∈ w.db.reservations, x.id ≠ id →
                x ∈ (deleteReservation st id w).2.db.reservations)
            ∧ (deleteReservation st id w).2.db.tables = w.db.tables
            ∧ (deleteReservation st id w).2.db.users = w.db.users
            ∧ (deleteReservation st id w).2.outbox = w.outbox := by
  constructor
  · intro h
    simp only [deleteReservation, h]
  · intro r hr
    obtain ⟨_, hmem, hid⟩ := any_of_selectById w.db id r hr
    obtain ⟨hres, htab, husers⟩ := deleteById_reservations st w.db id
    have hdef : deleteReservation st id w
        = (.reservation 200 r, { w with db := (deleteById st w.db (some id)).2 }) := by
      simp only [deleteReservation, hr]
    rw [hdef]
    refine ⟨rfl, hmem, hid, ?_, hres, ?_, htab, husers, rfl⟩
    · intro x hx
      rw [hres] at hx
      simpa using (List.mem_filter.1 hx).2
    · intro x hx hxid
      rw [hres]
      exact List.mem_filter.2 ⟨hx, by simpa using hxid⟩

theorem deleteReservation_spec_witness :
    deleteReservation plainStorage 99 { db := patioDbBReserved, outbox := [] }
        = (.message 404 "The reservation with the requested id does not exists",
            { db := patioDbBReserved, outbox := [] })
      ∧ (deleteReservation plainStorage 1 { db := patioDbBReserved, outbox := [] }).1
          = .reservation 200 ⟨1, "2025-01-01", "dinner", 4, "pending", 1⟩
      ∧ (deleteReservation plainStorage 1
          { db := patioDbBReserved, outbox := [] }).2.db.reservations = [] :=
  ⟨(deleteReservation_spec plainStorage 99 { db := patioDbBReserved, outbox := [] }).1
      (by rfl),
   ((deleteReservation_spec plainStorage 1 { db := patioDbBReserved, outbox := [] }).2
      ⟨1, "2025-01-01", "dinner", 4, "pending", 1⟩ (by rfl)).1,
   by rfl⟩

/-- C18. On a storage that deletes the table assignments of a deleted
reservation (the data model of §3), after deleteReservation has succeeded for a
reservation no assignment row carries its id, and, the ledger being conflict
free, every table it held is reported not reserved for the slot of the row that
held it. -/
theorem assignments_die_with_reservation (st : Storage) (id : Nat) (w : World)
    (r : Reservation)
    (hcascade : st.cascade = true)
    (hcf : ConflictFree w.db.assignments)
    (hr : selectById w.db id = some r) :
    (deleteReservation st id w).1 = .reservation 200 r
      ∧ (∀ a ∈ (deleteReservation st id w).2.db.assignments, a.reservation_id ≠ id)
      ∧ ∀ a ∈ w.db.assignments, a.reservation_id = id →
          selectByTableDateTime (deleteReservation st id w).2.db a.table_id
            (some a.date) (some a.time) = false := by
  obtain ⟨hany, _, _⟩ := any_of_selectById w.db id r hr
  have hass : (deleteReservation st id w).2.db.assignments
      = w.db.assignments.filter (fun a => a.reservation_id != id) := by
    simp only [deleteReservation, hr, deleteById, hany, if_true, hcascade]
  refine ⟨by simp only [deleteReservation, hr], ?_, ?_⟩
  · intro a ha
    rw [hass] at ha
    simpa using (List.mem_filter.1 ha).2
  · intro a ha haid
    unfold selectByTableDateTime
    simp only
    rw [List.any_eq_false, hass]
    intro b hb hslot
    obtain ⟨hbmem, hbid⟩ := List.mem_filter.1 hb
    simp only [bne_iff_ne, ne_eq] at hbid
    simp only [Bool.and_eq_true, beq_iff_eq] at hslot
    have hne : b ≠ a := by
      intro hba
      rw [hba] at hbid
      exact hbid haid
    have hsym : Symmetric (fun x y : ReservationHasTable => ¬ sameSlot x y) := by
      intro x y hxy hyx
      exact hxy ⟨hyx.1.symm, hyx.2.1.symm, hyx.2.2.symm⟩
    exact List.Pairwise.forall hsym hcf hbmem ha hne ⟨hslot.1.1, hslot.1.2, hslot.2⟩

theorem assignments_die_with_reservation_witness :
    (deleteReservation cascadeStorage 1 { db := patioDbBReserved, outbox := [] }).1
        = .reservation 200 ⟨1, "2025-01-01", "dinner", 4, "pending", 1⟩
      ∧ (∀ a ∈ (deleteReservation cascadeStorage 1
          { db := patioDbBReserved, outbox := [] }).2.db.assignments, a.reservation_id ≠ 1)
      ∧ ∀ a ∈ patioDbBReserved.assignments, a.reservation_id = 1 →
          selectByTableDateTime (deleteReservation cascadeStorage 1
            { db := patioDbBReserved, outbox := [] }).2.db a.table_id
            (some a.date) (some a.time) = false :=
  assignments_die_with_reservation cascadeStorage 1 { db := patioDbBReserved, outbox := [] }
    ⟨1, "2025-01-01", "dinner", 4, "pending", 1⟩ rfl (by decide) (by rfl)

/-- Without cascade the assignment row of a deleted reservation stays, and the
table it held is still reported reserved for the slot. -/
theorem assignments_remain_without_cascade :
    (deleteReservation plainStorage 1
        { db := patioDbBReserved, outbox := [] }).2.db.assignments
        = [⟨1, 2, "2025-01-01", "dinner"⟩]
      ∧ selectByTableDateTime (deleteReservation plainStorage 1
          { db := patioDbBReserved, outbox := [] }).2.db 2
          (some "2025-01-01") (some "dinner") = true :=
  ⟨by rfl, by rfl⟩

/-! ## C19: getById -/

/-- C19. Idempotent read: for an id that matches no reservation, getById answers
404 with a message and leaves the world unchanged, so any number of repeated
calls meets the same world and gives the same 404; when the query of selectById
rejects, the error is forwarded to next. The handler being a total function, every
call ends in a response or in next. -/
theorem getById_unknown_id (id : Nat) (w : World) (h : selectById w.db id = none) :
    getById none id w
        = (.message 404 "The reservation with the requested id does not exists", w)
      ∧ (∀ n : Nat, Nat.iterate (fun x => (getById none id x).2) n w = w
          ∧ (getById none id (Nat.iterate (fun x => (getById none id x).2) n w)).1
              = .message 404 "The reservation with the requested id does not exists")
      ∧ ∀ err, getById (some err) id w = (.next err, w) := by
  have hone : getById none id w
      = (.message 404 "The reservation with the requested id does not exists", w) := by
    simp only [getById, h]
  have hiter : ∀ n : Nat, Nat.iterate (fun x => (getById none id x).2) n w = w := by
    intro n
    induction n with
    | zero => rfl
    | succ k ih =>
        rw [Function.iterate_succ_apply', ih, hone]
  refine ⟨hone, ?_, fun err => rfl⟩
  intro n
  refine ⟨hiter n, ?_⟩
  rw [hiter n, hone]

theorem getById_unknown_id_witness :
    getById none 99 { db := patioDbBReserved, outbox := [] }
        = (.message 404 "The reservation with the requested id does not exists",
            { db := patioDbBReserved, outbox := [] })
      ∧ getById none 1 { db := patioDbBReserved, outbox := [] }
        = (.reservation 200 ⟨1, "2025-01-01", "dinner", 4, "pending", 1⟩,
            { db := patioDbBReserved, outbox := [] }) :=
  ⟨(getById_unknown_id 99 { db := patioDbBReserved, outbox := [] } (by rfl)).1, by rfl⟩

/-! ## C20: the filters of getAll -/

theorem setEntry_new (obj : List (String × String)) (entry : String × String)
    (h : ∀ a ∈ obj, a.1 ≠ entry.1) : setEntry obj entry = obj ++ [entry] := by
  unfold setEntry
  have hany : obj.any (fun e => e.1 == entry.1) = false := by
    rw [List.any_eq_false]
    intro a ha
    simpa using h a ha
  rw [hany]
  rfl

/-- Entries with pairwise distinct keys go through Object.fromEntries unchanged. -/
theorem foldl_setEntry_nodup :
    ∀ (entries obj : List (String × String)),
      (∀ e ∈ entries, ∀ a ∈ obj, a.1 ≠ e.1) → (entries.map Prod.fst).Nodup →
        entries.foldl setEntry obj = obj ++ entries := by
  intro entries
  induction entries with
  | nil => intro obj _ _; simp
  | cons e rest ih =>
      intro obj hdis hnd
      rw [List.map_cons, List.nodup_cons] at hnd
      rw [List.foldl_cons,
        setEntry_new obj e (fun a ha => hdis e (List.mem_cons_self e rest) a ha),
        ih (obj ++ [e]) ?_ hnd.2]
      · simp
      · intro e2 he2 a ha
        rcases List.mem_append.1 ha with ha | ha
        · exact hdis e2 (List.mem_cons_of_mem e he2) a ha
        · simp only [List.mem_singleton] at ha
          rw [ha]
          intro heq
          exact hnd.1 (by rw [heq]; exact List.mem_map_of_mem Prod.fst he2)

theorem fromEntries_nodup (entries : List (String × String))
    (hnd : (entries.map Prod.fst).Nodup) : fromEntries entries = entries := by
  unfold fromEntries
  rw [foldl_setEntry_nodup entries [] (fun _ _ a ha => absurd ha (List.not_mem_nil a)) hnd]
  rfl

theorem getAllFilter_eq (query : List (String × String))
    (hnd : (query.map Prod.fst).Nodup) :
    getAllFilter query = query.filter (fun param => validParams.contains param.1) := by
  unfold getAllFilter
  cases query with
  | nil => rfl
  | cons e rest =>
      simp only [List.length_cons, bne_iff_ne, ne_eq, Nat.succ_ne_zero, not_false_eq_true,
        if_true]
      exact fromEntries_nodup _
        (((List.filter_sublist (e :: rest)).map Prod.fst).nodup hnd)

/-- C20. Listing filters: the keys of req.query being pairwise distinct (it is an
object), getAll hands to selectByParams exactly the query entries whose key is
one of id, date, time, guests, status, user_id, with their values and in their
order, every other key being dropped; when no entry has a whitelisted key (no
parameter at all included) the filter is empty and the answer is 200 with all
the reservations. -/
theorem getAll_filters (query : List (String × String))
    (hnd : (query.map Prod.fst).Nodup) :
    getAllFilter query = query.filter (fun param => validParams.contains param.1)
      ∧ (∀ fault w, getAll fault query w =
          match selectByParams fault w.db
              (query.filter (fun param => validParams.contains param.1)) with
          | .ok reservations => (.reservations 200 reservations, w)
          | .error err => (.next err, w))
      ∧ ((∀ param ∈ query, validParams.contains param.1 = false) →
          getAllFilter query = []
            ∧ ∀ w, getAll none query w = (.reservations 200 w.db.reservations, w)) := by
  have hfilter := getAllFilter_eq query hnd
  refine ⟨hfilter, ?_, ?_⟩
  · intro fault w
    unfold getAll
    rw [hfilter]
  · intro hnone
    have hempty : query.filter (fun param => validParams.contains param.1) = [] := by
      rw [List.filter_eq_nil_iff]
      intro p hp
      rw [hnone p hp]
      simp
    refine ⟨by rw [hfilter, hempty], ?_⟩
    intro w
    unfold getAll
    rw [hfilter, hempty]
    simp [selectByParams]

theorem getAll_filters_witness :
    getAllFilter [("page", "2"), ("status", "pending"), ("sort", "asc"), ("date", "2025-01-01")]
        = [("status", "pending"), ("date", "2025-01-01")]
      ∧ getAll none [("page", "2"), ("sort", "asc")] { db := patioDbBReserved, outbox := [] }
        = (.reservations 200 patioDbBReserved.reservations,
            { db := patioDbBReserved, outbox := [] })
      ∧ getAll none [("status", "pending"), ("date", "2025-01-02")]
          { db := patioDbBReserved, outbox := [] }
        = (.reservations 200 [], { db := patioDbBReserved, outbox := [] }) :=
  ⟨(getAll_filters
      [("page", "2"), ("status", "pending"), ("sort", "asc"), ("date", "2025-01-01")]
      (by decide)).1,
   ((getAll_filters [("page", "2"), ("sort", "asc")] (by decide)).2.2 (by decide)).2
     { db := patioDbBReserved, outbox := [] },
   by rfl⟩

/-! ## C23 - C25: what the greedy policy does and does not do -/

/-- C23. The allocator is not a best-fit packer: with free tables A(2), B(4) in
that order and guests 4, createByLocation succeeds with the selection [A, B],
although its proper sub-list [B] already seats the party. -/
theorem allocator_not_best_fit :
    ∃ (db : Db) (body : Body) (g : Int) (selected sub : List Table),
      body.guests = some g
        ∧ allocate db body.location body.date body.time body.guests = .ok selected
        ∧ (createByLocation plainStorage quietMailer id body { db := db, outbox := [] }).1
            = .created 200 "Reservation succesful" db.nextReservationId
        ∧ selected = [tableA, tableB] ∧ sub = [tableB]
        ∧ List.Sublist sub selected ∧ sub ≠ selected ∧ g ≤ totalCapacity sub :=
  ⟨pairDb, patioBody 4, 4, [tableA, tableB], [tableB], rfl, by rfl, by rfl, rfl, rfl,
    by decide, by decide, by decide⟩

/-- With non-negative capacities the greedy scan either reaches guests or has
taken every free table. -/
theorem firstFitGreedy_all_or_enough (reserved : Table → Bool) (g : Int) :
    ∀ (tables : List Table) (running : Int),
      (∀ t ∈ tables.filter (fun t => !reserved t), 0 ≤ t.capacity) →
      running + totalCapacity (firstFitGreedy reserved g running tables) < g →
        firstFitGreedy reserved g running tables = tables.filter (fun t => !reserved t) := by
  intro tables
  induction tables with
  | nil => intro running _ _; rfl
  | cons t ts ih =>
      intro running hnn hlt
      by_cases hr : reserved t = true
      · have hnn2 : ∀ x ∈ ts.filter (fun t => !reserved t), 0 ≤ x.capacity := by
          intro x hx
          exact hnn x (by simpa [List.filter_cons, hr] using hx)
        simp only [firstFitGreedy, hr, Bool.not_true, Bool.false_and, Bool.false_eq_true,
          if_false, List.filter_cons] at hlt ⊢
        exact ih running hnn2 hlt
      · have hfree : (!reserved t) = true := by simpa using hr
        have hnn2 : ∀ x ∈ ts.filter (fun t => !reserved t), 0 ≤ x.capacity := by
          intro x hx
          exact hnn x (by simp only [List.filter_cons, hfree, if_true]
                          exact List.mem_cons_of_mem t hx)
        by_cases hrun : running < g
        · simp only [firstFitGreedy, hfree, hrun, decide_True, Bool.and_self, if_true,
            List.filter_cons, totalCapacity_cons] at hlt ⊢
          rw [ih (running + t.capacity) hnn2 (by omega)]
        · exfalso
          simp only [firstFitGreedy, hfree, hrun, decide_False, Bool.and_false,
            Bool.false_eq_true, if_false] at hlt
          have hsub := firstFitGreedy_sublist reserved g ts running
          have hge : 0 ≤ totalCapacity (firstFitGreedy reserved g running ts) := by
            have := totalCapacity_sublist_le (List.nil_sublist
              (firstFitGreedy reserved g running ts))
              (fun x hx => hnn2 x (hsub.subset hx))
            simpa [totalCapacity] using this
          omega

/-- The loop ends short of guests exactly when the free tables cannot seat the
party, capacities being non-negative. -/
theorem allocationLoop_short_iff (db : Db) (date time : Option String) (g : Int)
    (tables : List Table)
    (hcap : ∀ t ∈ freeTables db date time tables, 0 ≤ t.capacity) :
    (allocationLoop db date time (some g) tables).capacity < g
      ↔ totalCapacity (freeTables db date time tables) < g := by
  constructor
  · intro h
    rw [allocationLoop_some] at h
    have hall := firstFitGreedy_all_or_enough
      (fun t => selectByTableDateTime db t.id date time) g tables 0 hcap (by simpa using h)
    simp only at h
    rw [hall] at h
    exact h
  · intro h
    have hle := totalCapacity_sublist_le
      (allocationLoop_sublist_free db date time (some g) tables) hcap
    rw [allocationLoop_capacity]
    omega

theorem totalCapacity_perm {xs ys : List Table} (h : xs.Perm ys) :
    totalCapacity xs = totalCapacity ys := by
  unfold totalCapacity
  exact (h.map (fun t => t.capacity)).sum_eq

/-- C24. Greedy completeness: every capacity of a free table being non-negative,
lines 71-88 answer 409 if and only if the capacities of the tables of the
location that are not reserved for the slot sum to less than guests; when they
sum to at least guests a selection that seats the party is handed to the
booking; and the decision of the loop is the same for every order of the listing. -/
theorem greedy_completeness (db : Db) (location date time : Option String) (g : Int)
    (hcap : ∀ t ∈ freeTables db date time (selectByLocation db location), 0 ≤ t.capacity) :
    (allocate db location date time (some g)
          = .error (.message 409 "Guests exceed our capacity")
        ↔ totalCapacity (freeTables db date time (selectByLocation db location)) < g)
      ∧ (g ≤ totalCapacity (freeTables db date time (selectByLocation db location)) →
          ∃ selected, allocate db location date time (some g) = .ok selected
            ∧ g ≤ totalCapacity selected)
      ∧ ∀ listing : List Table, listing.Perm (selectByLocation db location) →
          (jsGt (some g) (allocationLoop db date time (some g) listing).capacity
            = jsGt (some g)
                (allocationLoop db date time (some g) (selectByLocation db location)).capacity) := by
  have hiff := allocationLoop_short_iff db date time g (selectByLocation db location) hcap
  have hdec : allocate db location date time (some g)
        = .error (.message 409 "Guests exceed our capacity")
      ↔ (allocationLoop db date time (some g) (selectByLocation db location)).capacity < g := by
    unfold allocate
    by_cases hlt : (allocationLoop db date time (some g)
        (selectByLocation db location)).capacity < g
    · simp [jsGt, hlt]
    · simp [jsGt, hlt]
  refine ⟨hdec.trans hiff, ?_, ?_⟩
  · intro hge
    have hnot : ¬ (allocationLoop db date time (some g)
        (selectByLocation db location)).capacity < g := by
      rw [hiff]; omega
    refine ⟨(allocationLoop db date time (some g) (selectByLocation db location)).selectedTables,
      ?_, ?_⟩
    · unfold allocate
      simp [jsGt, hnot]
    · rw [← allocationLoop_capacity]
      omega
  · intro listing hperm
    have hfreeperm : (freeTables db date time listing).Perm
        (freeTables db date time (selectByLocation db location)) := by
      unfold freeTables
      exact hperm.filter _
    have hcap2 : ∀ t ∈ freeTables db date time listing, 0 ≤ t.capacity :=
      fun t ht => hcap t (hfreeperm.subset ht)
    have hiff2 := allocationLoop_short_iff db date time g listing hcap2
    rw [totalCapacity_perm hfreeperm] at hiff2
    have hboth := hiff2.trans hiff.symm
    simp only [jsGt, gt_iff_lt]
    by_cases hlt : (allocationLoop db date time (some g) listing).capacity < g
    · simp [hlt, hboth.1 hlt]
    · have hlt2 : ¬ (allocationLoop db date time (some g)
          (selectByLocation db location)).capacity < g := fun h => hlt (hboth.2 h)
      simp [hlt, hlt2]

theorem greedy_completeness_witness :
    (allocate patioDbBReserved (some "patio") (some "2025-01-01") (some "dinner") (some 7)
          = .error (.message 409 "Guests exceed our capacity")
        ↔ totalCapacity (freeTables patioDbBReserved (some "2025-01-01") (some "dinner")
            (selectByLocation patioDbBReserved (some "patio"))) < 7)
      ∧ totalCapacity (freeTables patioDbBReserved (some "2025-01-01") (some "dinner")
            (selectByLocation patioDbBReserved (some "patio"))) = 6
      ∧ allocate patioDbBReserved (some "patio") (some "2025-01-01") (some "dinner") (some 6)
          = .ok [tableA, tableC] :=
  ⟨(greedy_completeness patioDbBReserved (some "patio") (some "2025-01-01") (some "dinner") 7
      (by decide)).1,
   by decide, by rfl⟩

theorem firstFitGreedy_nil_of_le (reserved : Table → Bool) (g : Int) :
    ∀ (tables : List Table) (running : Int), g ≤ running →
      firstFitGreedy reserved g running tables = [] := by
  intro tables
  induction tables with
  | nil => intro _ _; rfl
  | cons t ts ih =>
      intro running h
      have hnot : ¬ running < g := by omega
      simp only [firstFitGreedy, hnot, decide_False, Bool.and_false, Bool.false_eq_true,
        if_false]
      exact ih running h

/-- C25. Non-positive party size is not rejected: for guests ≤ 0 in a complete
body of an existing user, the loop selects no table whatever the tables of the
location and their reservations, the capacity check passes, and, the notifier not
throwing and the storage taking the values, createByLocation answers 200 after
inserting one reservation row and no table assignment. -/
theorem non_positive_guests_accepted (st : Storage) (mailer : Mailer) (body : Body)
    (w : World) (user : User) (d t s : String) (g : Int) (u : Nat)
    (hd : body.date = some d) (ht : body.time = some t) (hg : body.guests = some g)
    (hs : body.status = some s) (hu : body.user_id = some u)
    (hguests : g ≤ 0)
    (huser : getUserById w.db body.user_id = some user)
    (hm : mailer (receivedEmail user) = none)
    (hfault : st.reservationFault d t g s u = none) :
    (allocationLoop w.db body.date body.time body.guests
        (selectByLocation w.db body.location)).selectedTables = []
      ∧ allocate w.db body.location body.date body.time body.guests = .ok []
      ∧ createByLocation st mailer id body w
          = (.created 200 "Reservation succesful" w.db.nextReservationId,
              { db := { w.db with
                        reservations := w.db.reservations
                          ++ [⟨w.db.nextReservationId, d, t, g, s, u⟩],
                        nextReservationId := w.db.nextReservationId + 1 },
                outbox := w.outbox ++ [receivedEmail user] }) := by
  have hloop : allocationLoop w.db body.date body.time (some g)
      (selectByLocation w.db body.location) = { capacity := 0, selectedTables := [] } := by
    rw [allocationLoop_some, firstFitGreedy_nil_of_le _ g _ 0 hguests]
    rfl
  have halloc : allocate w.db body.location body.date body.time body.guests = .ok [] := by
    rw [hg]
    unfold allocate
    simp only [hloop]
    have : ¬ g > 0 := by omega
    simp [jsGt, this]
  refine ⟨by rw [hg, hloop], halloc, ?_⟩
  rw [createByLocation_of_allocated st mailer id body w user [] huser hm halloc]
  rw [hu] at huser
  have huser2 : getUserById
      { w.db with reservations := w.db.reservations ++ [⟨w.db.nextReservationId, d, t, g, s, u⟩],
                  nextReservationId := w.db.nextReservationId + 1 } (some u) = some user := huser
  simp only [book, insertReservation, hd, ht, hg, hs, hu, hfault, insertAll, id, huser2]

theorem non_positive_guests_accepted_witness :
    createByLocation plainStorage quietMailer id (patioBody (-3))
        { db := smallDb, outbox := [] }
      = (.created 200 "Reservation succesful" 1,
          { db := { smallDb with
                    reservations := [⟨1, "2025-01-01", "dinner", -3, "pending", 1⟩],
                    nextReservationId := 2 },
            outbox := [receivedEmail exampleUser] }) :=
  (non_positive_guests_accepted plainStorage quietMailer (patioBody (-3))
    { db := smallDb, outbox := [] } exampleUser "2025-01-01" "dinner" "pending" (-3) 1
    rfl rfl rfl rfl rfl (by decide) (by rfl) (by rfl) (by rfl)).2.2

/-! ## C26: availability ignores the status of reservations -/

/-- No path of setReservationStatusById writes to reservation_has_table. -/
theorem setReservationStatusById_assignments (st : Storage) (mailer : Mailer) (i : Nat)
    (status : String) (w : World) :
    (setReservationStatusById st mailer i status w).2.db.assignments = w.db.assignments := by
  have hupd : ∀ w1 : World, w1.db = w.db →
      (match updateStatusById st w1.db i status with
        | .error err => (classifyUpdate err, w1)
        | .ok (result, db1) =>
            (if result then Response.message 200 "Update successful" else Response.silent,
              { w1 with db := db1 })).2.db.assignments = w.db.assignments := by
    intro w1 hw1
    unfold updateStatusById
    cases st.statusFault status with
    | some err => simp only; rw [hw1]
    | none => simp only; rw [hw1]
  unfold setReservationStatusById
  simp only
  split
  · rfl
  · rename_i w1 hw1
    apply hupd
    split at hw1
    · split at hw1
      · exact absurd hw1 (by simp)
      · split at hw1
        · exact absurd hw1 (by simp)
        · split at hw1
          · exact absurd hw1 (by simp)
          · injection hw1 with hw1
            rw [← hw1]
    · injection hw1 with hw1
      rw [hw1]

/-- The availability checker reads reservation_has_table only. -/
theorem selectByTableDateTime_congr (db1 db2 : Db) (h : db1.assignments = db2.assignments)
    (tid : Nat) (date time : Option String) :
    selectByTableDateTime db1 tid date time = selectByTableDateTime db2 tid date time := by
  unfold selectByTableDateTime
  rw [h]

theorem selectByTableDateTime_of_mem (db : Db) (a : ReservationHasTable)
    (ha : a ∈ db.assignments) :
    selectByTableDateTime db a.table_id (some a.date) (some a.time) = true := by
  unfold selectByTableDateTime
  simp only
  rw [List.any_eq_true]
  exact ⟨a, ha, by simp⟩

/-- C26. A cancelled reservation keeps its tables blocked: whatever status
setReservationStatusById is asked to write, cancelled included, and whatever its
outcome, the availability checker answers afterwards as it did before, since it
reads table assignments only; so every table assigned to the reservation is still
reported reserved for its slot and is never selected by the allocation loop for
that slot. Scenario: B held by reservation 1, set to cancelled; a party of 5 for
the same slot still gets [A, C]. -/
theorem cancelled_reservation_keeps_tables_blocked (st : Storage) (mailer : Mailer)
    (i : Nat) (status : String) (w : World) :
    (∀ tid date time,
        selectByTableDateTime (setReservationStatusById st mailer i status w).2.db tid date time
          = selectByTableDateTime w.db tid date time)
      ∧ (∀ a ∈ w.db.assignments, a.reservation_id = i →
          selectByTableDateTime (setReservationStatusById st mailer i status w).2.db
              a.table_id (some a.date) (some a.time) = true
            ∧ ∀ guests tables,
                ∀ x ∈ (allocationLoop (setReservationStatusById st mailer i status w).2.db
                    (some a.date) (some a.time) guests tables).selectedTables,
                  x.id ≠ a.table_id)
      ∧ (setReservationStatusById plainStorage quietMailer 1 "cancelled"
            { db := patioDbBReserved, outbox := [] }).2.db.reservations
          = [⟨1, "2025-01-01", "dinner", 4, "cancelled", 1⟩]
      ∧ allocate (setReservationStatusById plainStorage quietMailer 1 "cancelled"
            { db := patioDbBReserved, outbox := [] }).2.db
          (some "patio") (some "2025-01-01") (some "dinner") (some 5)
          = .ok [tableA, tableC] := by
  have hass := setReservationStatusById_assignments st mailer i status w
  have hsame : ∀ tid date time,
      selectByTableDateTime (setReservationStatusById st mailer i status w).2.db tid date time
        = selectByTableDateTime w.db tid date time :=
    fun tid date time => selectByTableDateTime_congr _ _ hass tid date time
  refine ⟨hsame, ?_, by rfl, by rfl⟩
  intro a ha _
  have hres : selectByTableDateTime (setReservationStatusById st mailer i status w).2.db
      a.table_id (some a.date) (some a.time) = true := by
    rw [hsame]
    exact selectByTableDateTime_of_mem w.db a ha
  refine ⟨hres, ?_⟩
  intro guests tables x hx hxid
  have hfree := (allocationLoop_sublist_free _ (some a.date) (some a.time) guests tables).subset hx
  simp only [freeTables, List.mem_filter, hxid, hres, Bool.not_true, Bool.false_eq_true,
    and_false] at hfree

/-! ## C28: the allocation reads the location and the slot only -/

theorem foldl_scanStep_congr (db1 db2 : Db) (date time : Option String)
    (guests : Option Int) :
    ∀ (tables : List Table) (acc : Scan),
      (∀ t ∈ tables, selectByTableDateTime db1 t.id date time
        = selectByTableDateTime db2 t.id date time) →
      tables.foldl (scanStep db1 date time guests) acc
        = tables.foldl (scanStep db2 date time guests) acc := by
  intro tables
  induction tables with
  | nil => intro _ _; rfl
  | cons t ts ih =>
      intro acc h
      rw [List.foldl_cons, List.foldl_cons]
      have hstep : scanStep db1 date time guests acc t = scanStep db2 date time guests acc t := by
        unfold scanStep
        rw [h t (List.mem_cons_self t ts)]
      rw [hstep]
      exact ih _ (fun x hx => h x (List.mem_cons_of_mem t hx))

/-- C28. The allocation depends only on the requested location and slot: two
databases that give the same ordered listing for the location and agree, for each
listed table, on whether an assignment exists for (table.id, date, time) lead the
loop to the same selection and capacity and lines 71-88 to the same decision,
whatever the tables of other locations and the assignments of other slots. -/
theorem allocation_reads_location_and_slot_only (db1 db2 : Db)
    (location date time : Option String) (guests : Option Int)
    (hlist : selectByLocation db1 location = selectByLocation db2 location)
    (hres : ∀ t ∈ selectByLocation db1 location,
      selectByTableDateTime db1 t.id date time = selectByTableDateTime db2 t.id date time) :
    allocationLoop db1 date time guests (selectByLocation db1 location)
        = allocationLoop db2 date time guests (selectByLocation db2 location)
      ∧ allocate db1 location date time guests = allocate db2 location date time guests := by
  have hloop : allocationLoop db1 date time guests (selectByLocation db1 location)
      = allocationLoop db2 date time guests (selectByLocation db2 location) := by
    unfold allocationLoop
    rw [foldl_scanStep_congr db1 db2 date time guests _ _ hres, hlist]
  refine ⟨hloop, ?_⟩
  unfold allocate
  simp only [hloop]

theorem allocation_reads_location_and_slot_only_witness :
    patioDbBReserved ≠ patioDbElsewhere
      ∧ allocate patioDbBReserved (some "patio") (some "2025-01-01") (some "dinner") (some 5)
          = .ok [tableA, tableC]
      ∧ allocate patioDbBReserved (some "patio") (some "2025-01-01") (some "dinner") (some 5)
          = allocate patioDbElsewhere (some "patio") (some "2025-01-01") (some "dinner")
              (some 5) :=
  ⟨by decide, by rfl,
   (allocation_reads_location_and_slot_only patioDbBReserved patioDbElsewhere (some "patio")
      (some "2025-01-01") (some "dinner") (some 5) (by decide) (by decide)).2⟩

/-! ## C27: the compensation touches the rows of the attempt only -/

/-- A run of the booking phase that does not answer 200 leaves the reservations,
tables and users it started from, and adds at most assignment rows under the id
of the attempt, none under cascade. -/
theorem book_failure (st : Storage) (db : Db) (date time : Option String)
    (guests : Option Int) (status : Option String) (user_id : Option Nat)
    (selected : List Table) (hfresh : FreshReservationId db) :
    (∃ rid db2, book st db date time guests status user_id selected
        = (.created 200 "Reservation succesful" rid, db2))
      ∨ ((book st db date time guests status user_id selected).2.reservations
            = db.reservations
          ∧ (book st db date time guests status user_id selected).2.tables = db.tables
          ∧ (book st db date time guests status user_id selected).2.users = db.users
          ∧ ∃ newRows, (book st db date time guests status user_id selected).2.assignments
                = db.assignments ++ newRows
              ∧ (∀ a ∈ newRows, a.reservation_id = db.nextReservationId)
              ∧ (st.cascade = true → newRows = [])) := by
  cases hins : insertReservation st db date time guests status user_id with
  | error err =>
      right
      simp only [book, hins, compensate, deleteById]
      exact ⟨trivial, trivial, trivial, [], by simp, by simp, fun _ => rfl⟩
  | ok p =>
      obtain ⟨r, db1⟩ := p
      obtain ⟨d, t, g, s, u, hd, ht, hg, _, _, hr, hdb1⟩ :=
        insertReservation_ok st db date time guests status user_id r db1 hins
      subst hr
      obtain ⟨sub, hsub, hall, hnone, _⟩ :=
        insertAll_spec st db.nextReservationId d t selected db1
      have hdb2 : (insertAll st db1 db.nextReservationId (some d) (some t) selected).1
          = { db with
              reservations := db.reservations ++ [⟨db.nextReservationId, d, t, g, s, u⟩],
              assignments := db.assignments ++ sub.map (assignmentRow db.nextReservationId d t),
              nextReservationId := db.nextReservationId + 1 } := by
        rw [hall, hdb1]
      have hrowsid : ∀ a ∈ sub.map (assignmentRow db.nextReservationId d t),
          a.reservation_id = db.nextReservationId := by
        intro a ha
        simp only [List.mem_map] at ha
        obtain ⟨x, _, hx⟩ := ha
        rw [← hx]; rfl
      have hdel : (deleteById st
            (insertAll st db1 db.nextReservationId (some d) (some t) selected).1
            (some db.nextReservationId)).2
          = { db with
              assignments := db.assignments ++
                (if st.cascade then [] else sub.map (assignmentRow db.nextReservationId d t)),
              nextReservationId := db.nextReservationId + 1 } := by
        rw [hdb2]
        exact deleteById_after_insert st db ⟨db.nextReservationId, d, t, g, s, u⟩
          (sub.map (assignmentRow db.nextReservationId d t)) hfresh rfl hrowsid
      have hfail : ∀ err, (compensate st
            (insertAll st db1 db.nextReservationId (some d) (some t) selected).1
            (some db.nextReservationId) err).2.reservations = db.reservations
          ∧ (compensate st
            (insertAll st db1 db.nextReservationId (some d) (some t) selected).1
            (some db.nextReservationId) err).2.tables = db.tables
          ∧ (compensate st
            (insertAll st db1 db.nextReservationId (some d) (some t) selected).1
            (some db.nextReservationId) err).2.users = db.users
          ∧ ∃ newRows, (compensate st
                (insertAll st db1 db.nextReservationId (some d) (some t) selected).1
                (some db.nextReservationId) err).2.assignments = db.assignments ++ newRows
              ∧ (∀ a ∈ newRows, a.reservation_id = db.nextReservationId)
              ∧ (st.cascade = true → newRows = []) := by
        intro err
        simp only [compensate]
        rw [hdel]
        refine ⟨rfl, rfl, rfl,
          if st.cascade then [] else sub.map (assignmentRow db.nextReservationId d t),
          rfl, ?_, ?_⟩
        · intro a ha
          cases hc : st.cascade with
          | true => simp [hc] at ha
          | false =>
              simp only [hc, Bool.false_eq_true, if_false] at ha
              exact hrowsid a ha
        · intro hc
          simp [hc]
      rw [book_of_insert_ok st db date time guests status user_id selected
        db.nextReservationId db1 hins, hd, ht]
      cases herr : (insertAll st db1 db.nextReservationId (some d) (some t) selected).2 with
      | some err => exact Or.inr (hfail err)
      | none =>
          simp only
          cases getUserById (insertAll st db1 db.nextReservationId (some d) (some t)
              selected).1 user_id with
          | none => exact Or.inr (hfail _)
          | some user2 => exact Or.inl ⟨_, _, rfl⟩

/-- C27. Compensation never touches other bookings: the reservation ids in use
being below the AUTO_INCREMENT counter, a run of createByLocation that does not
answer 200 either wrote nothing at all, or leaves the reservations, tables and
users that were there when the attempt started writing and every assignment row
that was there, adding at most assignment rows under the id of the attempt (none
under cascade). When insertReservation itself is rejected, reservationId is
undefined and the compensating deleteById deletes no row. -/
theorem compensation_leaves_other_bookings (st : Storage) (mailer : Mailer)
    (race : Db → Db) (body : Body) (w : World)
    (hfresh : FreshReservationId (race w.db))
    (hfail : ∀ status msg rid,
      (createByLocation st mailer race body w).1 ≠ .created status msg rid) :
    ((createByLocation st mailer race body w).2.db = w.db
        ∨ ((createByLocation st mailer race body w).2.db.reservations
              = (race w.db).reservations
            ∧ (createByLocation st mailer race body w).2.db.tables = (race w.db).tables
            ∧ (createByLocation st mailer race body w).2.db.users = (race w.db).users
            ∧ ∃ newRows, (createByLocation st mailer race body w).2.db.assignments
                  = (race w.db).assignments ++ newRows
                ∧ (∀ a ∈ newRows, a.reservation_id = (race w.db).nextReservationId)
                ∧ (st.cascade = true → newRows = [])))
      ∧ ∀ (db : Db) (err : JsError),
          deleteById st db none = (false, db) ∧ compensate st db none err = (classify err, db) := by
  refine ⟨?_, fun db err => ⟨rfl, rfl⟩⟩
  cases hu : getUserById w.db body.user_id with
  | none =>
      left
      unfold createByLocation
      simp only [JsVal.truthy, Bool.not_true, Bool.false_eq_true, if_false, hu]
  | some user =>
      cases hm : mailer (receivedEmail user) with
      | some err =>
          left
          unfold createByLocation
          simp only [JsVal.truthy, Bool.not_true, Bool.false_eq_true, if_false, hu, hm]
      | none =>
          cases hsel : allocate w.db body.location body.date body.time body.guests with
          | error resp =>
              left
              unfold createByLocation
              simp only [JsVal.truthy, Bool.not_true, Bool.false_eq_true, if_false, hu, hm,
                hsel]
          | ok selected =>
              right
              have hrun := createByLocation_of_allocated st mailer race body w user selected
                hu hm hsel
              rw [hrun] at hfail ⊢
              rcases book_failure st (race w.db) body.date body.time body.guests body.status
                  body.user_id selected hfresh with ⟨rid, db2, hok⟩ | hbad
              · exact absurd (by rw [hok]) (hfail 200 "Reservation succesful" rid)
              · exact hbad

theorem compensation_leaves_other_bookings_witness :
    (createByLocation plainStorage quietMailer raceOnB (patioBody 5)
        { db := patioDb, outbox := [] }).1 = .message 409 "Tables already reserved"
      ∧ (createByLocation plainStorage quietMailer raceOnB (patioBody 5)
          { db := patioDb, outbox := [] }).2.db.reservations = (raceOnB patioDb).reservations
      ∧ ((createByLocation plainStorage quietMailer raceOnB (patioBody 5)
            { db := patioDb, outbox := [] }).2.db = patioDb
          ∨ ((createByLocation plainStorage quietMailer raceOnB (patioBody 5)
                { db := patioDb, outbox := [] }).2.db.reservations
                = (raceOnB patioDb).reservations
              ∧ (createByLocation plainStorage quietMailer raceOnB (patioBody 5)
                { db := patioDb, outbox := [] }).2.db.tables = (raceOnB patioDb).tables
              ∧ (createByLocation plainStorage quietMailer raceOnB (patioBody 5)
                { db := patioDb, outbox := [] }).2.db.users = (raceOnB patioDb).users
              ∧ ∃ newRows, (createByLocation plainStorage quietMailer raceOnB (patioBody 5)
                    { db := patioDb, outbox := [] }).2.db.assignments
                    = (raceOnB patioDb).assignments ++ newRows
                  ∧ (∀ a ∈ newRows, a.reservation_id = (raceOnB patioDb).nextReservationId)
                  ∧ (plainStorage.cascade = true → newRows = []))) :=
  ⟨by rfl, by rfl,
   (compensation_leaves_other_bookings plainStorage quietMailer raceOnB (patioBody 5)
      { db := patioDb, outbox := [] } (by decide)
      (fun status msg rid h => by
        have h409 : (createByLocation plainStorage quietMailer raceOnB (patioBody 5)
            { db := patioDb, outbox := [] }).1 = .message 409 "Tables already reserved" := by
          rfl
        rw [h409] at h
        exact absurd h (by simp))).1⟩

/-! ## C30: the query built by selectByParams -/

/-- From the second key on, the loop appends the conditions separated by AND. -/
theorem foldl_queryStep_tail :
    ∀ (keys : List String) (i n : Nat) (acc : String), 1 ≤ i → n = i + keys.length →
      (keys.enumFrom i).foldl (queryStep n) acc = acc ++ whereConditions keys := by
  intro keys
  induction keys with
  | nil => intro i n acc _ _; simp [whereConditions]
  | cons key rest ih =>
      intro i n acc hi hn
      have hi0 : (i == 0) = false := by simpa using (by omega : i ≠ 0)
      rw [List.enumFrom_cons, List.foldl_cons]
      cases rest with
      | nil =>
          have hlast : (i != n - 1) = false := by
            simp only [List.length_cons, List.length_nil] at hn
            simp only [bne_eq_false_iff_eq]
            omega
          simp [queryStep, hi0, hlast, whereConditions]
      | cons key2 rest2 =>
          have hlast : (i != n - 1) = true := by
            simp only [List.length_cons] at hn
            simp only [bne_iff_ne, ne_eq]
            omega
          have hq : queryStep n acc (i, key) = (acc ++ (" " ++ key ++ " = ? ")) ++ "AND " := by
            simp [queryStep, hi0, hlast]
          rw [hq, ih (i + 1) n _ (by omega) (by simp only [List.length_cons] at hn ⊢; omega)]
          simp only [whereConditions, String.append_assoc]

/-- The text built for a non-empty key list. -/
theorem queryString_cons (key : String) (rest : List String) :
    queryString (key :: rest)
      = "SELECT * FROM reservation" ++ " WHERE" ++ whereConditions (key :: rest) := by
  unfold queryString
  rw [List.enum_cons, List.foldl_cons]
  cases rest with
  | nil => simp [queryStep, whereConditions, String.append_assoc]
  | cons key2 rest2 =>
      have hq : queryStep (key :: key2 :: rest2).length "SELECT * FROM reservation" (0, key)
          = (("SELECT * FROM reservation" ++ " WHERE") ++ (" " ++ key ++ " = ? ")) ++ "AND " := by
        simp [queryStep]
      rw [hq, foldl_queryStep_tail (key2 :: rest2) 1 _ _ (le_refl 1)
        (by simp only [List.length_cons]; omega)]
      simp only [whereConditions, String.append_assoc]

theorem count_placeholders :
    ∀ (keys : List String), (∀ key ∈ keys, key.toList.count '?' = 0) →
      (whereConditions keys).toList.count '?' = keys.length := by
  intro keys
  induction keys with
  | nil => intro _; rfl
  | cons key rest ih =>
      intro h
      have hk := h key (List.mem_cons_self key rest)
      have hrest := ih (fun k hk2 => h k (List.mem_cons_of_mem key hk2))
      cases rest with
      | nil =>
          simp only [whereConditions, String.toList, String.data_append, List.count_append,
            List.length_cons, List.length_nil] at hk ⊢
          rw [hk]
          rfl
      | cons key2 rest2 =>
          simp only [whereConditions, String.toList, String.data_append, List.count_append,
            List.length_cons] at hk hrest ⊢
          rw [hk, hrest]
          have h1 : List.count '?' " ".data = 0 := by rfl
          have h2 : List.count '?' " = ? ".data = 1 := by rfl
          have h3 : List.count '?' "AND ".data = 0 := by rfl
          rw [h1, h2, h3]
          omega

theorem validParams_without_placeholder :
    ∀ key ∈ validParams, key.toList.count '?' = 0 := by
  decide

/-- C30. The query of selectByParams: the bound values are the values of the
filter in key order; with no key the text is exactly SELECT * FROM reservation;
with n ≥ 1 keys it is that text, one WHERE, and the n conditions key = ? in key
order separated by n - 1 ANDs; and, no key holding a question mark (as is the case
of the whitelisted keys), the text holds as many placeholders as there are bound
values. -/
theorem selectByParams_query_well_formed (params : List (String × String)) :
    (selectByParamsQuery params).2 = params.map Prod.snd
      ∧ (selectByParamsQuery params).2.length = params.length
      ∧ (params = [] → (selectByParamsQuery params).1 = "SELECT * FROM reservation")
      ∧ (params ≠ [] → (selectByParamsQuery params).1
          = "SELECT * FROM reservation" ++ " WHERE" ++ whereConditions (params.map Prod.fst))
      ∧ ((∀ p ∈ params, p.1.toList.count '?' = 0) →
          (selectByParamsQuery params).1.toList.count '?'
            = (selectByParamsQuery params).2.length)
      ∧ ((∀ p ∈ params, p.1 ∈ validParams) →
          (selectByParamsQuery params).1.toList.count '?'
            = (selectByParamsQuery params).2.length) := by
  have hcount : (∀ p ∈ params, p.1.toList.count '?' = 0) →
      (selectByParamsQuery params).1.toList.count '?'
        = (selectByParamsQuery params).2.length := by
    intro h
    unfold selectByParamsQuery
    simp only [List.length_map]
    cases params with
    | nil => rfl
    | cons p rest =>
        rw [List.map_cons, queryString_cons]
        have hc := count_placeholders (p.1 :: rest.map Prod.fst) (by
          intro key hkey
          rw [← List.map_cons, List.mem_map] at hkey
          obtain ⟨q, hq, hqk⟩ := hkey
          rw [← hqk]
          exact h q hq)
        simp only [String.toList, String.data_append, List.count_append] at hc ⊢
        rw [hc]
        have h1 : List.count '?' "SELECT * FROM reservation".data = 0 := by rfl
        have h2 : List.count '?' " WHERE".data = 0 := by rfl
        rw [h1, h2]
        simp
  refine ⟨rfl, by simp [selectByParamsQuery], ?_, ?_, hcount, ?_⟩
  · intro h
    rw [h]
    rfl
  · intro h
    cases params with
    | nil => exact absurd rfl h
    | cons p rest =>
        unfold selectByParamsQuery
        rw [List.map_cons, queryString_cons]
  · intro h
    exact hcount (fun p hp => validParams_without_placeholder p.1 (h p hp))

theorem selectByParams_query_well_formed_witness :
    selectByParamsQuery [("status", "pending"), ("date", "2025-01-01"), ("guests", "4")]
        = ("SELECT * FROM reservation WHERE status = ? AND  date = ? AND  guests = ? ",
            ["pending", "2025-01-01", "4"])
      ∧ (selectByParamsQuery
          [("status", "pending"), ("date", "2025-01-01"), ("guests", "4")]).1.toList.count '?'
          = (selectByParamsQuery
              [("status", "pending"), ("date", "2025-01-01"), ("guests", "4")]).2.length :=
  ⟨by decide,
   (selectByParams_query_well_formed
      [("status", "pending"), ("date", "2025-01-01"), ("guests", "4")]).2.2.2.2.2
     (by decide)⟩

/-! ## C29: the availability view -/

theorem lookup_map_other (t s : String) (hst : (s == t) = false) :
    ∀ (av : List (String × Bool)),
      (av.map (fun e => if e.1 == t then (t, false) else e)).lookup s = av.lookup s := by
  intro av
  induction av with
  | nil => rfl
  | cons e rest ih =>
      obtain ⟨k, v⟩ := e
      by_cases hk : (k == t) = true
      · have hkt : k = t := by simpa using hk
        subst hkt
        simp only [List.map_cons, beq_self_eq_true, if_true, List.lookup_cons, hst]
        exact ih
      · simp only [List.map_cons, hk, Bool.false_eq_true, if_false, List.lookup_cons, ih]

theorem lookup_map_self (t : String) :
    ∀ (av : List (String × Bool)), av.any (fun e => e.1 == t) = true →
      (av.map (fun e => if e.1 == t then (t, false) else e)).lookup t = some false := by
  intro av
  induction av with
  | nil => intro h; simp at h
  | cons e rest ih =>
      intro h
      obtain ⟨k, v⟩ := e
      by_cases hk : (k == t) = true
      · simp only [List.map_cons, hk, if_true, List.lookup_cons, beq_self_eq_true]
      · have hk2 : (k == t) = false := by simpa using hk
        have htk : (t == k) = false := by
          rw [beq_eq_false_iff_ne, ne_eq] at hk2 ⊢
          exact fun h2 => hk2 h2.symm
        simp only [List.any_cons, hk2, Bool.false_or] at h
        simp only [List.map_cons, hk2, Bool.false_eq_true, if_false, List.lookup_cons, htk]
        exact ih h

theorem lookup_append_new (t s : String) (b : Bool) :
    ∀ (av : List (String × Bool)),
      (av ++ [(t, b)]).lookup s
        = (match av.lookup s with
            | some v => some v
            | none => if s == t then some b else none) := by
  intro av
  induction av with
  | nil =>
      simp only [List.nil_append, List.lookup_cons, List.lookup_nil]
      cases s == t <;> rfl
  | cons e rest ih =>
      obtain ⟨k, v⟩ := e
      simp only [List.cons_append, List.lookup_cons]
      cases s == k
      · exact ih
      · rfl

theorem lookup_none_of_not_any (t : String) :
    ∀ (av : List (String × Bool)), av.any (fun e => e.1 == t) = false → av.lookup t = none := by
  intro av
  induction av with
  | nil => intro _; rfl
  | cons e rest ih =>
      intro h
      obtain ⟨k, v⟩ := e
      simp only [List.any_cons, Bool.or_eq_false_iff] at h
      have htk : (t == k) = false := by
        have hkt := h.1
        rw [beq_eq_false_iff_ne, ne_eq] at hkt ⊢
        exact fun h2 => hkt h2.symm
      simp only [List.lookup_cons, htk]
      exact ih h.2

/-- Reading a property after the assignment of line 118. -/
theorem lookup_setUnavailable (av : List (String × Bool)) (t s : String) :
    (setUnavailable av t).lookup s = if s == t then some false else av.lookup s := by
  unfold setUnavailable
  by_cases hany : av.any (fun e => e.1 == t) = true
  · rw [if_pos hany]
    by_cases hst : (s == t) = true
    · have : s = t := by simpa using hst
      rw [this, lookup_map_self t av hany]
      simp
    · have hst2 : (s == t) = false := by simpa using hst
      rw [lookup_map_other t s hst2 av, hst2]
      rfl
  · rw [if_neg hany]
    have hany2 : av.any (fun e => e.1 == t) = false := by
      rw [← Bool.not_eq_true]; exact hany
    rw [lookup_append_new t s false av]
    by_cases hst : (s == t) = true
    · have : s = t := by simpa using hst
      rw [this, lookup_none_of_not_any t av hany2]
    · have hst2 : (s == t) = false := by simpa using hst
      rw [hst2]
      cases av.lookup s <;> rfl

/-- What holds of availableTables after the reserved rows `done` have been
applied: the entries are those of the tables, in order, and a dining slot is
marked false exactly when one of the rows holds the table at that slot. -/
theorem foldl_markOccupied (tables : List Table) :
    ∀ (rows done : List ReservationHasTable) (acc : List TableAvailability),
      (acc.map (fun e => (e.id, e.number)) = tables.map (fun x => (x.id, x.number))
        ∧ ∀ e ∈ acc, ∀ s ∈ diningSlots, e.available.lookup s
            = some (!(done.any (fun a => a.table_id == e.id && a.time == s)))) →
      ((rows.foldl markOccupied acc).map (fun e => (e.id, e.number))
          = tables.map (fun x => (x.id, x.number))
        ∧ ∀ e ∈ rows.foldl markOccupied acc, ∀ s ∈ diningSlots, e.available.lookup s
            = some (!((done ++ rows).any (fun a => a.table_id == e.id && a.time == s)))) := by
  intro rows
  induction rows with
  | nil => intro done acc h; simpa using h
  | cons a rest ih =>
      intro done acc h
      rw [List.foldl_cons]
      have hstep := ih (done ++ [a]) (markOccupied acc a) ?_
      · simpa using hstep
      · obtain ⟨hmap, hav⟩ := h
        constructor
        · rw [← hmap]
          unfold markOccupied
          rw [List.map_map]
          apply List.map_congr_left
          intro e _
          simp only [Function.comp]
          split <;> rfl
        · intro e2 he2 s hs
          unfold markOccupied at he2
          simp only [List.mem_map] at he2
          obtain ⟨e, he, hee⟩ := he2
          have hold := hav e he s hs
          by_cases hid : (e.id == a.table_id) = true
          · have hideq : e.id = a.table_id := by simpa using hid
            rw [if_pos hid] at hee
            rw [← hee]
            simp only [lookup_setUnavailable, List.any_append, List.any_cons, List.any_nil,
              Bool.or_false, hideq, beq_self_eq_true, Bool.true_and]
            rw [hideq] at hold
            by_cases hst : (s == a.time) = true
            · have hseq : s = a.time := by simpa using hst
              simp [hseq]
            · have hst2 : (s == a.time) = false := by simpa using hst
              have hts : (a.time == s) = false := by
                rw [beq_eq_false_iff_ne, ne_eq] at hst2 ⊢
                exact fun h2 => hst2 h2.symm
              simp only [hst2, Bool.false_eq_true, if_false, hold, hts, Bool.or_false]
          · have hid2 : (e.id == a.table_id) = false := by simpa using hid
            have hid3 : (a.table_id == e.id) = false := by
              rw [beq_eq_false_iff_ne, ne_eq] at hid2 ⊢
              exact fun h2 => hid2 h2.symm
            rw [if_neg hid] at hee
            rw [← hee]
            simp only [List.any_append, List.any_cons, List.any_nil, Bool.or_false, hid3,
              Bool.false_and, hold]

/-- C29. The availability view agrees with the availability checker: the array
answered by getAllAvailableByDate has one entry per table, carrying its id and
number, in the order of selectAll, and for every entry and every slot among
breakfast, lunch and dinner the value of available[slot] is the negation of
selectByTableDateTime(id, date, slot), that is, false exactly when an assignment
exists for (id, date, slot). -/
theorem availability_view_agrees (date : String) (w : World) :
    getAllAvailableByDate none date w = (.availability 200 (availableTables w.db date), w)
      ∧ (availableTables w.db date).map (fun e => (e.id, e.number))
          = (selectAll w.db).map (fun x => (x.id, x.number))
      ∧ (∀ e ∈ availableTables w.db date, ∀ s ∈ diningSlots,
          e.available.lookup s
            = some (!selectByTableDateTime w.db e.id (some date) (some s)))
      ∧ ∀ e ∈ availableTables w.db date, ∀ s ∈ diningSlots,
          (e.available.lookup s = some false
            ↔ ∃ a ∈ w.db.assignments, a.table_id = e.id ∧ a.date = date ∧ a.time = s) := by
  have hfold := foldl_markOccupied (selectAll w.db) (selectReservationTableByDate w.db date) []
    ((selectAll w.db).map (fun table =>
      { id := table.id, number := table.number,
        available := [("breakfast", true), ("lunch", true), ("dinner", true)] }))
    ⟨by rw [List.map_map]; rfl, by
      intro e he s hs
      simp only [List.mem_map] at he
      obtain ⟨x, _, hx⟩ := he
      rw [← hx]
      simp only [diningSlots, List.mem_cons, List.mem_singleton, List.not_mem_nil,
        or_false] at hs
      rcases hs with h | h | h <;> rw [h] <;> rfl⟩
  have hview : ∀ e ∈ availableTables w.db date, ∀ s ∈ diningSlots,
      e.available.lookup s
        = some (!selectByTableDateTime w.db e.id (some date) (some s)) := by
    intro e he s hs
    have := hfold.2 e he s hs
    rw [this]
    simp only [List.nil_append, selectReservationTableByDate, List.any_filter,
      selectByTableDateTime]
    have hfun : (fun a : ReservationHasTable =>
          a.date == date && (a.table_id == e.id && a.time == s))
        = (fun a : ReservationHasTable => a.table_id == e.id && a.date == date && a.time == s) := by
      funext a
      cases a.table_id == e.id <;> cases a.date == date <;> cases a.time == s <;> rfl
    rw [hfun]
  refine ⟨rfl, hfold.1, hview, ?_⟩
  intro e he s hs
  rw [hview e he s hs]
  simp only [Option.some.injEq, Bool.not_eq_false', selectByTableDateTime, List.any_eq_true,
    Bool.and_eq_true, beq_iff_eq]
  constructor
  · rintro ⟨a, ha, h⟩
    exact ⟨a, ha, h.1.1, h.1.2, h.2⟩
  · rintro ⟨a, ha, h1, h2, h3⟩
    exact ⟨a, ha, ⟨h1, h2⟩, h3⟩

/-- The view of the second scenario of §8 for day D: only B is taken, at dinner. -/
theorem availability_view_example :
    availableTables patioDbBReserved "2025-01-01"
      = [⟨1, 1, [("breakfast", true), ("lunch", true), ("dinner", true)]⟩,
         ⟨2, 2, [("breakfast", true), ("lunch", true), ("dinner", false)]⟩,
         ⟨3, 3, [("breakfast", true), ("lunch", true), ("dinner", true)]⟩] := by
  decide

/-! ## C21: the error handler -/

/-- C21 (evaluation of the code). The body written by the error handler never
holds anything but status, title and message, and for an instance of one of the
error classes of client.errors.js and server.errors.js the status passed to
res.status is the number the class sets and the body holds that status, the title
and the message of the instance (for the client ForbiddenError its fixed text). But
a storage error forwarded by a controller with next(err), such as the one getAll
forwards when its query is rejected, has no status property: the handler calls
res.status with undefined and the body holds the message alone, so the response
carries no defined numeric status code. -/
theorem errorHandler_raw_error_without_status :
    (∀ err : ErrorObject, ∀ key ∈ (errorHandler err).body.map Prod.fst,
        key ∈ ["status", "title", "message"])
      ∧ (∀ (cls : ClientErrorClass) (message title : Option String) (stack : String),
          (errorHandler (cls.construct message title stack)).statusArg = some cls.status
            ∧ (errorHandler (cls.construct message title stack)).body
                = [("status", .number cls.status),
                   ("title", .string (title.getD ((httpStatus cls.status).getD "Unknown Status"))),
                   ("message", .string (cls.construct message title stack).message)])
      ∧ (∀ (cls : ServerErrorClass) (message title : Option String) (stack : String),
          (errorHandler (cls.construct message title stack)).statusArg = some cls.status
            ∧ (errorHandler (cls.construct message title stack)).body
                = [("status", .number cls.status),
                   ("title", .string (title.getD ((httpStatus cls.status).getD "Unknown Status"))),
                   ("message", .string (message.getD cls.defaultMessage))])
      ∧ errorHandler (ClientErrorClass.ForbiddenError.construct (some "custom message") none
            "at isAdmin")
          = { statusArg := some 403,
              body := [("status", .number 403), ("title", .string "Forbidden"),
                       ("message",
                         .string "You do not have permission to access this resource")] }
      ∧ errorHandler (ClientErrorClass.NotFoundError.construct (some "custom message") none
            "at handler")
          = { statusArg := some 404,
              body := [("status", .number 404), ("title", .string "Not Found"),
                       ("message", .string "custom message")] }
      ∧ getAll (some ⟨some "ECONNREFUSED", "connect ECONNREFUSED"⟩) []
            { db := patioDb, outbox := [] }
          = (.next ⟨some "ECONNREFUSED", "connect ECONNREFUSED"⟩,
              { db := patioDb, outbox := [] })
      ∧ errorHandler (rawError ⟨some "ECONNREFUSED", "connect ECONNREFUSED"⟩ "at getAll")
          = { statusArg := none,
              body := [("message", .string "connect ECONNREFUSED")] }
      ∧ ∀ (err : JsError) (stack : String),
          (errorHandler (rawError err stack)).statusArg = none := by
  refine ⟨?_, fun cls message title stack => ⟨rfl, rfl⟩,
    fun cls message title stack => ⟨rfl, rfl⟩, by rfl, by rfl, by rfl, by rfl,
    fun _ _ => rfl⟩
  intro err key hkey
  unfold errorHandler at hkey
  simp only [List.map_append, List.mem_append, List.map_cons, List.map_nil,
    List.mem_singleton] at hkey
  rcases hkey with (hkey | hkey) | hkey
  · cases hs : err.status with
    | none => simp [hs] at hkey
    | some code => simp [hs] at hkey; simp [hkey]
  · cases ht : err.title with
    | none => simp [ht] at hkey
    | some title => simp [ht] at hkey; simp [hkey]
  · simp [hkey]

/-! ## C22: two booking phases interleaved -/

/-- What one action of a booking phase can do, case by case. -/
theorem Attempt.step_cases (st : Storage) (action : Action) (db : Db) (a : Attempt) :
    a.step st action db = (db, a)
    ∨ (a.reservationId = none ∧ a.response = none
        ∧ ∃ d t g s u, a.date = some d ∧ a.time = some t
            ∧ a.step st action db
              = ({ db with
                    reservations := db.reservations ++ [⟨db.nextReservationId, d, t, g, s, u⟩],
                    nextReservationId := db.nextReservationId + 1 },
                 { a with reservationId := some db.nextReservationId,
                          pending := a.selectedTables }))
    ∨ (a.reservationId = none ∧ a.response = none
        ∧ ∃ err, a.step st action db = (db, { a with response := some (classify err) }))
    ∨ (∃ r k table d t, a.reservationId = some r ∧ a.pending.get? k = some table
        ∧ a.date = some d ∧ a.time = some t
        ∧ (st.uniqueSlot = true →
            ∀ x ∈ db.assignments, ¬ (x.table_id = table.id ∧ x.date = d ∧ x.time = t))
        ∧ a.step st action db
            = ({ db with assignments := db.assignments ++ [assignmentRow r d t table] },
               { a with pending := a.pending.eraseIdx k }))
    ∨ (∃ r k table err, a.reservationId = some r ∧ a.pending.get? k = some table
        ∧ (∀ d t, a.date = some d → a.time = some t → err.code = some "ER_DUP_ENTRY")
        ∧ a.step st action db
            = (db, { a with pending := a.pending.eraseIdx k,
                            caught := some (a.caught.getD err) }))
    ∨ (∃ r err, a.reservationId = some r ∧ a.response = none
        ∧ (a.caught = some err ∨ (a.caught = none ∧ a.pending = []))
        ∧ a.step st action db
            = ((deleteById st db (some r)).2, { a with response := some (classify err) }))
    ∨ (∃ r, a.reservationId = some r ∧ a.response = none ∧ a.caught = none ∧ a.pending = []
        ∧ a.step st action db
            = (db, { a with response := some (.created 200 "Reservation succesful" r) })) := by
  cases action with
  | reserve =>
      cases hr : a.reservationId with
      | some r => left; simp only [Attempt.step, hr]
      | none =>
          cases hresp : a.response with
          | some resp => left; simp only [Attempt.step, hr, hresp]
          | none =>
              cases hins : insertReservation st db a.date a.time a.guests a.status a.user_id with
              | error err =>
                  right; right; left
                  refine ⟨rfl, rfl, err, ?_⟩
                  simp only [Attempt.step, hr, hresp, hins, compensate, deleteById]
              | ok p =>
                  obtain ⟨r, db1⟩ := p
                  obtain ⟨d, t, g, s, u, hd, ht, -, -, -, hrid, hdb⟩ :=
                    insertReservation_ok st db _ _ _ _ _ r db1 hins
                  subst hrid
                  right; left
                  refine ⟨rfl, rfl, d, t, g, s, u, hd, ht, ?_⟩
                  simp only [Attempt.step, hr, hresp, hins, hdb]
  | insert k =>
      cases hr : a.reservationId with
      | none => left; simp only [Attempt.step, hr]
      | some r =>
          cases hk : a.pending.get? k with
          | none => left; simp only [Attempt.step, hr, hk]
          | some table =>
              cases hins : insertReservationTable st db r a.date a.time table.id with
              | error err =>
                  right; right; right; right; left
                  refine ⟨r, k, table, err, rfl, hk, ?_, ?_⟩
                  · intro d t hd ht
                    rw [hd, ht] at hins
                    simp only [insertReservationTable] at hins
                    split at hins
                    · injection hins with hins
                      rw [← hins]
                    · exact absurd hins (by simp)
                  · simp only [Attempt.step, hr, hk, hins]
                    cases a.caught <;> rfl
              | ok db1 =>
                  right; right; right; left
                  cases hd : a.date with
                  | none => simp [insertReservationTable, hd] at hins
                  | some d =>
                      cases ht : a.time with
                      | none => simp [insertReservationTable, hd, ht] at hins
                      | some t =>
                          simp only [insertReservationTable, hd, ht] at hins
                          split at hins
                          · exact absurd hins (by simp)
                          · rename_i hfree
                            injection hins with hins
                            refine ⟨r, k, table, d, t, rfl, hk, rfl, rfl, ?_, ?_⟩
                            · intro hu x hx hs
                              apply hfree
                              simp only [hu, Bool.true_and, List.any_eq_true]
                              exact ⟨x, hx, by simp [hs.1, hs.2.1, hs.2.2]⟩
                            · simp only [Attempt.step, hr, hk, insertReservationTable, hd, ht,
                                hfree, if_false]
                              rfl
  | resume =>
      cases hresp : a.response with
      | some resp => left; simp only [Attempt.step, hresp]
      | none =>
          cases hr : a.reservationId with
          | none => left; simp only [Attempt.step, hresp, hr]
          | some r =>
              cases hc : a.caught with
              | some err =>
                  right; right; right; right; right; left
                  refine ⟨r, err, rfl, rfl, Or.inl rfl, ?_⟩
                  simp only [Attempt.step, hresp, hr, hc, compensate]
              | none =>
                  by_cases hp : a.pending.isEmpty = true
                  · have hnil : a.pending = [] := List.isEmpty_iff.mp hp
                    cases hu : getUserById db a.user_id with
                    | none =>
                        right; right; right; right; right; left
                        refine ⟨r, ⟨none, "Cannot read properties of null (reading email)"⟩,
                          rfl, rfl, Or.inr ⟨rfl, hnil⟩, ?_⟩
                        simp only [Attempt.step, hresp, hr, hc, hp, if_true, hu, compensate]
                    | some user =>
                        right; right; right; right; right; right
                        refine ⟨r, rfl, rfl, rfl, hnil, ?_⟩
                        simp only [Attempt.step, hresp, hr, hc, hp, if_true, hu]
                  · left
                    simp only [Attempt.step, hresp, hr, hc, hp, Bool.false_eq_true, if_false]

theorem deleteById_nextReservationId (st : Storage) (db : Db) (id : Option Nat) :
    (deleteById st db id).2.nextReservationId = db.nextReservationId := by
  unfold deleteById
  cases id with
  | none => rfl
  | some i =>
      simp only
      split <;> rfl

theorem keeps_refl (r : Nat) (db : Db) : Keeps r db db :=
  ⟨Nat.le_refl _, fun _ h _ => h, fun _ h _ => h, fun _ h _ => h⟩

/-- The compensating delete of one reservation keeps what concerns the others. -/
theorem deleteById_keeps (st : Storage) (db : Db) (i r : Nat) (h : r ≠ i) :
    Keeps r db (deleteById st db (some i)).2 := by
  refine ⟨Nat.le_of_eq (deleteById_nextReservationId st db (some i)).symm, ?_, ?_, ?_⟩
  · intro row hrow hid
    rw [(deleteById_reservations st db i).1, List.mem_filter]
    refine ⟨hrow, ?_⟩
    simp only [bne_iff_ne, ne_eq, hid]
    exact h
  · intro row hrow _
    rw [(deleteById_reservations st db i).1, List.mem_filter] at hrow
    exact hrow.1
  · intro x hx hid
    unfold deleteById
    simp only
    split
    · simp only
      split
      · rw [List.mem_filter]
        refine ⟨hx, ?_⟩
        simp only [bne_iff_ne, ne_eq, hid]
        exact h
      · exact hx
    · exact hx

theorem mem_eraseIdx_or_eq {α : Type} (x y : α) :
    ∀ (l : List α) (k : Nat), x ∈ l → l.get? k = some y → x ∈ l.eraseIdx k ∨ x = y := by
  intro l
  induction l with
  | nil => intro k hx; cases hx
  | cons z rest ih =>
      intro k hx hk
      cases k with
      | zero =>
          simp only [List.get?_cons_zero, Option.some.injEq] at hk
          rcases List.mem_cons.mp hx with hxz | hxr
          · right; rw [hxz, hk]
          · left; simpa using hxr
      | succ k =>
          simp only [List.get?_cons_succ] at hk
          rcases List.mem_cons.mp hx with hxz | hxr
          · left; simp [hxz]
          · rcases ih k hxr hk with hmem | heq
            · left; simp [hmem]
            · right; exact heq

/-- An action of one booking phase keeps what concerns every reservation id
already handed out to somebody else. -/
theorem Attempt.step_keeps (st : Storage) (action : Action) (db : Db) (a : Attempt) (r : Nat)
    (hr : r < db.nextReservationId) (hne : a.reservationId ≠ some r) :
    Keeps r db (a.step st action db).1 := by
  rcases Attempt.step_cases st action db a with
    h | ⟨_, _, d, t, g, s, u, _, _, h⟩ | ⟨_, _, err, h⟩ | ⟨r2, k, table, d, t, _, _, _, _, _, h⟩
      | ⟨r2, k, table, err, _, _, _, h⟩ | ⟨r2, err, hr2, _, _, h⟩ | ⟨r2, _, _, _, _, h⟩
  · rw [h]; exact keeps_refl r db
  · rw [h]
    refine ⟨Nat.le_succ _, fun row hrow _ => List.mem_append_left _ hrow, ?_,
      fun x hx _ => hx⟩
    intro row hrow hid
    rcases List.mem_append.mp hrow with hold | hnew
    · exact hold
    · rw [List.mem_singleton] at hnew
      rw [hnew] at hid
      simp only at hid
      omega
  · rw [h]; exact keeps_refl r db
  · rw [h]
    exact ⟨Nat.le_refl _, fun _ hrow _ => hrow, fun _ hrow _ => hrow,
      fun x hx _ => List.mem_append_left _ hx⟩
  · rw [h]; exact keeps_refl r db
  · rw [h]
    apply deleteById_keeps
    intro heq
    apply hne
    rw [hr2, heq]
  · rw [h]; exact keeps_refl r db

/-- An action of a booking phase keeps the ids in use below the next id. -/
theorem Attempt.step_fresh (st : Storage) (action : Action) (db : Db) (a : Attempt)
    (hfr : FreshReservationId db) (hlt : ∀ r, a.reservationId = some r → r < db.nextReservationId) :
    FreshReservationId (a.step st action db).1 := by
  rcases Attempt.step_cases st action db a with
    h | ⟨_, _, d, t, g, s, u, _, _, h⟩ | ⟨_, _, err, h⟩ | ⟨r2, k, table, d, t, hr2, _, _, _, _, h⟩
      | ⟨r2, k, table, err, _, _, _, h⟩ | ⟨r2, err, hr2, _, _, h⟩ | ⟨r2, _, _, _, _, h⟩
  · rw [h]; exact hfr
  · rw [h]
    refine ⟨?_, ?_⟩
    · intro row hrow
      rcases List.mem_append.mp hrow with hold | hnew
      · exact Nat.lt_succ_of_lt (hfr.1 row hold)
      · rw [List.mem_singleton] at hnew
        rw [hnew]
        exact Nat.lt_succ_self _
    · intro x hx
      exact Nat.lt_succ_of_lt (hfr.2 x hx)
  · rw [h]; exact hfr
  · rw [h]
    refine ⟨hfr.1, ?_⟩
    intro x hx
    rcases List.mem_append.mp hx with hold | hnew
    · exact hfr.2 x hold
    · rw [List.mem_singleton] at hnew
      rw [hnew]
      exact hlt r2 hr2
  · rw [h]; exact hfr
  · rw [h]
    refine ⟨?_, ?_⟩
    · intro row hrow
      rw [deleteById_nextReservationId]
      rw [(deleteById_reservations st db r2).1, List.mem_filter] at hrow
      exact hfr.1 row hrow.1
    · intro x hx
      rw [deleteById_nextReservationId]
      exact hfr.2 x ((deleteById_assignments_sublist st db (some r2)).subset hx)
  · rw [h]; exact hfr

/-- Under the uniqueness constraint an action of a booking phase keeps the
ledger free of conflicts. -/
theorem Attempt.step_conflictFree (st : Storage) (action : Action) (db : Db) (a : Attempt)
    (hu : st.uniqueSlot = true) (hcf : ConflictFree db.assignments) :
    ConflictFree (a.step st action db).1.assignments := by
  rcases Attempt.step_cases st action db a with
    h | ⟨_, _, d, t, g, s, u, _, _, h⟩ | ⟨_, _, err, h⟩ | ⟨r2, k, table, d, t, _, _, _, _, hfree, h⟩
      | ⟨r2, k, table, err, _, _, _, h⟩ | ⟨r2, err, _, _, _, h⟩ | ⟨r2, _, _, _, _, h⟩
  · rw [h]; exact hcf
  · rw [h]; exact hcf
  · rw [h]; exact hcf
  · rw [h]
    unfold ConflictFree at hcf ⊢
    simp only
    rw [List.pairwise_append]
    refine ⟨hcf, List.pairwise_singleton _ _, ?_⟩
    intro x hx y hy hs
    rw [List.mem_singleton] at hy
    subst hy
    exact hfree hu x hx hs
  · rw [h]; exact hcf
  · rw [h]
    exact List.Pairwise.sublist (deleteById_assignments_sublist st db (some r2)) hcf
  · rw [h]; exact hcf

/-- The variable reservationId is written once, by line 91, with the id the
storage hands out. -/
theorem Attempt.step_reservationId (st : Storage) (action : Action) (db : Db) (a : Attempt)
    (r : Nat) (hr : (a.step st action db).2.reservationId = some r) :
    a.reservationId = some r ∨ (a.reservationId = none ∧ r = db.nextReservationId) := by
  rcases Attempt.step_cases st action db a with
    h | ⟨hnone, _, d, t, g, s, u, _, _, h⟩ | ⟨_, _, err, h⟩ | ⟨r2, k, table, d, t, _, _, _, _, _, h⟩
      | ⟨r2, k, table, err, _, _, _, h⟩ | ⟨r2, err, _, _, _, h⟩ | ⟨r2, _, _, _, _, h⟩
  · rw [h] at hr; exact Or.inl hr
  · rw [h] at hr
    simp only [Option.some.injEq] at hr
    exact Or.inr ⟨hnone, hr.symm⟩
  · rw [h] at hr; exact Or.inl hr
  · rw [h] at hr; exact Or.inl hr
  · rw [h] at hr; exact Or.inl hr
  · rw [h] at hr; exact Or.inl hr
  · rw [h] at hr; exact Or.inl hr

theorem hasRow_mono (db db2 : Db) (r : Nat) (date time : Option String) (table : Table)
    (hsub : ∀ x ∈ db.assignments, x.reservation_id = r → x ∈ db2.assignments)
    (h : HasRow db r date time table) : HasRow db2 r date time table := by
  obtain ⟨d, t, hd, ht, hmem⟩ := h
  exact ⟨d, t, hd, ht, hsub _ hmem rfl⟩

/-- What holds of a booking phase survives every change of the database that
keeps what concerns its reservation id. -/
theorem Attempt.sound_of_keeps (db db2 : Db) (b : Attempt) (hs : b.Sound db)
    (hk : ∀ r, b.reservationId = some r → Keeps r db db2) : b.Sound db2 := by
  obtain ⟨h1, h2, h3, h4, h5, h6⟩ := hs
  refine ⟨?_, h2, ?_, ?_, h5, h6⟩
  · intro r hr
    exact Nat.lt_of_lt_of_le (h1 r hr) (hk r hr).1
  · intro r hr hresp
    obtain ⟨⟨row, hrow, hid⟩, hrows⟩ := h3 r hr hresp
    refine ⟨⟨row, (hk r hr).2.1 row hrow hid, hid⟩, ?_⟩
    intro hc table htable
    rcases hrows hc table htable with hp | hrow2
    · exact Or.inl hp
    · exact Or.inr (hasRow_mono db db2 r _ _ table (hk r hr).2.2.2 hrow2)
  · intro r resp hr hresp
    rcases h4 r resp hr hresp with ⟨hc, hcaught, hpend, ⟨row, hrow, hid⟩, hrows⟩ | ⟨hne, hc, hno⟩
    · left
      refine ⟨hc, hcaught, hpend, ⟨row, (hk r hr).2.1 row hrow hid, hid⟩, ?_⟩
      intro table htable
      exact hasRow_mono db db2 r _ _ table (hk r hr).2.2.2 (hrows table htable)
    · right
      refine ⟨hne, hc, ?_⟩
      intro row hrow hid
      exact hno row ((hk r hr).2.2.1 row hrow hid) hid

theorem Attempt.start_sound (db : Db) (body : Body) (selectedTables : List Table) :
    (Attempt.start body selectedTables).Sound db := by
  refine ⟨?_, ?_, ?_, ?_, ?_, ?_⟩
  · intro r hr; exact absurd hr (by simp [Attempt.start])
  · intro _
    exact ⟨rfl, rfl, fun s m r h => absurd h (by simp [Attempt.start])⟩
  · intro r hr; exact absurd hr (by simp [Attempt.start])
  · intro r resp hr; exact absurd hr (by simp [Attempt.start])
  · intro r hr; exact absurd hr (by simp [Attempt.start])
  · intro err hc; exact absurd hc (by simp [Attempt.start])

/-- An action of a booking phase keeps what holds of it. -/
theorem Attempt.step_sound (st : Storage) (action : Action) (db : Db) (a : Attempt)
    (hs : a.Sound db) : (a.step st action db).2.Sound (a.step st action db).1 := by
  obtain ⟨h1, h2, h3, h4, h5, h6⟩ := hs
  rcases Attempt.step_cases st action db a with
    h | ⟨hnone, hresp, d, t, g, s, u, hd, ht, h⟩ | ⟨hnone, hresp, err, h⟩
      | ⟨r, k, table, d, t, hr, hk, hd, ht, _, h⟩
      | ⟨r, k, table, err, hr, hk, hdup, h⟩ | ⟨r, err, hr, hresp, hc, h⟩
      | ⟨r, hr, hresp, hc, hp, h⟩
  · rw [h]; exact ⟨h1, h2, h3, h4, h5, h6⟩
  · rw [h]
    refine ⟨?_, ?_, ?_, ?_, ?_, ?_⟩
    · intro r hr
      simp only [Option.some.injEq] at hr
      simp only
      omega
    · intro hx; exact absurd hx (by simp)
    · intro r hr _
      simp only [Option.some.injEq] at hr
      refine ⟨⟨_, List.mem_append_right _ (List.mem_singleton.mpr rfl), hr⟩, ?_⟩
      intro _ table htable
      exact Or.inl htable
    · intro r resp _ hresp2
      simp only [hresp] at hresp2
      exact absurd hresp2 (by simp)
    · intro _ _; exact ⟨d, t, hd, ht⟩
    · exact h6
  · rw [h]
    refine ⟨?_, ?_, ?_, ?_, h5, h6⟩
    · intro r hr; simp only [hnone] at hr; exact absurd hr (by simp)
    · intro _
      refine ⟨(h2 hnone).1, (h2 hnone).2.1, ?_⟩
      intro s m r hx
      simp only [Option.some.injEq] at hx
      exact classify_ne_created err s m r hx
    · intro r hr; simp only [hnone] at hr; exact absurd hr (by simp)
    · intro r resp hr; simp only [hnone] at hr; exact absurd hr (by simp)
  · rw [h]
    have hmono : ∀ table2, HasRow db r a.date a.time table2 →
        HasRow { db with assignments := db.assignments ++ [assignmentRow r d t table] } r
          a.date a.time table2 :=
      fun table2 hrow => hasRow_mono db _ r _ _ table2
        (fun x hx _ => List.mem_append_left _ hx) hrow
    refine ⟨h1, ?_, ?_, ?_, h5, h6⟩
    · intro hx; simp only [hr] at hx; exact absurd hx (by simp)
    · intro r2 hr2 hresp
      have hrr : r = r2 := by
        simp only [hr, Option.some.injEq] at hr2; exact hr2
      subst hrr
      obtain ⟨hex, hrows⟩ := h3 r hr hresp
      refine ⟨hex, ?_⟩
      intro hcaught table2 htable2
      rcases hrows hcaught table2 htable2 with hpend | hrow
      · rcases mem_eraseIdx_or_eq table2 table a.pending k hpend hk with hmem | heq
        · exact Or.inl hmem
        · right
          rw [heq]
          exact ⟨d, t, hd, ht, List.mem_append_right _ (List.mem_singleton.mpr rfl)⟩
      · exact Or.inr (hmono table2 hrow)
    · intro r2 resp hr2 hresp
      have hrr : r = r2 := by
        simp only [hr, Option.some.injEq] at hr2; exact hr2
      subst hrr
      rcases h4 r resp hr hresp with ⟨_, _, hpend, _, _⟩ | ⟨hne, hc, hno⟩
      · rw [hpend] at hk; exact absurd hk (by simp)
      · right
        refine ⟨hne, ?_, hno⟩
        rcases hc with hsome | ⟨_, hpend⟩
        · exact Or.inl hsome
        · rw [hpend] at hk; exact absurd hk (by simp)
  · rw [h]
    refine ⟨h1, ?_, ?_, ?_, h5, ?_⟩
    rotate_left 3
    · intro e he
      simp only [Option.some.injEq] at he
      cases hcaught : a.caught with
      | some e2 =>
          rw [hcaught, Option.getD_some] at he
          rw [← he]
          exact h6 e2 hcaught
      | none =>
          rw [hcaught, Option.getD_none] at he
          rw [← he]
          obtain ⟨d, t, hd, ht⟩ := h5 r hr
          exact hdup d t hd ht
    · intro hx; simp only [hr] at hx; exact absurd hx (by simp)
    · intro r2 hr2 hresp
      have hrr : r = r2 := by
        simp only [hr, Option.some.injEq] at hr2; exact hr2
      subst hrr
      refine ⟨(h3 r hr hresp).1, ?_⟩
      intro hx; exact absurd hx (by simp)
    · intro r2 resp hr2 hresp
      have hrr : r = r2 := by
        simp only [hr, Option.some.injEq] at hr2; exact hr2
      subst hrr
      rcases h4 r resp hr hresp with ⟨_, _, hpend, _, _⟩ | ⟨hne, hc, hno⟩
      · rw [hpend] at hk; exact absurd hk (by simp)
      · right
        refine ⟨hne, ?_, hno⟩
        rcases hc with ⟨e, he, hcl⟩ | ⟨_, hpend⟩
        · left
          refine ⟨e, ?_, hcl⟩
          simp only [he, Option.getD_some]
        · rw [hpend] at hk; exact absurd hk (by simp)
  · rw [h]
    refine ⟨?_, ?_, ?_, ?_, h5, h6⟩
    · intro r2 hr2
      rw [deleteById_nextReservationId]
      exact h1 r2 hr2
    · intro hx; simp only [hr] at hx; exact absurd hx (by simp)
    · intro r2 _ hx; exact absurd hx (by simp)
    · intro r2 resp hr2 hresp2
      have hrr : r = r2 := by
        simp only [hr, Option.some.injEq] at hr2; exact hr2
      subst hrr
      simp only [Option.some.injEq] at hresp2
      subst hresp2
      right
      refine ⟨fun s m i => classify_ne_created err s m i, ?_, deleteById_removes st db r⟩
      rcases hc with hsome | hnone
      · exact Or.inl ⟨err, hsome, rfl⟩
      · exact Or.inr hnone
  · rw [h]
    refine ⟨h1, ?_, ?_, ?_, h5, h6⟩
    · intro hx; simp only [hr] at hx; exact absurd hx (by simp)
    · intro r2 _ hx; exact absurd hx (by simp)
    · intro r2 resp hr2 hresp2
      have hrr : r = r2 := by
        simp only [hr, Option.some.injEq] at hr2; exact hr2
      subst hrr
      simp only [Option.some.injEq] at hresp2
      subst hresp2
      left
      obtain ⟨hex, hrows⟩ := h3 r hr hresp
      refine ⟨rfl, hc, hp, hex, ?_⟩
      intro table htable
      rcases hrows hc table htable with hpend | hrow
      · rw [hp] at hpend; cases hpend
      · exact hrow

/-- Every action of either request keeps the invariant of the race. -/
theorem raceInv_step (st : Storage) (hu : st.uniqueSlot = true) (turn : Requester × Action)
    (s : Race) (hinv : RaceInv s) : RaceInv (s.step st turn) := by
  obtain ⟨who, action⟩ := turn
  cases who with
  | first =>
      refine ⟨?_, ?_, ?_, ?_, ?_⟩
      · exact Attempt.step_fresh st action s.db s.first hinv.fresh hinv.first.1
      · exact Attempt.step_conflictFree st action s.db s.first hu hinv.conflictFree
      · exact Attempt.step_sound st action s.db s.first hinv.first
      · apply Attempt.sound_of_keeps s.db _ s.second hinv.second
        intro r hr
        apply Attempt.step_keeps st action s.db s.first r (hinv.second.1 r hr)
        intro hfirst
        exact hinv.distinct r hfirst hr
      · intro r hr hsecond
        have hlt := hinv.second.1 r hsecond
        rcases Attempt.step_reservationId st action s.db s.first r hr with hold | ⟨_, hnew⟩
        · exact hinv.distinct r hold hsecond
        · omega
  | second =>
      refine ⟨?_, ?_, ?_, ?_, ?_⟩
      · exact Attempt.step_fresh st action s.db s.second hinv.fresh hinv.second.1
      · exact Attempt.step_conflictFree st action s.db s.second hu hinv.conflictFree
      · apply Attempt.sound_of_keeps s.db _ s.first hinv.first
        intro r hr
        apply Attempt.step_keeps st action s.db s.second r (hinv.first.1 r hr)
        intro hsecond
        exact hinv.distinct r hr hsecond
      · exact Attempt.step_sound st action s.db s.second hinv.second
      · intro r hfirst hr
        have hlt := hinv.first.1 r hfirst
        rcases Attempt.step_reservationId st action s.db s.second r hr with hold | ⟨_, hnew⟩
        · exact hinv.distinct r hfirst hold
        · omega

/-- Every interleaving keeps the invariant of the race. -/
theorem raceInv_run (st : Storage) (hu : st.uniqueSlot = true)
    (schedule : List (Requester × Action)) :
    ∀ s : Race, RaceInv s → RaceInv (Race.run st schedule s) := by
  induction schedule with
  | nil => intro s hinv; exact hinv
  | cons turn rest ih =>
      intro s hinv
      exact ih (s.step st turn) (raceInv_step st hu turn s hinv)

/-- The body and the selection of a request do not change during its booking
phase. -/
theorem Attempt.step_fields (st : Storage) (action : Action) (db : Db) (a : Attempt) :
    (a.step st action db).2.date = a.date ∧ (a.step st action db).2.time = a.time
      ∧ (a.step st action db).2.selectedTables = a.selectedTables := by
  rcases Attempt.step_cases st action db a with
    h | ⟨_, _, d, t, g, s, u, _, _, h⟩ | ⟨_, _, err, h⟩ | ⟨r2, k, table, d, t, _, _, _, _, _, h⟩
      | ⟨r2, k, table, err, _, _, _, h⟩ | ⟨r2, err, _, _, _, h⟩ | ⟨r2, _, _, _, _, h⟩ <;>
    rw [h] <;> exact ⟨rfl, rfl, rfl⟩

theorem race_run_fields (st : Storage) (schedule : List (Requester × Action)) :
    ∀ s : Race,
      ((Race.run st schedule s).first.date = s.first.date
        ∧ (Race.run st schedule s).first.time = s.first.time
        ∧ (Race.run st schedule s).first.selectedTables = s.first.selectedTables)
      ∧ (Race.run st schedule s).second.date = s.second.date
        ∧ (Race.run st schedule s).second.time = s.second.time
        ∧ (Race.run st schedule s).second.selectedTables = s.second.selectedTables := by
  induction schedule with
  | nil => intro s; exact ⟨⟨rfl, rfl, rfl⟩, rfl, rfl, rfl⟩
  | cons turn rest ih =>
      intro s
      obtain ⟨who, action⟩ := turn
      have hrest := ih (s.step st (who, action))
      have hf := Attempt.step_fields st action s.db s.first
      have hs := Attempt.step_fields st action s.db s.second
      cases who with
      | first =>
          refine ⟨⟨hrest.1.1.trans hf.1, hrest.1.2.1.trans hf.2.1, hrest.1.2.2.trans hf.2.2⟩,
            hrest.2⟩
      | second =>
          refine ⟨hrest.1,
            hrest.2.1.trans hs.1, hrest.2.2.1.trans hs.2.1, hrest.2.2.2.trans hs.2.2⟩

theorem race_run_cons (st : Storage) (turn : Requester × Action)
    (rest : List (Requester × Action)) (s : Race) :
    Race.run st (turn :: rest) s = Race.run st rest (s.step st turn) := rfl

theorem race_run_append (st : Storage) (xs ys : List (Requester × Action)) (s : Race) :
    Race.run st (xs ++ ys) s = Race.run st ys (Race.run st xs s) := by
  unfold Race.run
  rw [List.foldl_append]

/-- The inserts of lines 92-93 executed one after the other, in the order of the
selection, are insertAll. -/
theorem race_run_inserts (st : Storage) (r : Nat) (other : Attempt) :
    ∀ (l : List Table) (db : Db) (a : Attempt), a.reservationId = some r → a.pending = l →
      Race.run st (List.replicate l.length (Requester.first, Action.insert 0))
          { db := db, first := a, second := other }
        = { db := (insertAll st db r a.date a.time l).1,
            first := { a with
              pending := [],
              caught := (match a.caught with
                | some e => some e
                | none => (insertAll st db r a.date a.time l).2) },
            second := other } := by
  intro l
  induction l with
  | nil =>
      intro db a _ hp
      obtain ⟨date, time, guests, status, user_id, sel, rid, pending, caught, response⟩ := a
      simp only at hp
      subst hp
      cases caught <;> rfl
  | cons table rest ih =>
      intro db a hr hp
      obtain ⟨date, time, guests, status, user_id, sel, rid, pending, caught, response⟩ := a
      simp only at hp hr
      subst hp
      subst hr
      rw [List.length_cons, List.replicate_succ, race_run_cons]
      cases hins : insertReservationTable st db r date time table.id with
      | ok db1 =>
          have hstep : Race.step st (Requester.first, Action.insert 0)
              { db := db,
                first := ⟨date, time, guests, status, user_id, sel, some r, table :: rest,
                  caught, response⟩,
                second := other }
              = { db := db1,
                  first := ⟨date, time, guests, status, user_id, sel, some r, rest, caught,
                    response⟩,
                  second := other } := by
            simp only [Race.step, Attempt.step, List.get?_cons_zero, hins, List.eraseIdx_cons_zero]
          rw [hstep, ih db1 _ rfl rfl]
          simp only [insertAll, hins]
      | error err =>
          have hstep : Race.step st (Requester.first, Action.insert 0)
              { db := db,
                first := ⟨date, time, guests, status, user_id, sel, some r, table :: rest,
                  caught, response⟩,
                second := other }
              = { db := db,
                  first := ⟨date, time, guests, status, user_id, sel, some r, rest,
                    (match caught with
                      | some e => some e
                      | none => some err), response⟩,
                  second := other } := by
            simp only [Race.step, Attempt.step, List.get?_cons_zero, hins, List.eraseIdx_cons_zero]
          rw [hstep, ih db _ rfl rfl]
          simp only [insertAll, hins]
          cases caught <;> rfl

theorem race_run_inserts_idle (st : Storage) (k : Nat) (n : Nat) (s : Race)
    (h : s.first.reservationId = none) :
    Race.run st (List.replicate n (Requester.first, Action.insert k)) s = s := by
  induction n with
  | zero => rfl
  | succ n ih =>
      rw [List.replicate_succ, race_run_cons]
      have hstep : s.step st (Requester.first, Action.insert k) = s := by
        simp only [Race.step, Attempt.step, h]
      rw [hstep, ih]

/-- A booking phase that runs alone, its inserts executed in the order of the
selection, is the function book: same database, same answer, and the other
request is not touched. -/
theorem race_alone_is_book (st : Storage) (db : Db) (body : Body) (selected : List Table)
    (other : Attempt) :
    (Race.run st
        ((Requester.first, Action.reserve)
          :: (List.replicate selected.length (Requester.first, Action.insert 0)
              ++ [(Requester.first, Action.resume)]))
        { db := db, first := Attempt.start body selected, second := other }).db
        = (book st db body.date body.time body.guests body.status body.user_id selected).2
      ∧ (Race.run st
        ((Requester.first, Action.reserve)
          :: (List.replicate selected.length (Requester.first, Action.insert 0)
              ++ [(Requester.first, Action.resume)]))
        { db := db, first := Attempt.start body selected, second := other }).first.response
        = some (book st db body.date body.time body.guests body.status body.user_id selected).1
      ∧ (Race.run st
        ((Requester.first, Action.reserve)
          :: (List.replicate selected.length (Requester.first, Action.insert 0)
              ++ [(Requester.first, Action.resume)]))
        { db := db, first := Attempt.start body selected, second := other }).second = other := by
  rw [race_run_cons, race_run_append]
  cases hins : insertReservation st db body.date body.time body.guests body.status
      body.user_id with
  | error err =>
      have hstep : Race.step st (Requester.first, Action.reserve)
          { db := db, first := Attempt.start body selected, second := other }
          = { db := db,
              first := { Attempt.start body selected with response := some (classify err) },
              second := other } := by
        simp only [Race.step, Attempt.step, Attempt.start, hins, compensate, deleteById]
      rw [hstep, race_run_inserts_idle st 0 _ _ rfl]
      simp only [book, hins, compensate, deleteById]
      exact ⟨rfl, rfl, rfl⟩
  | ok p =>
      obtain ⟨r, db1⟩ := p
      have hstep : Race.step st (Requester.first, Action.reserve)
          { db := db, first := Attempt.start body selected, second := other }
          = { db := db1,
              first := { Attempt.start body selected with
                reservationId := some r, pending := selected },
              second := other } := by
        simp only [Race.step, Attempt.step, Attempt.start, hins]
      rw [hstep, race_run_inserts st r other selected db1 _ rfl rfl]
      simp only [book, hins, Attempt.start]
      cases hall : insertAll st db1 r body.date body.time selected with
      | mk db2 caught =>
          cases caught with
          | some err =>
              simp only [Race.run, List.foldl, Race.step, Attempt.step, compensate]
              exact ⟨trivial, trivial, trivial⟩
          | none =>
              cases hu : getUserById db2 body.user_id with
              | none =>
                  simp only [Race.run, List.foldl, Race.step, Attempt.step, compensate,
                    List.isEmpty_nil, if_true, hu]
                  exact ⟨trivial, trivial, trivial⟩
              | some user =>
                  simp only [Race.run, List.foldl, Race.step, Attempt.step,
                    List.isEmpty_nil, if_true, hu]
                  exact ⟨trivial, trivial, trivial⟩

theorem raceInv_start (db : Db) (body1 body2 : Body) (selected1 selected2 : List Table)
    (hcf : ConflictFree db.assignments) (hfresh : FreshReservationId db) :
    RaceInv (Race.start db body1 selected1 body2 selected2) :=
  ⟨hfresh, hcf, Attempt.start_sound db body1 selected1, Attempt.start_sound db body2 selected2,
    fun r hr => absurd hr (by simp [Race.start, Attempt.start])⟩

/-- What holds of a booking phase gives the outcome of a request that has
answered. -/
theorem Attempt.sound_outcome (db : Db) (x : Attempt) (hs : x.Sound db) :
    (∀ err, x.caught = some err → ∀ resp, x.response = some resp →
        err.code = some "ER_DUP_ENTRY" ∧ resp = .message 409 "Tables already reserved"
          ∧ ∃ r, x.reservationId = some r ∧ ∀ row ∈ db.reservations, row.id ≠ r)
      ∧ ∀ status msg r, x.response = some (.created status msg r) →
          x.reservationId = some r ∧ x.caught = none
            ∧ (∃ row ∈ db.reservations, row.id = r)
            ∧ ∀ table ∈ x.selectedTables, HasRow db r x.date x.time table := by
  obtain ⟨_, h2, _, h4, _, h6⟩ := hs
  refine ⟨?_, ?_⟩
  · intro err hc resp hresp
    cases hr : x.reservationId with
    | none =>
        rw [(h2 hr).1] at hc
        exact absurd hc (by simp)
    | some r =>
        rcases h4 r resp hr hresp with ⟨_, hnone, _⟩ | ⟨_, hcl, hno⟩
        · rw [hnone] at hc
          exact absurd hc (by simp)
        · rcases hcl with ⟨e, he, hresp2⟩ | ⟨hnone, _⟩
          · rw [hc, Option.some.injEq] at he
            subst he
            refine ⟨h6 err hc, ?_, r, rfl, hno⟩
            rw [hresp2]
            exact (classify_iff err).1.mpr (h6 err hc)
          · rw [hnone] at hc
            exact absurd hc (by simp)
  · intro status msg r hresp
    cases hr : x.reservationId with
    | none => exact absurd hresp ((h2 hr).2.2 status msg r)
    | some r2 =>
        rcases h4 r2 _ hr hresp with ⟨heq, hnone, _, hex, hrows⟩ | ⟨hne, _, _⟩
        · simp only [Response.created.injEq] at heq
          obtain ⟨_, _, hrr⟩ := heq
          subst hrr
          exact ⟨rfl, hnone, hex, hrows⟩
        · exact absurd rfl (hne status msg r)

/-- In a ledger free of conflicts two reservations do not both hold the same
table in the same slot. -/
theorem hasRow_exclusive (db : Db) (hcf : ConflictFree db.assignments) (r1 r2 : Nat)
    (hne : r1 ≠ r2) (date time : Option String) (table : Table)
    (h1 : HasRow db r1 date time table) (h2 : HasRow db r2 date time table) : False := by
  obtain ⟨d, t, hd, ht, hm1⟩ := h1
  obtain ⟨d2, t2, hd2, ht2, hm2⟩ := h2
  rw [hd, Option.some.injEq] at hd2
  rw [ht, Option.some.injEq] at ht2
  subst hd2
  subst ht2
  unfold ConflictFree at hcf
  have hsymm : Symmetric (fun a b : ReservationHasTable => ¬ sameSlot a b) := by
    intro a b hab hba
    exact hab ⟨hba.1.symm, hba.2.1.symm, hba.2.2.symm⟩
  have hdiff : assignmentRow r1 d t table ≠ assignmentRow r2 d t table := by
    intro heq
    apply hne
    simpa [assignmentRow] using heq
  exact List.Pairwise.forall hsymm hcf hm1 hm2 hdiff ⟨rfl, rfl, rfl⟩

/-- C22 (counterexample). First-committer-wins fails for an interleaving in
which each request loses one table to the other. Two requests for a party of 5 at
the patio, same date and time, both scan the empty ledger and both select [A, B].
Both insert their reservation; the first request's insert for A and the second
request's insert for B are executed; then the first is rejected on B and the
second on A. Both requests answer 409 "Tables already reserved", both
reservation rows are deleted and no reservation persists. With cascade no
assignment row for A or B is left; without it one orphan row for each stays. -/
theorem crossed_requests_both_lose :
    allocate patioDb (patioBody 5).location (patioBody 5).date (patioBody 5).time
        (patioBody 5).guests = .ok [tableA, tableB]
      ∧ (Race.run cascadeStorage crossedSchedule crossedRace).first.response
          = some (.message 409 "Tables already reserved")
      ∧ (Race.run cascadeStorage crossedSchedule crossedRace).second.response
          = some (.message 409 "Tables already reserved")
      ∧ (Race.run cascadeStorage crossedSchedule crossedRace).db.reservations = []
      ∧ (Race.run cascadeStorage crossedSchedule crossedRace).db.assignments = []
      ∧ (Race.run plainStorage crossedSchedule crossedRace).first.response
          = some (.message 409 "Tables already reserved")
      ∧ (Race.run plainStorage crossedSchedule crossedRace).second.response
          = some (.message 409 "Tables already reserved")
      ∧ (Race.run plainStorage crossedSchedule crossedRace).db.reservations = []
      ∧ (Race.run plainStorage crossedSchedule crossedRace).db.assignments
          = [⟨1, 1, "2025-01-01", "dinner"⟩, ⟨2, 2, "2025-01-01", "dinner"⟩] :=
  ⟨by rfl, by rfl, by rfl, by rfl, by rfl, by rfl, by rfl, by rfl, by rfl⟩

/-- C22 (amended). Under the uniqueness constraint, from a ledger free of
conflicts with fresh reservation ids, for every interleaving of the booking
phases of two createByLocation requests (whatever their selections): (1) at the
end no two assignment rows share (table, date, time), so at most one row for
(T, date, time) is persisted; (2) a request that has answered after one of its
inserts was rejected was rejected with ER_DUP_ENTRY, answered 409 "Tables already
reserved", and no reservation row with its id is left; (3) a request that has
answered 200 has its reservation row and one assignment row for every table of
its selection in the ledger; (4) the requests keep their date, time and
selection, and when the selections share a table for the same date and time, at
most one of the two requests answers 200. That one of them wins is not
guaranteed. -/
theorem interleaved_bookings_outcome (st : Storage) (db : Db) (body1 body2 : Body)
    (selected1 selected2 : List Table) (schedule : List (Requester × Action))
    (hu : st.uniqueSlot = true) (hcf : ConflictFree db.assignments)
    (hfresh : FreshReservationId db) :
    ConflictFree
        (Race.run st schedule (Race.start db body1 selected1 body2 selected2)).db.assignments
      ∧ (∀ x : Attempt,
          (x = (Race.run st schedule (Race.start db body1 selected1 body2 selected2)).first
            ∨ x = (Race.run st schedule (Race.start db body1 selected1 body2 selected2)).second) →
          (∀ err, x.caught = some err → ∀ resp, x.response = some resp →
              err.code = some "ER_DUP_ENTRY" ∧ resp = .message 409 "Tables already reserved"
                ∧ ∃ r, x.reservationId = some r
                    ∧ ∀ row ∈ (Race.run st schedule
                          (Race.start db body1 selected1 body2 selected2)).db.reservations,
                        row.id ≠ r)
            ∧ ∀ status msg r, x.response = some (.created status msg r) →
                x.reservationId = some r ∧ x.caught = none
                  ∧ (∃ row ∈ (Race.run st schedule
                          (Race.start db body1 selected1 body2 selected2)).db.reservations,
                        row.id = r)
                  ∧ ∀ table ∈ x.selectedTables,
                      HasRow (Race.run st schedule
                          (Race.start db body1 selected1 body2 selected2)).db
                        r x.date x.time table)
      ∧ ((Race.run st schedule (Race.start db body1 selected1 body2 selected2)).first.date
            = body1.date
          ∧ (Race.run st schedule (Race.start db body1 selected1 body2 selected2)).first.time
              = body1.time
          ∧ (Race.run st schedule
                (Race.start db body1 selected1 body2 selected2)).first.selectedTables
              = selected1
          ∧ (Race.run st schedule (Race.start db body1 selected1 body2 selected2)).second.date
              = body2.date
          ∧ (Race.run st schedule (Race.start db body1 selected1 body2 selected2)).second.time
              = body2.time
          ∧ (Race.run st schedule
                (Race.start db body1 selected1 body2 selected2)).second.selectedTables
              = selected2)
      ∧ ∀ table, table ∈ selected1 → table ∈ selected2 → body1.date = body2.date →
          body1.time = body2.time →
          ∀ status1 msg1 r1 status2 msg2 r2,
            ¬ ((Race.run st schedule
                  (Race.start db body1 selected1 body2 selected2)).first.response
                  = some (.created status1 msg1 r1)
                ∧ (Race.run st schedule
                    (Race.start db body1 selected1 body2 selected2)).second.response
                  = some (.created status2 msg2 r2)) := by
  have hinv := raceInv_run st hu schedule _ (raceInv_start db body1 body2 selected1 selected2
    hcf hfresh)
  have hfields := race_run_fields st schedule (Race.start db body1 selected1 body2 selected2)
  refine ⟨hinv.conflictFree, ?_, ?_, ?_⟩
  · intro x hx
    rcases hx with hx | hx
    · rw [hx]; exact Attempt.sound_outcome _ _ hinv.first
    · rw [hx]; exact Attempt.sound_outcome _ _ hinv.second
  · exact ⟨hfields.1.1, hfields.1.2.1, hfields.1.2.2, hfields.2.1, hfields.2.2.1,
      hfields.2.2.2⟩
  · intro table hm1 hm2 hdate htime status1 msg1 r1 status2 msg2 r2 hboth
    obtain ⟨hrid1, _, _, hrows1⟩ :=
      (Attempt.sound_outcome _ _ hinv.first).2 status1 msg1 r1 hboth.1
    obtain ⟨hrid2, _, _, hrows2⟩ :=
      (Attempt.sound_outcome _ _ hinv.second).2 status2 msg2 r2 hboth.2
    have hne : r1 ≠ r2 := by
      intro heq
      subst heq
      exact hinv.distinct r1 hrid1 hrid2
    have hrow1 := hrows1 table (by rw [hfields.1.2.2]; exact hm1)
    have hrow2 := hrows2 table (by rw [hfields.2.2.2]; exact hm2)
    rw [hfields.1.1, hfields.1.2.1] at hrow1
    rw [hfields.2.1, hfields.2.2.1] at hrow2
    have hd1 : (Race.start db body1 selected1 body2 selected2).first.date = body1.date := rfl
    have ht1 : (Race.start db body1 selected1 body2 selected2).first.time = body1.time := rfl
    have hd2 : (Race.start db body1 selected1 body2 selected2).second.date = body2.date := rfl
    have ht2 : (Race.start db body1 selected1 body2 selected2).second.time = body2.time := rfl
    rw [hd1, ht1] at hrow1
    rw [hd2, ht2, ← hdate, ← htime] at hrow2
    exact hasRow_exclusive _ hinv.conflictFree r1 r2 hne _ _ table hrow1 hrow2

theorem interleaved_bookings_outcome_witness :
    plainStorage.uniqueSlot = true ∧ ConflictFree patioDb.assignments
      ∧ FreshReservationId patioDb
      ∧ ConflictFree (Race.run plainStorage firstThenSecond crossedRace).db.assignments
      ∧ (Race.run plainStorage firstThenSecond crossedRace).first.response
          = some (.created 200 "Reservation succesful" 1)
      ∧ (Race.run plainStorage firstThenSecond crossedRace).second.response
          = some (.message 409 "Tables already reserved")
      ∧ (Race.run plainStorage firstThenSecond crossedRace).db.reservations
          = [⟨1, "2025-01-01", "dinner", 5, "pending", 1⟩]
      ∧ (Race.run plainStorage firstThenSecond crossedRace).db.assignments
          = [⟨1, 1, "2025-01-01", "dinner"⟩, ⟨1, 2, "2025-01-01", "dinner"⟩] :=
  ⟨rfl, by decide, by decide,
    (interleaved_bookings_outcome plainStorage patioDb (patioBody 5) (patioBody 5)
      [tableA, tableB] [tableA, tableB] firstThenSecond rfl (by decide) (by decide)).1,
    by rfl, by rfl, by rfl, by rfl⟩

end CRM
